import Mathlib

/-!
# dbng: the resource-config find-or-create transaction step

A shallow embedding of `src/dbng/resource_config.go`.

The Go function `ResourceConfig.findOrCreate` runs four SQL statements against the
transaction it is handed.  Here the transaction is an explicit value (`Store`, the two
tables the function touches), every statement is a function on that value, and the
things the function cannot decide by itself are inputs:

* `Env` holds the collaborators declared outside `resource_config.go`
  (`mapHash`, `BaseResourceType.Find`, `ResourceUser.UseResourceCache`);
* `Faults` holds what the storage layer answers to each statement of one call
  (a driver error, or nothing) and the id the `RETURNING id` clause hands back.
-/

namespace Dbng

/-! ## Errors -/

/-- The `ResourceUser` interface value handed to `findOrCreate`; only its identity is
needed here (it is carried by `UserDisappearedError`). -/
structure ResourceUser where
  Description : String
  deriving DecidableEq, Repr

/-- An error produced by the SQL driver for one statement: either a `*pq.Error`, of which
the code reads `Code.Name()` and `Constraint`, or any other failure. -/
inductive DriverError where
  | pq (codeName : String) (constraint : String)
  | failure (msg : String)
  deriving DecidableEq, Repr

/-- The Go `error` values that occur in `findOrCreate`. -/
inductive Err where
  /-- The value `sql.ErrNoRows`. -/
  | ErrNoRows
  /-- An error of the storage driver. -/
  | driver (e : DriverError)
  | ErrSafeRetryFindOrCreate
  | ErrBaseResourceTypeNotFound
  | ErrResourceConfigAlreadyExists
  | ErrResourceConfigDisappeared
  | ErrResourceConfigParentDisappeared
  /-- The value `UserDisappearedError{user}`. -/
  | UserDisappearedError (user : ResourceUser)
  /-- Any other error value a collaborator may return. -/
  | collaborator (msg : String)
  deriving DecidableEq, Repr

/-! ## Descriptor and result -/

/-- The type `atc.Source`, a string-keyed mapping; its content is only ever passed to
`mapHash`. -/
abbrev Source := List (String × String)

/-- The type `ResourceCache`, declared outside `resource_config.go`: the descriptor of a
cache produced by another resource.  `findOrCreate` reads none of its fields and only
passes it on to `UseResourceCache`; `Key` stands for its content. -/
structure ResourceCache where
  Key : String
  deriving DecidableEq, Repr

/-- The type `BaseResourceType`, declared outside `resource_config.go`: a resource type
provided by a worker.  `findOrCreate` only calls its `Find`. -/
structure BaseResourceType where
  Name : String
  deriving DecidableEq, Repr

/-- The type `UsedResourceCache`, of which `findOrCreate` reads the `ID`. -/
structure UsedResourceCache where
  ID : Int
  deriving DecidableEq, Repr

/-- The type `UsedBaseResourceType`, of which `findOrCreate` reads the `ID`. -/
structure UsedBaseResourceType where
  ID : Int
  deriving DecidableEq, Repr

/-- The descriptor `ResourceConfig`; a nil pointer is `none`. -/
structure ResourceConfig where
  CreatedByResourceCache : Option ResourceCache
  CreatedByBaseResourceType : Option BaseResourceType
  Source : Source
  deriving DecidableEq, Repr

/-- The result `UsedResourceConfig`; a nil pointer is `none`. -/
structure UsedResourceConfig where
  ID : Int := 0
  CreatedByResourceCache : Option UsedResourceCache := none
  CreatedByBaseResourceType : Option UsedBaseResourceType := none
  deriving DecidableEq, Repr

/-! ## The two tables -/

/-- Modelled from the spec: the two nullable parent columns of `resource_configs`; the
table is declared by the migrations, outside `resource_config.go`. -/
inductive ParentColumn where
  | resource_cache_id
  | base_resource_type_id
  deriving DecidableEq, Repr

/-- Modelled from the spec: the three nullable user columns of `resource_config_uses`;
the table is declared by the migrations, outside `resource_config.go`. -/
inductive UserColumn where
  | build_id
  | resource_id
  | resource_type_id
  deriving DecidableEq, Repr

/-- Modelled from the spec: a row of the table
`resource_configs(id, resource_cache_id NULLABLE, base_resource_type_id NULLABLE, source_hash)`.
Nothing is assumed of the rows a table starts with, not even that exactly one parent
column is set. -/
structure ResourceConfigRow where
  id : Int
  resource_cache_id : Option Int
  base_resource_type_id : Option Int
  source_hash : String
  deriving DecidableEq, Repr

/-- Modelled from the spec: a row of the table `resource_config_uses(resource_config_id,
build_id NULLABLE, resource_id NULLABLE, resource_type_id NULLABLE)`. -/
structure ResourceConfigUseRow where
  resource_config_id : Int
  build_id : Option Int
  resource_id : Option Int
  resource_type_id : Option Int
  deriving DecidableEq, Repr

/-- The value a config row holds in a parent column. -/
def ResourceConfigRow.parent (r : ResourceConfigRow) : ParentColumn → Option Int
  | .resource_cache_id => r.resource_cache_id
  | .base_resource_type_id => r.base_resource_type_id

/-- The value a usage row holds in a user column. -/
def ResourceConfigUseRow.user (r : ResourceConfigUseRow) : UserColumn → Option Int
  | .build_id => r.build_id
  | .resource_id => r.resource_id
  | .resource_type_id => r.resource_type_id

/-- The parent column a column name denotes, if any. -/
def parentColumn? (name : String) : Option ParentColumn :=
  if name = "resource_cache_id" then some .resource_cache_id
  else if name = "base_resource_type_id" then some .base_resource_type_id
  else none

/-- The user column a column name denotes, if any. -/
def userColumn? (name : String) : Option UserColumn :=
  if name = "build_id" then some .build_id
  else if name = "resource_id" then some .resource_id
  else if name = "resource_type_id" then some .resource_type_id
  else none

/-- The tables as seen through the transaction `tx`, in insertion order. -/
structure Store where
  resource_configs : List ResourceConfigRow
  resource_config_uses : List ResourceConfigUseRow
  deriving DecidableEq, Repr

/-- The row `INSERT INTO resource_configs (<parent column>, source_hash)` creates: the
column not named stays NULL. -/
def newConfigRow (id : Int) (c : ParentColumn) (parentID : Int) (hash : String) :
    ResourceConfigRow :=
  match c with
  | .resource_cache_id => ⟨id, some parentID, none, hash⟩
  | .base_resource_type_id => ⟨id, none, some parentID, hash⟩

/-- The row `INSERT INTO resource_config_uses (resource_config_id, <user column>)`
creates: the columns not named stay NULL. -/
def newUseRow (id : Int) (c : UserColumn) (userID : Int) : ResourceConfigUseRow :=
  match c with
  | .build_id => ⟨id, some userID, none, none⟩
  | .resource_id => ⟨id, none, some userID, none⟩
  | .resource_type_id => ⟨id, none, none, some userID⟩

/-- The `WHERE <parent column> = parentID AND source_hash = hash` condition. -/
def configMatches (c : ParentColumn) (parentID : Int) (hash : String)
    (r : ResourceConfigRow) : Bool :=
  decide (r.parent c = some parentID) && decide (r.source_hash = hash)

/-- The `WHERE resource_config_id = id AND <user column> = userID` condition. -/
def useMatches (id : Int) (c : UserColumn) (userID : Int) (r : ResourceConfigUseRow) : Bool :=
  decide (r.resource_config_id = id) && decide (r.user c = some userID)

/-- The `WHERE resource_config_id = forColumnID` condition: what the literal
`sq.Eq{"resource_config_id": id, forColumnName: forColumnID}` (lines 129-132) amounts to
when `forColumnName` is `resource_config_id` itself.  The two keys of the Go map are then
one key, which holds the value written last, and the config id is not part of the
condition. -/
def useMatchesCollapsed (forColumnID : Int) (r : ResourceConfigUseRow) : Bool :=
  decide (r.resource_config_id = forColumnID)

/-! ## Statements and their outcome -/

/-- The SQL statements `findOrCreate` issues, with their arguments. -/
inductive Stmt where
  | selectConfig (parentColumnName : String) (parentID : Int) (hash : String)
  | insertConfig (parentColumnName : String) (parentID : Int) (hash : String)
  | selectUse (id : Int) (forColumnName : String) (forColumnID : Int)
  | insertUse (id : Int) (forColumnName : String) (forColumnID : Int)
  deriving DecidableEq, Repr

/-- What the storage layer answers during one call: for each of the four statements the
driver error it fails with, if it does, and the id assigned to an inserted config row. -/
structure Faults where
  selectConfig : Option DriverError := none
  insertConfig : Option DriverError := none
  selectUse : Option DriverError := none
  insertUse : Option DriverError := none
  newConfigID : Int := 1
  deriving DecidableEq, Repr

/-- The collaborators of `findOrCreate` that are declared outside `resource_config.go`.
`Find` only reads; `UseResourceCache` is handed the transaction and may write to it
(resolving a cache finds or creates the cache's own config), so it returns the tables as
it leaves them together with its result. -/
structure Env where
  mapHash : Source → String
  Find : BaseResourceType → Except Err (Option UsedBaseResourceType)
  UseResourceCache : ResourceUser → ResourceCache → Store → Except Err UsedResourceCache × Store

/-- The statement `SELECT id FROM resource_configs WHERE <parentColumnName> = parentID AND
source_hash = hash`, then `QueryRow().Scan(&id)`: the first row's id, `sql.ErrNoRows`
when no row matches, a driver error when the statement fails.  `findOrCreate` passes
`resource_cache_id`, `base_resource_type_id`, or the empty name when the descriptor has
no parent at all; a name that is no parent column makes the statement fail. -/
def queryConfigID (fault : Option DriverError) (tx : Store) (parentColumnName : String)
    (parentID : Int) (hash : String) : Except Err Int :=
  match fault with
  | some e => .error (.driver e)
  | none =>
    match parentColumn? parentColumnName with
    | none => .error (.driver (.pq "syntax_error" ""))
    | some c =>
      match tx.resource_configs.find? (configMatches c parentID hash) with
      | some r => .ok r.id
      | none => .error .ErrNoRows

/-- The statement `INSERT INTO resource_configs (<parentColumnName>, source_hash) VALUES
(parentID, hash) RETURNING id`: on success the new row is the last one of the table. -/
def execInsertConfig (fault : Option DriverError) (newID : Int) (tx : Store)
    (parentColumnName : String) (parentID : Int) (hash : String) : Except Err Int × Store :=
  match fault with
  | some e => (.error (.driver e), tx)
  | none =>
    match parentColumn? parentColumnName with
    | none => (.error (.driver (.pq "syntax_error" "")), tx)
    | some c =>
      (.ok newID,
        { tx with resource_configs := tx.resource_configs ++ [newConfigRow newID c parentID hash] })

/-- The statement `SELECT 1 FROM resource_config_uses WHERE resource_config_id = id AND
<forColumnName> = forColumnID`, then `QueryRow().Scan`.  The name is meant to be one of
the user columns `build_id`, `resource_id`, `resource_type_id`.  When it is
`resource_config_id` itself, the condition built from the map literal is
`resource_config_id = forColumnID` alone (see `useMatchesCollapsed`) and the statement is
valid; a name that is no column of the table makes the statement fail. -/
def queryUseExists (fault : Option DriverError) (tx : Store) (id : Int)
    (forColumnName : String) (forColumnID : Int) : Except Err Int :=
  match fault with
  | some e => .error (.driver e)
  | none =>
    if forColumnName = "resource_config_id" then
      match tx.resource_config_uses.find? (useMatchesCollapsed forColumnID) with
      | some _ => .ok 1
      | none => .error .ErrNoRows
    else
      match userColumn? forColumnName with
      | none => .error (.driver (.pq "undefined_column" ""))
      | some c =>
        match tx.resource_config_uses.find? (useMatches id c forColumnID) with
        | some _ => .ok 1
        | none => .error .ErrNoRows

/-- The statement `INSERT INTO resource_config_uses (resource_config_id, <forColumnName>)
VALUES (id, forColumnID)`: on success the new row is the last one of the table.  With
`resource_config_id` for `forColumnName` the statement names that column twice and is
rejected, as it is for a name that is no column of the table. -/
def execInsertUse (fault : Option DriverError) (tx : Store) (id : Int)
    (forColumnName : String) (forColumnID : Int) : Option Err × Store :=
  match fault with
  | some e => (some (.driver e), tx)
  | none =>
    if forColumnName = "resource_config_id" then
      (some (.driver (.pq "duplicate_column" "")), tx)
    else
      match userColumn? forColumnName with
      | none => (some (.driver (.pq "undefined_column" "")), tx)
      | some c =>
        (none,
          { tx with
            resource_config_uses := tx.resource_config_uses ++ [newUseRow id c forColumnID] })

/-! ## `findOrCreate` -/

/-- The local variables `urc`, `parentID`, `parentColumnName` of `findOrCreate`. -/
structure Locals where
  urc : UsedResourceConfig := {}
  parentID : Int := 0
  parentColumnName : String := ""
  deriving DecidableEq, Repr

/-- Lines 62-73: `if resourceConfig.CreatedByResourceCache != nil { ... }`. -/
def resolveResourceCache (E : Env) (resourceConfig : ResourceConfig) (user : ResourceUser)
    (tx : Store) (l : Locals) : Except Err Locals × Store :=
  match resourceConfig.CreatedByResourceCache with
  | none => (.ok l, tx)
  | some cache =>
    match E.UseResourceCache user cache tx with
    | (.error err, tx1) => (.error err, tx1)
    | (.ok resourceCache, tx1) =>
      (.ok { urc := { l.urc with CreatedByResourceCache := some resourceCache },
             parentID := resourceCache.ID,
             parentColumnName := "resource_cache_id" }, tx1)

/-- Lines 75-90: `if resourceConfig.CreatedByBaseResourceType != nil { ... }`. -/
def resolveBaseResourceType (E : Env) (resourceConfig : ResourceConfig) (l : Locals) :
    Except Err Locals :=
  match resourceConfig.CreatedByBaseResourceType with
  | none => .ok l
  | some base =>
    match E.Find base with
    | .error err => .error err
    | .ok none => .error .ErrBaseResourceTypeNotFound
    | .ok (some ubrt) =>
      .ok { urc := { l.urc with CreatedByBaseResourceType := some ubrt },
            parentID := ubrt.ID,
            parentColumnName := "base_resource_type_id" }

/-- The method `ResourceConfig.findWithParentID` (lines 178-193): `(id, found)` or the error. -/
def findWithParentID (E : Env) (fault : Option DriverError) (resourceConfig : ResourceConfig)
    (tx : Store) (parentColumnName : String) (parentID : Int) : Except Err (Int × Bool) :=
  match queryConfigID fault tx parentColumnName parentID (E.mapHash resourceConfig.Source) with
  | .error err => if err = .ErrNoRows then .ok (0, false) else .error err
  | .ok id => .ok (id, true)

deriving instance DecidableEq for Except

/-- What a call leaves behind: the returned pair (`.error err` is `nil, err`), the tables
as the transaction now sees them, and the statements the call issued, in order. -/
structure Outcome where
  result : Except Err UsedResourceConfig
  store : Store
  issued : List Stmt
  deriving DecidableEq

/-- Lines 111-121: the error returned when the config insert fails. -/
def configInsertError (err : Err) : Err :=
  match err with
  | .driver (.pq codeName _) =>
    if codeName = "unique_violation" then .ErrSafeRetryFindOrCreate
    else if codeName = "foreign_key_violation" then .ErrSafeRetryFindOrCreate
    else err
  | _ => err

/-- Lines 149-159: the error returned when the usage-edge insert fails. -/
def useInsertError (user : ResourceUser) (err : Err) : Err :=
  match err with
  | .driver (.pq codeName constraint) =>
    if codeName = "foreign_key_violation" then
      if constraint = "resource_config_uses_resource_config_id_fkey" then
        .ErrSafeRetryFindOrCreate
      else .UserDisappearedError user
    else err
  | _ => err

/-- Lines 124-167: with the config id resolved, find the usage edge or insert it. -/
def useResourceConfig (F : Faults) (user : ResourceUser) (forColumnName : String)
    (forColumnID : Int) (urc : UsedResourceConfig) (id : Int) (tx : Store)
    (issued : List Stmt) : Outcome :=
  let urc := { urc with ID := id }
  let issued := issued ++ [Stmt.selectUse id forColumnName forColumnID]
  match queryUseExists F.selectUse tx id forColumnName forColumnID with
  | .error err =>
    if err = .ErrNoRows then
      let issued := issued ++ [Stmt.insertUse id forColumnName forColumnID]
      match execInsertUse F.insertUse tx id forColumnName forColumnID with
      | (some err, tx1) => ⟨.error (useInsertError user err), tx1, issued⟩
      | (none, tx1) => ⟨.ok urc, tx1, issued⟩
    else ⟨.error err, tx, issued⟩
  | .ok _ => ⟨.ok urc, tx, issued⟩

/-- Lines 92-122: look the config row up by parent and source hash, insert it if absent.
Returns the resolved `id` or the error `findOrCreate` returns at this stage, the tables,
and the statements issued. -/
def findOrInsertConfig (E : Env) (F : Faults) (resourceConfig : ResourceConfig) (tx : Store)
    (parentColumnName : String) (parentID : Int) : Except Err Int × Store × List Stmt :=
  let hash := E.mapHash resourceConfig.Source
  let issued := [Stmt.selectConfig parentColumnName parentID hash]
  match findWithParentID E F.selectConfig resourceConfig tx parentColumnName parentID with
  | .error err => (.error err, tx, issued)
  | .ok (id, true) => (.ok id, tx, issued)
  | .ok (_, false) =>
    let issued := issued ++ [Stmt.insertConfig parentColumnName parentID hash]
    match execInsertConfig F.insertConfig F.newConfigID tx parentColumnName parentID hash with
    | (.error err, tx1) => (.error (configInsertError err), tx1, issued)
    | (.ok id, tx1) => (.ok id, tx1, issued)

/-- The method `ResourceConfig.findOrCreate` (lines 57-168). -/
def findOrCreate (E : Env) (F : Faults) (resourceConfig : ResourceConfig)
    (user : ResourceUser) (forColumnName : String) (forColumnID : Int) (tx : Store) :
    Outcome :=
  match resolveResourceCache E resourceConfig user tx {} with
  | (.error err, tx1) => ⟨.error err, tx1, []⟩
  | (.ok l1, tx1) =>
    match resolveBaseResourceType E resourceConfig l1 with
    | .error err => ⟨.error err, tx1, []⟩
    | .ok l =>
      match findOrInsertConfig E F resourceConfig tx1 l.parentColumnName l.parentID with
      | (.error err, tx2, issued) => ⟨.error err, tx2, issued⟩
      | (.ok id, tx2, issued) =>
        useResourceConfig F user forColumnName forColumnID l.urc id tx2 issued

/-! ## `lockName` -/

/-- A byte. -/
abbrev Byte := Fin 256

/-- What `lockName` takes from the Go standard library: `json.Marshal` applied to the
descriptor, which gives the encoding or fails, and `sha256.Sum256`, which gives an array
of 32 bytes. -/
structure HashEnv where
  Marshal : ResourceConfig → Except Err (List Byte)
  Sum256 : List Byte → { digest : List Byte // digest.length = 32 }

/-- The lowercase hexadecimal digit of a number below 16, as the verb `%x` writes it. -/
def hexDigit (n : Nat) : Char :=
  "0123456789abcdef".toList.getD n '0'

/-- The two hexadecimal digits of a byte, high nibble first. -/
def hexByte (b : Byte) : List Char :=
  [hexDigit (b.val / 16), hexDigit (b.val % 16)]

/-- The call `fmt.Sprintf("%x", bytes)` on a byte array: two digits per byte. -/
def sprintfHex (bytes : List Byte) : String :=
  String.mk (bytes.map hexByte).flatten

/-- The value of a lowercase hexadecimal digit, for reading a name back: `0` to `9`
stand for 0 to 9 and `a` to `f` for 10 to 15; no other character is a digit. -/
def hexValue? (ch : Char) : Option Nat :=
  if '0' ≤ ch ∧ ch ≤ '9' then some (ch.toNat - '0'.toNat)
  else if 'a' ≤ ch ∧ ch ≤ 'f' then some (ch.toNat - 'a'.toNat + 10)
  else none

/-- The bytes a text in lowercase hexadecimal stands for, two digits per byte, the high
digit first; a text of odd length or with another character stands for none.  This is
the reading of "the lowercase hexadecimal of" a byte string, written independently of
`sprintfHex`. -/
def decodeHex : List Char → Option (List Nat)
  | [] => some []
  | [_] => none
  | hi :: lo :: rest =>
    match hexValue? hi, hexValue? lo, decodeHex rest with
    | some h, some l, some bytes => some ((16 * h + l) :: bytes)
    | _, _, _ => none

/-- The method `ResourceConfig.lockName` (lines 170-176): the name and the error. -/
def ResourceConfig.lockName (H : HashEnv) (resourceConfig : ResourceConfig) :
    String × Option Err :=
  match H.Marshal resourceConfig with
  | .error err => ("", some err)
  | .ok resourceConfigJSON => (sprintfHex (H.Sum256 resourceConfigJSON).val, none)

/-! ## `scanResource` (`src/dbng/resource.go`) -/

/-- The type `sql.NullString`: `Valid` is false for a NULL column. -/
structure NullString where
  String : String := ""
  Valid : Bool := false
  deriving DecidableEq, Repr

/-- The type `atc.ResourceConfig` as far as `scanResource` and the scanner tests use it
(it is declared outside the sources at hand). -/
structure AtcResourceConfig where
  Name : String := ""
  Type_ : String := ""
  Source : Source := []
  CheckEvery : String := ""
  Tags : List String := []
  deriving DecidableEq, Repr

/-- The struct `resource` (lines 31-44) without its `conn`; `checkError` is the message
of the error, `none` for nil.  The default values are the zero values. -/
structure resource where
  id : Int := 0
  name : String := ""
  pipelineID : Int := 0
  pipelineName : String := ""
  type_ : String := ""
  source : Source := []
  checkEvery : String := ""
  tags : List String := []
  checkError : Option String := none
  paused : Bool := false
  deriving DecidableEq, Repr

/-- The accessor `ID()`. -/
def resource.ID (r : resource) : Int := r.id

/-- The accessor `Name()`. -/
def resource.Name (r : resource) : String := r.name

/-- The accessor `PipelineID()`. -/
def resource.PipelineID (r : resource) : Int := r.pipelineID

/-- The accessor `PipelineName()`. -/
def resource.PipelineName (r : resource) : String := r.pipelineName

/-- The accessor `Type()`. -/
def resource.Type_ (r : resource) : String := r.type_

/-- The accessor `Source()`. -/
def resource.Source (r : resource) : Source := r.source

/-- The accessor `CheckEvery()`. -/
def resource.CheckEvery (r : resource) : String := r.checkEvery

/-- The accessor `Tags()`. -/
def resource.Tags (r : resource) : List String := r.tags

/-- The accessor `CheckError()`. -/
def resource.CheckError (r : resource) : Option String := r.checkError

/-- The accessor `Paused()`. -/
def resource.Paused (r : resource) : Bool := r.paused

/-- The seven variables `row.Scan` is given pointers to in `scanResource`: five fields of
the resource and the locals `configBlob` and `checkErr`. -/
structure ScanDest where
  id : Int
  name : String
  configBlob : List Byte
  checkErr : NullString
  paused : Bool
  pipelineID : Int
  pipelineName : String
  deriving DecidableEq, Repr

/-- The interface `scannable`: `Scan` writes through the pointers it is given and returns
an error or nil. -/
abbrev scannable := ScanDest → Option Err × ScanDest

/-- The variables as `scanResource` hands them to `row.Scan`: the fields of `r` and the
two fresh locals. -/
def resource.scanDest (r : resource) : ScanDest :=
  ⟨r.id, r.name, [], {}, r.paused, r.pipelineID, r.pipelineName⟩

/-- The fields of `r` that `row.Scan` wrote to, read back. -/
def resource.scanned (r : resource) (dest : ScanDest) : resource :=
  { r with
    id := dest.id, name := dest.name, paused := dest.paused,
    pipelineID := dest.pipelineID, pipelineName := dest.pipelineName }

/-- The function `scanResource` (lines 57-84): the returned error and the resource as it
is left; `Unmarshal` is `json.Unmarshal` into a fresh `atc.ResourceConfig`. -/
def scanResource (Unmarshal : List Byte → Except Err AtcResourceConfig) (r : resource)
    (row : scannable) : Option Err × resource :=
  match row r.scanDest with
  | (some err, dest) => (some err, r.scanned dest)
  | (none, dest) =>
    let r := r.scanned dest
    match Unmarshal dest.configBlob with
    | .error err => (some err, r)
    | .ok config =>
      let r := { r with
        type_ := config.Type_, source := config.Source,
        checkEvery := config.CheckEvery, tags := config.Tags }
      if dest.checkErr.Valid then
        (none, { r with checkError := some dest.checkErr.String })
      else (none, r)

/-! ## Notions used to state the properties -/

/-- The tables as the resolution of the cache parent leaves them, which is where the
statements of `findOrCreate` itself start from.  For a descriptor without a cache parent
these are the tables before the call. -/
def afterParent (E : Env) (resourceConfig : ResourceConfig) (user : ResourceUser)
    (tx : Store) : Store :=
  (resolveResourceCache E resourceConfig user tx {}).2

/-- Whether a statement is one of the two inserts. -/
def Stmt.isInsert : Stmt → Bool
  | .insertConfig _ _ _ => true
  | .insertUse _ _ _ => true
  | _ => false

/-- Whether a statement addresses `resource_config_uses`. -/
def Stmt.onUses : Stmt → Bool
  | .selectUse _ _ _ => true
  | .insertUse _ _ _ => true
  | _ => false

/-- At most one config row per (parent column, parent id, source hash). -/
def UniqueConfigs (s : Store) : Prop :=
  ∀ (c : ParentColumn) (parentID : Int) (hash : String),
    s.resource_configs.countP (configMatches c parentID hash) ≤ 1

/-- At most one usage edge per (config id, user column, user id). -/
def UniqueUses (s : Store) : Prop :=
  ∀ (id : Int) (c : UserColumn) (userID : Int),
    s.resource_config_uses.countP (useMatches id c userID) ≤ 1

/-- The parent column and parent id a returned value was keyed by: the base resource type
when it has one (the second block of `findOrCreate` overwrites `parentColumnName` and
`parentID`), the resource cache otherwise. -/
def UsedResourceConfig.parentKey (urc : UsedResourceConfig) : Option (ParentColumn × Int) :=
  match urc.CreatedByBaseResourceType, urc.CreatedByResourceCache with
  | some ubrt, _ => some (.base_resource_type_id, ubrt.ID)
  | none, some cache => some (.resource_cache_id, cache.ID)
  | none, none => none

/-- One call on behalf of a user: who asks, under which user column and id, and what the
storage layer answers during that call. -/
structure Call where
  user : ResourceUser
  forColumnName : String
  forColumnID : Int
  faults : Faults
  deriving DecidableEq, Repr

/-- Calls for one descriptor run one after the other on the same tables, each starting
from what the previous one left.  Returns the results in call order and the final
tables. -/
def findOrCreateAll (E : Env) (resourceConfig : ResourceConfig) :
    List Call → Store → List (Except Err UsedResourceConfig) × Store
  | [], tx => ([], tx)
  | call :: calls, tx =>
    let out := findOrCreate E call.faults resourceConfig call.user call.forColumnName
      call.forColumnID tx
    let rest := findOrCreateAll E resourceConfig calls out.store
    (out.result :: rest.1, rest.2)

/-! ## Example inputs -/

/-- A stand-in for `mapHash` on the examples: the key/value pairs written out. -/
def exampleHash (source : Source) : String :=
  String.join (source.map fun kv => kv.1 ++ "=" ++ kv.2 ++ ";")

/-- Example collaborators: the worker provides the base type `git` with id 3 and no
other; every resource cache resolves to the cache with id 9 without touching the two
tables, but for the cache `gone`, whose resolution fails. -/
def exampleEnv : Env where
  mapHash := exampleHash
  Find := fun base => if base.Name = "git" then .ok (some ⟨3⟩) else .ok none
  UseResourceCache := fun _ cache tx =>
    if cache.Key = "gone" then (.error (.collaborator "resource cache"), tx)
    else (.ok ⟨9⟩, tx)

/-- A descriptor whose parent is the base resource type `git`. -/
def exampleBaseConfig : ResourceConfig :=
  ⟨none, some ⟨"git"⟩, [("uri", "https://example.com/repo.git")]⟩

/-- A descriptor whose parent is a resource cache. -/
def exampleCacheConfig : ResourceConfig :=
  ⟨some ⟨"image"⟩, none, [("repository", "busybox")]⟩

/-- Three calls on behalf of a build, a resource and a resource type, none of which the
storage layer fails; the three would-be ids differ. -/
def exampleCalls : List Call :=
  [⟨⟨"build 7"⟩, "build_id", 7, {}⟩,
   ⟨⟨"resource 2"⟩, "resource_id", 2, { newConfigID := 2 }⟩,
   ⟨⟨"resource type 5"⟩, "resource_type_id", 5, { newConfigID := 3 }⟩]

/-- A stand-in for `json.Marshal` and `sha256.Sum256` on the examples: the encoding is the
length of the rendered source, but for a descriptor without parents, which does not
encode; every byte of the digest is the length of the encoding. -/
def exampleHashEnv : HashEnv where
  Marshal := fun resourceConfig =>
    if resourceConfig.CreatedByResourceCache = none ∧
        resourceConfig.CreatedByBaseResourceType = none then
      .error (.collaborator "json: unsupported type")
    else .ok [⟨(exampleHash resourceConfig.Source).length % 256, Nat.mod_lt _ (by decide)⟩]
  Sum256 := fun encoding =>
    ⟨List.replicate 32 ⟨encoding.length % 256, Nat.mod_lt _ (by decide)⟩,
      List.length_replicate _ _⟩

/-- A row of the resources query with a check error recorded. -/
def exampleRow : scannable := fun _ =>
  (none, ⟨39, "some-resource", [123, 125], ⟨"exit status 1", true⟩, false, 42, "some-pipeline"⟩)

/-- A stand-in for `json.Unmarshal` on the examples: every non-empty blob decodes to the
config of the resource `some-resource`. -/
def exampleUnmarshal (blob : List Byte) : Except Err AtcResourceConfig :=
  if blob = [] then .error (.collaborator "unexpected end of JSON input")
  else .ok ⟨"some-resource", "git", [("uri", "http://example.com")], "10ms", ["some-tag"]⟩

end Dbng

/-!
# radar: the resource scanner

The scanner itself (`radar/resource_scanner.go`) is not among the sources at hand; its
tests (`src/radar/resource_scanner_test.go`) and the `Resource` interface it works on
(`src/dbng/resource.go`) are.  The three entry points `Run`, `Scan` and `ScanFromVersion`
are therefore written down from the specification, and every collaborator (pipeline
store, version repository, checker factory, lease, clock, duration parser) is an input:
`World` holds what each of them answers, and every call that has an effect is recorded,
in order, as an `Event`.
-/

namespace Radar

/-- The type `time.Duration`: a number of nanoseconds. -/
abbrev Duration := Int

/-- The constant `time.Second`. -/
def second : Duration := 1000000000

/-- The type `atc.Version`, a string-keyed mapping. -/
abbrev Version := List (String × String)

/-- The type `atc.Source`, a string-keyed mapping. -/
abbrev Source := List (String × String)

/-- The type `atc.Tags`. -/
abbrev Tags := List String

/-- The Go `error` values the scanner deals in. -/
inductive Err where
  | ErrFailedToAcquireLock
  /-- The check script failed: `resource.ErrResourceScriptFailed`. -/
  | ErrResourceScriptFailed (detail : String)
  /-- The named resource is not in the pipeline. -/
  | ResourceNotFoundError (name : String)
  /-- Any other error value. -/
  | failure (msg : String)
  deriving DecidableEq, Repr

/-- The values of the accessors of the interface `dbng.Resource` (`src/dbng/resource.go`,
lines 14-24); `Type_` is `Type()`, and `CheckError` is the message of the recorded check
error, if any. -/
structure Resource where
  ID : Int
  Name : String
  PipelineName : String
  Type_ : String
  Source : Source
  CheckEvery : String
  Tags : Tags
  CheckError : Option String
  Paused : Bool
  deriving DecidableEq, Repr

/-- Modelled from the spec: a pipeline-defined resource type, of the same shape as a
resource plus the version of the type itself; `radar/resource_scanner.go` and the
declaration of `dbng.ResourceType` are not among the sources. -/
structure ResourceType where
  ID : Int
  Name : String
  Type_ : String
  Source : Source
  Version : Version
  deriving DecidableEq, Repr

/-- Modelled from the spec: an entry of the versioned-type list the pipeline's custom
resource types are resolved into (`atc.VersionedResourceType`, not among the sources). -/
structure VersionedResourceType where
  Name : String
  Type_ : String
  Source : Source
  Version : Version
  deriving DecidableEq, Repr

/-- Modelled from the spec: the check request, "carrying the resource's type, source,
tags, owning team id, and environment identifying the external URL/pipeline/resource",
together with the user it is made for and the resolved custom types; these are the
arguments of `NewCheckResource`, which is not among the sources. -/
structure CheckRequest where
  user : Int
  resourceType : String
  source : Source
  tags : Tags
  teamID : Int
  env : List String
  customTypes : List VersionedResourceType
  deriving DecidableEq, Repr

/-- The calls of the scanner that have an effect on a collaborator, with their
arguments. -/
inductive Event where
  | AcquireCheckingLock (resource : String) (interval : Duration) (immediate : Bool)
  | Sleep (d : Duration)
  | Release
  | SetResourceCheckError (resource : String) (err : Option Err)
  | NewCheckResource (request : CheckRequest)
  | Check (source : Source) (fromVersion : Option Version)
  | SaveResourceVersions (name : String) (resourceType : String) (versions : List Version)
  deriving DecidableEq, Repr

/-- What `NewResourceScanner` is given besides its collaborators. -/
structure Scanner where
  defaultInterval : Duration
  externalURL : String
  deriving DecidableEq, Repr

/-- Modelled from the spec: the collaborator contracts of section 6, as the answers the
collaborators give during one invocation (their implementations are not among the
sources).  `AcquireCheckingLock k` is the answer to the `k`-th probe of the invocation,
counted from 0: acquired or not, or an error.  What `SetResourceCheckError` and `Release`
return is not looked at. -/
structure World where
  Resource : String → Except Err (Option Resource)
  TeamID : Int
  ResourceTypes : Except Err (List ResourceType)
  AcquireCheckingLock : Nat → Except Err Bool
  IsPaused : Except Err Bool
  GetLatestVersionedResource : String → Except Err (Option Version)
  SaveResourceVersions : String → String → List Version → Option Err
  NewCheckResource : CheckRequest → Option Err
  Check : Source → Option Version → Except Err (List Version)
  ParseDuration : String → Except Err Duration

/-- What `Run` returns, and the effects it had, in order. -/
structure RunResult where
  interval : Duration
  err : Option Err
  events : List Event
  deriving DecidableEq, Repr

/-- What `Scan` and `ScanFromVersion` return, and the effects they had, in order. -/
structure ScanResult where
  err : Option Err
  events : List Event
  deriving DecidableEq, Repr

/-- Modelled from the spec: "if the resource specifies its own check interval string,
parse it"; otherwise the interval is the scanner's default.  (The scanner source is not
at hand.) -/
def checkInterval (S : Scanner) (W : World) (checkEvery : String) : Except Err Duration :=
  if checkEvery = "" then .ok S.defaultInterval else W.ParseDuration checkEvery

/-- Modelled from the spec: the versioned-type list the pipeline's custom resource types
are resolved into.  (The scanner source is not at hand.) -/
def versionedResourceTypes (types : List ResourceType) : List VersionedResourceType :=
  types.map fun t => ⟨t.Name, t.Type_, t.Source, t.Version⟩

/-- Modelled from the spec: the check request built for a resource; the three
environment entries are the ones the tests expect (lines 155-166).  (The scanner source
is not at hand.) -/
def checkRequest (S : Scanner) (W : World) (r : Resource) (types : List ResourceType) :
    CheckRequest where
  user := r.ID
  resourceType := r.Type_
  source := r.Source
  tags := r.Tags
  teamID := W.TeamID
  env := ["ATC_EXTERNAL_URL=" ++ S.externalURL,
          "RESOURCE_PIPELINE_NAME=" ++ r.PipelineName,
          "RESOURCE_NAME=" ++ r.Name]
  customTypes := versionedResourceTypes types

/-- Modelled from the spec: a "check script failed" error is swallowed, any other error
is kept.  (The scanner source is not at hand.) -/
def swallowErrResourceScriptFailed : Option Err → Option Err
  | some (.ErrResourceScriptFailed _) => none
  | err => err

/-- Modelled from the spec: the steps of `Run` before the lease attempt, which by the
edge-case policy are the same in all three entry points: look the resource up (not found
is fatal), return the default interval and no error when the pipeline or the resource is
paused, determine the effective interval, and on a parse failure record the error as
the resource's check error and return it with the default interval.  An early return is
`.error`; `.ok` carries the resource and the effective interval.  The spec does not say
which interval accompanies the errors of the lookup and of the pause query: the zero
duration stands for it.  (The scanner source is not at hand.) -/
def resolve (S : Scanner) (W : World) (name : String) :
    Except RunResult (Resource × Duration) :=
  match W.Resource name with
  | .error err => .error ⟨0, some err, []⟩
  | .ok none => .error ⟨0, some (.ResourceNotFoundError name), []⟩
  | .ok (some r) =>
    match W.IsPaused with
    | .error err => .error ⟨0, some err, []⟩
    | .ok true => .error ⟨S.defaultInterval, none, []⟩
    | .ok false =>
      if r.Paused then .error ⟨S.defaultInterval, none, []⟩
      else
        match checkInterval S W r.CheckEvery with
        | .error err =>
          .error ⟨S.defaultInterval, some err, [.SetResourceCheckError r.Name (some err)]⟩
        | .ok interval => .ok (r, interval)

/-- Modelled from the spec: the steps once the lease is held and the version to check
from is known: resolve the custom resource types, build the check request, invoke the
checker; on failure record the error as the resource's check error and return it; on
success "persist the full list of returned versions, in the order returned, through the
Version Repository in one call", whatever the list is, and clear the check error.  The
spec does not say what a failure to save leads to: as in the tests (lines 301-309) it is
not returned.  (The scanner source is not at hand.) -/
def check (S : Scanner) (W : World) (r : Resource) (fromVersion : Option Version) :
    Option Err × List Event :=
  match W.ResourceTypes with
  | .error err => (some err, [])
  | .ok types =>
    let request := checkRequest S W r types
    match W.NewCheckResource request with
    | some err => (some err, [.NewCheckResource request])
    | none =>
      match W.Check r.Source fromVersion with
      | .error err =>
        (some err,
          [.NewCheckResource request, .Check r.Source fromVersion,
           .SetResourceCheckError r.Name (some err)])
      | .ok versions =>
        (none,
          [.NewCheckResource request, .Check r.Source fromVersion,
           .SaveResourceVersions r.Name r.Type_ versions,
           .SetResourceCheckError r.Name none])

/-- Modelled from the spec: the check from "the last known version (read from the Version
Repository; nil/absent if none recorded)"; an error of that read is returned and no check
is made (lines 566-580 of the tests).  (The scanner source is not at hand.) -/
def checkFromLatest (S : Scanner) (W : World) (r : Resource) : Option Err × List Event :=
  match W.GetLatestVersionedResource r.Name with
  | .error err => (some err, [])
  | .ok latest => check S W r latest

/-- Modelled from the spec: `Run(name)`, with one non-blocking probe for the lease
(`immediate=false`, TTL the effective interval); without the lease it returns
`ErrFailedToAcquireLock` and the effective interval; with it, it checks from the last
known version, swallows a "check script failed" error, and releases the lease.  An error
of the probe counts as a failed acquisition.  (The scanner source is not at hand.) -/
def Run (S : Scanner) (W : World) (name : String) : RunResult :=
  match resolve S W name with
  | .error early => early
  | .ok (r, interval) =>
    match W.AcquireCheckingLock 0 with
    | .ok true =>
      let done := checkFromLatest S W r
      ⟨interval, swallowErrResourceScriptFailed done.1,
        .AcquireCheckingLock r.Name interval false :: done.2 ++ [.Release]⟩
    | _ => ⟨interval, some .ErrFailedToAcquireLock, [.AcquireCheckingLock r.Name interval false]⟩

/-- Modelled from the spec: the polling loop of `Scan`: probe with `immediate=true`, and
while the lease is not available sleep one second and probe again.  `attempt` counts the
probes made so far; the loop gives `none` when `fuel` probes were not enough.  An error
of the probe ends the loop.  (The scanner source is not at hand.) -/
def acquire (W : World) (r : Resource) (interval : Duration) :
    (fuel : Nat) → (attempt : Nat) → Option (Option Err × List Event)
  | 0, _ => none
  | fuel + 1, attempt =>
    match W.AcquireCheckingLock attempt with
    | .error err => some (some err, [.AcquireCheckingLock r.Name interval true])
    | .ok true => some (none, [.AcquireCheckingLock r.Name interval true])
    | .ok false =>
      match acquire W r interval fuel (attempt + 1) with
      | none => none
      | some (err, events) =>
        some (err, .AcquireCheckingLock r.Name interval true :: .Sleep second :: events)

/-- Modelled from the spec: what `Scan` and `ScanFromVersion` share: the steps before the
lease, the polling loop, then the check cycle `cycle` and the release of the lease.
(The scanner source is not at hand.) -/
def scanWith (cycle : Resource → Option Err × List Event) (S : Scanner) (W : World)
    (name : String) (fuel : Nat) : Option ScanResult :=
  match resolve S W name with
  | .error early => some ⟨early.err, early.events⟩
  | .ok (r, interval) =>
    match acquire W r interval fuel 0 with
    | none => none
    | some (some err, probes) => some ⟨some err, probes⟩
    | some (none, probes) => some ⟨(cycle r).1, probes ++ (cycle r).2 ++ [.Release]⟩

/-- Modelled from the spec: `ScanFromVersion(name, fromVersion)`: the version to check
from is the caller's, and a "check script failed" error is returned (lines 750-760 of the
tests).  (The scanner source is not at hand.) -/
def ScanFromVersion (S : Scanner) (W : World) (name : String) (fromVersion : Option Version)
    (fuel : Nat) : Option ScanResult :=
  scanWith (fun r => check S W r fromVersion) S W name fuel

/-- Modelled from the spec: `Scan(name)`: the manual trigger, checking from the last known
version.  It "differs from Run in error propagation: a check script failed condition is
propagated, not swallowed": the error of the check cycle is returned as it is.  (The
scanner source is not at hand.) -/
def Scan (S : Scanner) (W : World) (name : String) (fuel : Nat) : Option ScanResult :=
  scanWith (checkFromLatest S W) S W name fuel

/-! ## Notions used to state the properties of the scanner -/

/-- Whether an event is a probe for the checking lease. -/
def Event.isAcquire : Event → Bool
  | .AcquireCheckingLock _ _ _ => true
  | _ => false

/-- Whether an event is the release of the lease. -/
def Event.isRelease : Event → Bool
  | .Release => true
  | _ => false

/-- Whether an event is an invocation of the checker. -/
def Event.isCheck : Event → Bool
  | .Check _ _ => true
  | _ => false

/-- Whether an event is a `SaveResourceVersions` call. -/
def Event.isSave : Event → Bool
  | .SaveResourceVersions _ _ _ => true
  | _ => false

/-- Whether an event is a `SetResourceCheckError` call. -/
def Event.isSetCheckError : Event → Bool
  | .SetResourceCheckError _ _ => true
  | _ => false

/-- The invocation gets as far as the lease attempt: the resource is found, neither the
pipeline nor the resource is paused, and the effective interval is `interval`. -/
def Ready (S : Scanner) (W : World) (name : String) (r : Resource) (interval : Duration) :
    Prop :=
  W.Resource name = .ok (some r) ∧ W.IsPaused = .ok false ∧ r.Paused = false ∧
    checkInterval S W r.CheckEvery = .ok interval

/-- The lease probe reports not-acquired `n` times and then succeeds. -/
def AcquiredAfter (W : World) (n : Nat) : Prop :=
  (∀ k, k < n → W.AcquireCheckingLock k = .ok false) ∧ W.AcquireCheckingLock n = .ok true

/-- Whether an invocation is `Ready` can be computed. -/
instance (S : Scanner) (W : World) (name : String) (r : Resource) (interval : Duration) :
    Decidable (Ready S W name r interval) := by
  unfold Ready
  infer_instance

/-- Whether the lease is obtained after exactly `n` refusals can be computed. -/
instance (W : World) (n : Nat) : Decidable (AcquiredAfter W n) := by
  unfold AcquiredAfter
  infer_instance

/-- With the lease held, the checker is constructed and, asked for the versions after
`fromVersion`, gives `answer`. -/
def ChecksWith (S : Scanner) (W : World) (r : Resource) (fromVersion : Option Version)
    (answer : Except Err (List Version)) : Prop :=
  ∃ types, W.ResourceTypes = .ok types ∧
    W.NewCheckResource (checkRequest S W r types) = none ∧
    W.Check r.Source fromVersion = answer

/-- The events of a polling loop that is refused `n` times and then gets the lease. -/
def pollEvents (r : Resource) (interval : Duration) : Nat → List Event
  | 0 => [.AcquireCheckingLock r.Name interval true]
  | n + 1 => .AcquireCheckingLock r.Name interval true :: .Sleep second :: pollEvents r interval n

/-! ## Example inputs: the fixture of the tests -/

/-- The scanner of the tests: default interval one minute. -/
def testScanner : Scanner := ⟨60 * second, "https://www.example.com"⟩

/-- The resource `some-resource` of the tests. -/
def testResource : Resource :=
  ⟨39, "some-resource", "some-pipeline", "git", [("uri", "http://example.com")], "",
    ["some-tag"], none, false⟩

/-- A stand-in for `time.ParseDuration` on the examples: it knows `10ms`. -/
def testParseDuration (s : String) : Except Err Duration :=
  if s = "10ms" then .ok 10000000 else .error (.failure ("time: invalid duration " ++ s))

/-- The collaborators as the `BeforeEach` blocks of the tests set them up, with the lease
granted at the first probe: one custom resource type, team 123, no current version, a
checker that finds nothing. -/
def testWorld : World where
  Resource := fun name => if name = "some-resource" then .ok (some testResource) else .ok none
  TeamID := 123
  ResourceTypes :=
    .ok [⟨1, "some-custom-resource", "docker-image", [("custom", "source")],
      [("custom", "version")]⟩]
  AcquireCheckingLock := fun _ => .ok true
  IsPaused := .ok false
  GetLatestVersionedResource := fun _ => .ok none
  SaveResourceVersions := fun _ _ _ => none
  NewCheckResource := fun _ => none
  Check := fun _ _ => .ok []
  ParseDuration := testParseDuration

/-- The checker fails with "check script failed". -/
def scriptFailWorld : World :=
  { testWorld with Check := fun _ _ => .error (.ErrResourceScriptFailed "exit status 1") }

/-- The lease probe is refused twice and granted from the third probe on (lines 509-549 of
the tests). -/
def busyWorld : World :=
  { testWorld with AcquireCheckingLock := fun k => .ok (decide (2 ≤ k)) }

/-- The lease probe is always refused. -/
def refusedWorld : World :=
  { testWorld with AcquireCheckingLock := fun _ => .ok false }

/-- The pipeline is paused. -/
def pausedWorld : World :=
  { testWorld with IsPaused := .ok true }

/-- The resource specifies the check interval `bad-value`. -/
def badIntervalWorld : World :=
  { testWorld with
    Resource := fun _ => .ok (some { testResource with CheckEvery := "bad-value" }) }

/-- The checker returns the versions 1, 2, 3 (lines 253-299 of the tests). -/
def versionsWorld : World :=
  { testWorld with
    Check := fun _ _ => .ok [[("version", "1")], [("version", "2")], [("version", "3")]] }

/-- The pipeline is paused and the resource specifies the check interval `bad-value`. -/
def pausedBadIntervalWorld : World :=
  { badIntervalWorld with IsPaused := .ok true }

end Radar

/-!
# auth: the OAuth providers and the build write-access handler

Shallow embeddings of `src/auth/github/provider.go`, `src/auth/genericoauth/provider.go`
and `src/auth/check_build_write_access_handler.go`.
-/

namespace Oauth2

/-- The type `oauth2.Endpoint`. -/
structure Endpoint where
  AuthURL : String := ""
  TokenURL : String := ""
  deriving DecidableEq, Repr

/-- The type `oauth2.Config`. -/
structure Config where
  ClientID : String := ""
  ClientSecret : String := ""
  Endpoint : Endpoint := {}
  RedirectURL : String := ""
  Scopes : List String := []
  deriving DecidableEq, Repr

end Oauth2

/-- The error a `*multierror.Error` stands for, as `ErrorOrNil` returns it: nil when no
error was appended, the appended errors in order otherwise. -/
def ErrorOrNil (errs : List String) : Option (List String) :=
  if errs = [] then none else some errs

namespace Github

/-- The variable `Scopes`. -/
def Scopes : List String := ["read:org"]

/-- The struct `GitHubTeamConfig`. -/
structure GitHubTeamConfig where
  OrganizationName : String := ""
  TeamName : String := ""
  deriving DecidableEq, Repr

/-- The struct `GitHubAuthConfig`. -/
structure GitHubAuthConfig where
  ClientID : String := ""
  ClientSecret : String := ""
  Organizations : List String := []
  Teams : List GitHubTeamConfig := []
  Users : List String := []
  AuthURL : String := ""
  TokenURL : String := ""
  APIURL : String := ""
  deriving DecidableEq, Repr

/-- The method `GitHubAuthConfig.IsConfigured`. -/
def GitHubAuthConfig.IsConfigured (auth : GitHubAuthConfig) : Bool :=
  auth.ClientID != "" || auth.ClientSecret != "" || auth.Organizations.length > 0 ||
    auth.Teams.length > 0 || auth.Users.length > 0

/-- The method `GitHubAuthConfig.Validate` (lines 64-79): nil, or the messages of the
errors appended, in order. -/
def GitHubAuthConfig.Validate (auth : GitHubAuthConfig) : Option (List String) :=
  let errs : List String := []
  let errs :=
    if auth.ClientID = "" ∨ auth.ClientSecret = "" then
      errs ++ ["must specify --github-auth-client-id and --github-auth-client-secret to use GitHub OAuth."]
    else errs
  let errs :=
    if auth.Organizations.length = 0 ∧ auth.Teams.length = 0 ∧ auth.Users.length = 0 then
      errs ++ ["at least one of the following is required for github-auth: organizations, teams, users."]
    else errs
  ErrorOrNil errs

/-- The call `strings.SplitN(value, "/", 2)`: the value itself when it holds no `/`, else
the text before the first `/` and the text after it. -/
def splitN2 (value : String) : List String :=
  match value.toList.span (fun ch => ch != '/') with
  | (_, []) => [value]
  | (before, _ :: after) => [String.mk before, String.mk after]

/-- The method `GitHubTeamConfig.UnmarshalFlag` (lines 86-96): the error returned (its
message, or nil) and the flag as it is left. -/
def GitHubTeamConfig.UnmarshalFlag (flag : GitHubTeamConfig) (value : String) :
    Option String × GitHubTeamConfig :=
  match splitN2 value with
  | [organization, team] =>
    (none, { flag with OrganizationName := organization, TeamName := team })
  | _ => (some ("malformed GitHub team specification: '" ++ value ++ "'"), flag)

/-- The struct `Team` the verifiers work on (declared outside `provider.go`). -/
structure Team where
  Name : String
  Organization : String
  deriving DecidableEq, Repr

/-- The function `teamConfigsToTeam` (lines 172-181). -/
def teamConfigsToTeam (dbteams : List GitHubTeamConfig) : List Team :=
  dbteams.foldl (fun teams team => teams ++ [⟨team.TeamName, team.OrganizationName⟩]) []

/-- The verifiers `ProviderConstructor` puts into the basket, each with the API URL its
client was made for; `NewTeamVerifier`, `NewOrganizationVerifier`, `NewUserVerifier` and
`NewClient` are declared outside `provider.go`, and a constructor stands for the value
each of them returns. -/
inductive Verifier where
  | TeamVerifier (teams : List Team) (apiURL : String)
  | OrganizationVerifier (organizations : List String) (apiURL : String)
  | UserVerifier (users : List String) (apiURL : String)
  deriving DecidableEq, Repr

/-- The struct `GitHubProvider`: the embedded `*oauth2.Config` and the verifier basket. -/
structure GitHubProvider where
  Config : Oauth2.Config
  Verifier : List Verifier
  deriving DecidableEq, Repr

/-- The method `GitHubTeamProvider.ProviderConstructor` (lines 134-162); `Endpoint` is
the value of `github.Endpoint`, a variable of the package `golang.org/x/oauth2/github`. -/
def ProviderConstructor (Endpoint : Oauth2.Endpoint) (githubAuth : GitHubAuthConfig)
    (redirectURL : String) : GitHubProvider × Bool :=
  let endpoint := Endpoint
  let endpoint :=
    if githubAuth.AuthURL ≠ "" ∧ githubAuth.TokenURL ≠ "" then
      { endpoint with AuthURL := githubAuth.AuthURL, TokenURL := githubAuth.TokenURL }
    else endpoint
  ({ Verifier :=
       [.TeamVerifier (teamConfigsToTeam githubAuth.Teams) githubAuth.APIURL,
        .OrganizationVerifier githubAuth.Organizations githubAuth.APIURL,
        .UserVerifier githubAuth.Users githubAuth.APIURL],
     Config :=
       { ClientID := githubAuth.ClientID,
         ClientSecret := githubAuth.ClientSecret,
         Endpoint := endpoint,
         Scopes := Scopes,
         RedirectURL := redirectURL } }, true)

/-- The value of `github.Endpoint` on the examples. -/
def exampleEndpoint : Oauth2.Endpoint :=
  ⟨"https://github.com/login/oauth/authorize", "https://github.com/login/oauth/access_token"⟩

end Github

namespace GenericOAuth

/-- The struct `GenericOAuthConfig`; the map `AuthURLParams` is a list of pairs. -/
structure GenericOAuthConfig where
  DisplayName : String := ""
  ClientID : String := ""
  ClientSecret : String := ""
  AuthURL : String := ""
  AuthURLParams : List (String × String) := []
  Scope : String := ""
  TokenURL : String := ""
  deriving DecidableEq, Repr

/-- The method `GenericOAuthConfig.IsConfigured`. -/
def GenericOAuthConfig.IsConfigured (config : GenericOAuthConfig) : Bool :=
  config.AuthURL != "" || config.TokenURL != "" || config.ClientID != "" ||
    config.ClientSecret != "" || config.DisplayName != ""

/-- The method `GenericOAuthConfig.Validate` (lines 77-98): nil, or the messages of the
errors appended, in order. -/
def GenericOAuthConfig.Validate (config : GenericOAuthConfig) : Option (List String) :=
  let errs : List String := []
  let errs :=
    if config.ClientID = "" ∨ config.ClientSecret = "" then
      errs ++ ["must specify --generic-oauth-client-id and --generic-oauth-client-secret to use Generic OAuth."]
    else errs
  let errs :=
    if config.AuthURL = "" ∨ config.TokenURL = "" then
      errs ++ ["must specify --generic-oauth-auth-url and --generic-oauth-token-url to use Generic OAuth."]
    else errs
  let errs :=
    if config.DisplayName = "" then
      errs ++ ["must specify --generic-oauth-display-name to use Generic OAuth."]
    else errs
  ErrorOrNil errs

/-- The values a `verifier.Verifier` takes in `ProviderConstructor`: the `NoopVerifier`,
or what `NewScopeVerifier(scope)` returns (it is declared outside `provider.go`; the
constructor stands for its result). -/
inductive Verifier where
  | NoopVerifier
  | ScopeVerifier (scope : String)
  deriving DecidableEq, Repr

/-- The struct `ConfigOverride`. -/
structure ConfigOverride where
  Config : Oauth2.Config
  AuthURLParams : List (String × String)
  deriving DecidableEq, Repr

/-- The struct `Provider`. -/
structure Provider where
  Verifier : Verifier
  Config : ConfigOverride
  deriving DecidableEq, Repr

/-- The method `GenericTeamProvider.ProviderConstructor` (lines 131-162). -/
def ProviderConstructor (genericOAuth : GenericOAuthConfig) (redirectURL : String) :
    Provider × Bool :=
  let endpoint : Oauth2.Endpoint := {}
  let endpoint :=
    if genericOAuth.AuthURL ≠ "" ∧ genericOAuth.TokenURL ≠ "" then
      { endpoint with AuthURL := genericOAuth.AuthURL, TokenURL := genericOAuth.TokenURL }
    else endpoint
  let oauthVerifier :=
    if genericOAuth.Scope ≠ "" then Verifier.ScopeVerifier genericOAuth.Scope
    else Verifier.NoopVerifier
  ({ Verifier := oauthVerifier,
     Config :=
       { Config :=
           { ClientID := genericOAuth.ClientID,
             ClientSecret := genericOAuth.ClientSecret,
             Endpoint := endpoint,
             RedirectURL := redirectURL },
         AuthURLParams := genericOAuth.AuthURLParams } }, true)

/-- The method `Verify` of a verifier: for the `NoopVerifier` it is lines 164-166,
`true` and a nil error whatever the client; for a scope verifier it is `verifyScope`,
which stands for the method declared outside `provider.go`. -/
def Verifier.Verify {Client : Type} (verifyScope : String → Client → Bool × Option String)
    (v : Verifier) (client : Client) : Bool × Option String :=
  match v with
  | .NoopVerifier => (true, none)
  | .ScopeVerifier scope => verifyScope scope client

/-- The name `AuthGroup` gives the group (line 114). -/
def AuthGroupName : String :=
  "Generic OAuth Authentication (allows access to ALL authenticated users)"

end GenericOAuth

namespace Auth

/-- The interface `dbng.Build`, of which the handler reads `TeamName()`. -/
structure Build where
  ID : Int
  TeamName : String
  deriving DecidableEq, Repr

/-- The keys of the request context the handler uses. -/
inductive ContextKey where
  | BuildContextKey
  deriving DecidableEq, Repr

/-- What the handler reads of the request `r`: `IsAuthenticated(r)`, the form value
`:build_id`, the team `GetTeam(r)` finds (with its `IsAuthorized`), and the values of the
context.  `IsAuthenticated`, `GetTeam` and the team are declared outside the file. -/
structure Request where
  IsAuthenticated : Bool
  build_id : String
  GetTeam : Option (String → Bool)
  Context : List (ContextKey × Build) := []

/-- What the handler does with the response writer, the rejector and the delegate. -/
inductive Action where
  /-- The call `h.rejector.Unauthorized(w, r)`. -/
  | Unauthorized
  /-- The call `w.WriteHeader(status)`. -/
  | WriteHeader (status : Nat)
  /-- The call `h.rejector.Forbidden(w, r)`. -/
  | Forbidden
  /-- The call `h.delegateHandler.ServeHTTP(w, r.WithContext(ctx))`, with the values of
  `ctx`. -/
  | DelegateServeHTTP (ctx : List (ContextKey × Build))
  deriving DecidableEq, Repr

/-- Whether an action is a rejection: a call of the rejector or an error status. -/
def Action.isRejection : Action → Bool
  | .DelegateServeHTTP _ => false
  | _ => true

/-- Whether an action is the call of the delegate. -/
def Action.isDelegate : Action → Bool
  | .DelegateServeHTTP _ => true
  | _ => false

/-- The constants `http.StatusBadRequest`, `http.StatusInternalServerError` and
`http.StatusNotFound`. -/
def StatusBadRequest : Nat := 400

/-- See `StatusBadRequest`. -/
def StatusInternalServerError : Nat := 500

/-- See `StatusBadRequest`. -/
def StatusNotFound : Nat := 404

/-- The struct `checkBuildWriteAccessHandler` as far as it decides: what
`h.buildFactory.Build(buildID)` returns (the build when found, or an error), and
`strconv.Atoi` of the Go standard library (the integer, or nothing when the text does
not parse). -/
structure checkBuildWriteAccessHandler where
  Build : Int → Except String (Option Build)
  Atoi : String → Option Int

/-- The method `checkBuildWriteAccessHandler.ServeHTTP` (lines 44-76): the actions taken,
in order. -/
def checkBuildWriteAccessHandler.ServeHTTP (h : checkBuildWriteAccessHandler)
    (r : Request) : List Action :=
  if !r.IsAuthenticated then [.Unauthorized]
  else
    match h.Atoi r.build_id with
    | none => [.WriteHeader StatusBadRequest]
    | some buildID =>
      match h.Build buildID with
      | .error _ => [.WriteHeader StatusInternalServerError]
      | .ok none => [.WriteHeader StatusNotFound]
      | .ok (some build) =>
        match r.GetTeam with
        | some IsAuthorized =>
          if !IsAuthorized build.TeamName then [.Forbidden]
          else [.DelegateServeHTTP ((.BuildContextKey, build) :: r.Context)]
        | none => [.DelegateServeHTTP ((.BuildContextKey, build) :: r.Context)]

/-- The value stored in a context under a key: the one added last. -/
def contextValue (ctx : List (ContextKey × Build)) (key : ContextKey) : Option Build :=
  (ctx.find? fun kv => kv.1 == key).map (·.2)

/-- The function `strconv.Atoi` on the texts of the examples: `7`, `0` and `42` parse,
any other text is taken not to. -/
def exampleAtoi (s : String) : Option Int :=
  if s = "7" then some 7 else if s = "0" then some 0 else if s = "42" then some 42 else none

/-- A handler over a factory that knows build 7 of team `main`, and fails on build 0. -/
def exampleHandler : checkBuildWriteAccessHandler where
  Build := fun buildID =>
    if buildID = 7 then .ok (some ⟨7, "main"⟩)
    else if buildID = 0 then .error "disaster" else .ok none
  Atoi := exampleAtoi

/-- An authenticated request for build 7 from a member of team `main`. -/
def exampleRequest : Request := ⟨true, "7", some (fun teamName => teamName == "main"), []⟩

/-- An authenticated request for build 7 from a member of team `other`. -/
def otherTeamRequest : Request := ⟨true, "7", some (fun teamName => teamName == "other"), []⟩

end Auth

namespace Dbng

/-! ## Facts about the statements -/

theorem configMatches_newConfigRow (id : Int) (c : ParentColumn) (p : Int) (h : String) :
    configMatches c p h (newConfigRow id c p h) = true := by
  cases c <;> simp [configMatches, newConfigRow, ResourceConfigRow.parent]

theorem newConfigRow_id (id : Int) (c : ParentColumn) (p : Int) (h : String) :
    (newConfigRow id c p h).id = id := by
  cases c <;> rfl

theorem configMatches_iff (c : ParentColumn) (p : Int) (h : String) (r : ResourceConfigRow) :
    configMatches c p h r = true ↔ r.parent c = some p ∧ r.source_hash = h := by
  simp [configMatches]

theorem useMatches_newUseRow (id : Int) (c : UserColumn) (u : Int) :
    useMatches id c u (newUseRow id c u) = true := by
  cases c <;> simp [useMatches, newUseRow, ResourceConfigUseRow.user]

theorem useMatches_iff (id : Int) (c : UserColumn) (u : Int) (r : ResourceConfigUseRow) :
    useMatches id c u r = true ↔ r.resource_config_id = id ∧ r.user c = some u := by
  simp [useMatches]

theorem afterParent_none {E : Env} {rc : ResourceConfig} {user : ResourceUser} {tx : Store}
    (h : rc.CreatedByResourceCache = none) : afterParent E rc user tx = tx := by
  simp [afterParent, resolveResourceCache, h]

theorem afterParent_some {E : Env} {rc : ResourceConfig} {user : ResourceUser} {tx : Store}
    {cache : ResourceCache} (h : rc.CreatedByResourceCache = some cache) :
    afterParent E rc user tx = (E.UseResourceCache user cache tx).2 := by
  simp only [afterParent, resolveResourceCache, h]
  rcases hu : E.UseResourceCache user cache tx with ⟨r, tx1⟩
  cases r <;> rfl

/-- A successful config stage either found the first matching row or appended a new one. -/
theorem findOrInsertConfig_ok {E : Env} {F : Faults} {rc : ResourceConfig} {tx tx2 : Store}
    {name : String} {p id : Int} {iss : List Stmt}
    (h : findOrInsertConfig E F rc tx name p = (.ok id, tx2, iss)) :
    ∃ c, parentColumn? name = some c ∧ F.selectConfig = none ∧
      ((∃ r, tx.resource_configs.find? (configMatches c p (E.mapHash rc.Source)) = some r ∧
          r.id = id ∧ tx2 = tx ∧ iss = [Stmt.selectConfig name p (E.mapHash rc.Source)]) ∨
       (tx.resource_configs.find? (configMatches c p (E.mapHash rc.Source)) = none ∧
          F.insertConfig = none ∧ id = F.newConfigID ∧
          tx2 = { tx with resource_configs :=
                    tx.resource_configs ++ [newConfigRow id c p (E.mapHash rc.Source)] } ∧
          iss = [Stmt.selectConfig name p (E.mapHash rc.Source),
                 Stmt.insertConfig name p (E.mapHash rc.Source)])) := by
  unfold findOrInsertConfig findWithParentID queryConfigID execInsertConfig at h
  cases hs : F.selectConfig with
  | some e => simp [hs] at h
  | none =>
    cases hc : parentColumn? name with
    | none => simp [hs, hc] at h
    | some c =>
      refine ⟨c, rfl, rfl, ?_⟩
      cases hf : tx.resource_configs.find? (configMatches c p (E.mapHash rc.Source)) with
      | some r =>
        left
        simp [hs, hc, hf] at h
        exact ⟨r, rfl, h.1, h.2.1.symm, h.2.2.symm⟩
      | none =>
        right
        cases hi : F.insertConfig with
        | some e => simp [hs, hc, hf, hi] at h
        | none =>
          simp [hs, hc, hf, hi] at h
          obtain ⟨h1, h2, h3⟩ := h
          subst h1
          exact ⟨rfl, rfl, rfl, h2.symm, h3.symm⟩

/-- A failing config stage leaves the tables as they were and never addresses
`resource_config_uses`. -/
theorem findOrInsertConfig_error {E : Env} {F : Faults} {rc : ResourceConfig}
    {tx tx2 : Store} {name : String} {p : Int} {iss : List Stmt} {err : Err}
    (h : findOrInsertConfig E F rc tx name p = (.error err, tx2, iss)) :
    tx2 = tx ∧ ∀ st ∈ iss, st.onUses = false := by
  unfold findOrInsertConfig findWithParentID queryConfigID execInsertConfig at h
  cases hs : F.selectConfig with
  | some e =>
    simp [hs] at h
    obtain ⟨-, h2, h3⟩ := h
    subst h2 h3
    simp [Stmt.onUses]
  | none =>
    cases hc : parentColumn? name with
    | none =>
      simp [hs, hc] at h
      obtain ⟨-, h2, h3⟩ := h
      subst h2 h3
      simp [Stmt.onUses]
    | some c =>
      cases hf : tx.resource_configs.find? (configMatches c p (E.mapHash rc.Source)) with
      | some r => simp [hs, hc, hf] at h
      | none =>
        cases hi : F.insertConfig with
        | some e =>
          simp [hs, hc, hf, hi] at h
          obtain ⟨-, h2, h3⟩ := h
          subst h2 h3
          simp [Stmt.onUses]
        | none => simp [hs, hc, hf, hi] at h

/-- The name `resource_config_id` denotes no user column. -/
theorem userColumn?_resource_config_id : userColumn? "resource_config_id" = none := by
  decide

/-- A name that denotes a user column is not `resource_config_id`. -/
theorem ne_resource_config_id_of_userColumn? {col : String} {c : UserColumn}
    (h : userColumn? col = some c) : col ≠ "resource_config_id" := by
  rintro rfl
  rw [userColumn?_resource_config_id] at h
  cases h

/-- A successful usage stage returns the value it was given with the resolved id. -/
theorem useResourceConfig_ok_ID {F : Faults} {user : ResourceUser} {col : String}
    {cid id : Int} {urc0 urc : UsedResourceConfig} {tx : Store} {iss : List Stmt}
    (h : (useResourceConfig F user col cid urc0 id tx iss).result = .ok urc) :
    urc = { urc0 with ID := id } := by
  unfold useResourceConfig queryUseExists execInsertUse at h
  cases hs : F.selectUse with
  | some e => simp [hs] at h
  | none =>
    by_cases hcol : col = "resource_config_id"
    · cases hf : tx.resource_config_uses.find? (useMatchesCollapsed cid) with
      | some r =>
        simp [hs, hcol, hf] at h
        exact h.symm
      | none =>
        cases hi : F.insertUse with
        | some e => simp [hs, hcol, hf, hi] at h
        | none => simp [hs, hcol, hf, hi] at h
    · cases hc : userColumn? col with
      | none => simp [hs, hcol, hc] at h
      | some c =>
        cases hf : tx.resource_config_uses.find? (useMatches id c cid) with
        | some r =>
          simp [hs, hcol, hc, hf] at h
          exact h.symm
        | none =>
          cases hi : F.insertUse with
          | some e => simp [hs, hcol, hc, hf, hi] at h
          | none =>
            simp [hs, hcol, hc, hf, hi] at h
            exact h.symm

/-- A successful usage stage under a name other than `resource_config_id` either found a
matching edge or appended a new one. -/
theorem useResourceConfig_ok {F : Faults} {user : ResourceUser} {col : String} {cid id : Int}
    {urc0 urc : UsedResourceConfig} {tx : Store} {iss : List Stmt}
    (hcol : col ≠ "resource_config_id")
    (h : (useResourceConfig F user col cid urc0 id tx iss).result = .ok urc) :
    urc = { urc0 with ID := id } ∧
    ∃ c, userColumn? col = some c ∧ F.selectUse = none ∧
      ((∃ r, tx.resource_config_uses.find? (useMatches id c cid) = some r ∧
          useResourceConfig F user col cid urc0 id tx iss =
            ⟨.ok urc, tx, iss ++ [Stmt.selectUse id col cid]⟩) ∨
       (tx.resource_config_uses.find? (useMatches id c cid) = none ∧ F.insertUse = none ∧
          useResourceConfig F user col cid urc0 id tx iss =
            ⟨.ok urc,
             { tx with resource_config_uses :=
                 tx.resource_config_uses ++ [newUseRow id c cid] },
             iss ++ [Stmt.selectUse id col cid] ++ [Stmt.insertUse id col cid]⟩)) := by
  unfold useResourceConfig queryUseExists execInsertUse at h ⊢
  cases hs : F.selectUse with
  | some e => simp [hs] at h
  | none =>
    cases hc : userColumn? col with
    | none => simp [hs, hcol, hc] at h
    | some c =>
      cases hf : tx.resource_config_uses.find? (useMatches id c cid) with
      | some r =>
        simp [hs, hcol, hc, hf] at h
        simp [hs, hcol, hc, hf, h]
      | none =>
        cases hi : F.insertUse with
        | some e => simp [hs, hcol, hc, hf, hi] at h
        | none =>
          have hf2 := List.find?_eq_none.mp hf
          simp [hs, hcol, hc, hf, hi] at h
          simp [hs, hcol, hc, hf, hi, h]
          simpa using hf2

/-- A successful usage stage under the name `resource_config_id`: the select, whose
condition is `resource_config_id = forColumnID` alone, found a row, and nothing was
inserted. -/
theorem useResourceConfig_ok_collapsed {F : Faults} {user : ResourceUser} {cid id : Int}
    {urc0 urc : UsedResourceConfig} {tx : Store} {iss : List Stmt}
    (h : (useResourceConfig F user "resource_config_id" cid urc0 id tx iss).result = .ok urc) :
    F.selectUse = none ∧
    ∃ r, tx.resource_config_uses.find? (useMatchesCollapsed cid) = some r ∧
      useResourceConfig F user "resource_config_id" cid urc0 id tx iss =
        ⟨.ok urc, tx, iss ++ [Stmt.selectUse id "resource_config_id" cid]⟩ := by
  unfold useResourceConfig queryUseExists execInsertUse at h ⊢
  cases hs : F.selectUse with
  | some e => simp [hs] at h
  | none =>
    cases hf : tx.resource_config_uses.find? (useMatchesCollapsed cid) with
    | some r =>
      simp [hs, hf] at h
      simp [hs, hf, h]
    | none =>
      cases hi : F.insertUse with
      | some e => simp [hs, hf, hi] at h
      | none => simp [hs, hf, hi] at h

/-- A failing usage stage leaves the tables as they were. -/
theorem useResourceConfig_error {F : Faults} {user : ResourceUser} {col : String}
    {cid id : Int} {urc0 : UsedResourceConfig} {tx : Store} {iss : List Stmt} {err : Err}
    (h : (useResourceConfig F user col cid urc0 id tx iss).result = .error err) :
    (useResourceConfig F user col cid urc0 id tx iss).store = tx := by
  unfold useResourceConfig queryUseExists execInsertUse at h ⊢
  cases hs : F.selectUse with
  | some e => simp [hs]
  | none =>
    by_cases hcol : col = "resource_config_id"
    · cases hf : tx.resource_config_uses.find? (useMatchesCollapsed cid) with
      | some r => simp [hs, hcol, hf]
      | none =>
        cases hi : F.insertUse with
        | some e => simp [hs, hcol, hf, hi]
        | none => simp [hs, hcol, hf, hi]
    · cases hc : userColumn? col with
      | none => simp [hs, hcol, hc]
      | some c =>
        cases hf : tx.resource_config_uses.find? (useMatches id c cid) with
        | some r => simp [hs, hcol, hc, hf]
        | none =>
          cases hi : F.insertUse with
          | some e => simp [hs, hcol, hc, hf, hi]
          | none => simp [hs, hcol, hc, hf, hi] at h

theorem resolveResourceCache_snd (E : Env) (rc : ResourceConfig) (user : ResourceUser)
    (tx : Store) (l : Locals) :
    (resolveResourceCache E rc user tx l).2 = afterParent E rc user tx := by
  unfold afterParent resolveResourceCache
  cases rc.CreatedByResourceCache with
  | none => rfl
  | some cache =>
    simp only
    rcases E.UseResourceCache user cache tx with ⟨r, tx1⟩
    cases r <;> rfl

/-- The four ways a call can end, by the stage it ends in. -/
theorem findOrCreate_cases (E : Env) (F : Faults) (rc : ResourceConfig) (user : ResourceUser)
    (col : String) (cid : Int) (tx : Store) :
    (∃ err, resolveResourceCache E rc user tx {} = (.error err, afterParent E rc user tx) ∧
        findOrCreate E F rc user col cid tx = ⟨.error err, afterParent E rc user tx, []⟩) ∨
    (∃ l1 err, resolveResourceCache E rc user tx {} = (.ok l1, afterParent E rc user tx) ∧
        resolveBaseResourceType E rc l1 = .error err ∧
        findOrCreate E F rc user col cid tx = ⟨.error err, afterParent E rc user tx, []⟩) ∨
    (∃ l1 l err tx2 iss,
        resolveResourceCache E rc user tx {} = (.ok l1, afterParent E rc user tx) ∧
        resolveBaseResourceType E rc l1 = .ok l ∧
        findOrInsertConfig E F rc (afterParent E rc user tx) l.parentColumnName l.parentID =
          (.error err, tx2, iss) ∧
        findOrCreate E F rc user col cid tx = ⟨.error err, tx2, iss⟩) ∨
    (∃ l1 l id tx2 iss,
        resolveResourceCache E rc user tx {} = (.ok l1, afterParent E rc user tx) ∧
        resolveBaseResourceType E rc l1 = .ok l ∧
        findOrInsertConfig E F rc (afterParent E rc user tx) l.parentColumnName l.parentID =
          (.ok id, tx2, iss) ∧
        findOrCreate E F rc user col cid tx =
          useResourceConfig F user col cid l.urc id tx2 iss) := by
  have hsnd := resolveResourceCache_snd E rc user tx {}
  rcases h1 : resolveResourceCache E rc user tx {} with ⟨r1, tx1⟩
  rw [h1] at hsnd
  simp only at hsnd
  subst hsnd
  cases r1 with
  | error err =>
    left
    exact ⟨err, rfl, by simp [findOrCreate, h1]⟩
  | ok l1 =>
    right
    cases h2 : resolveBaseResourceType E rc l1 with
    | error err =>
      left
      exact ⟨l1, err, rfl, h2, by simp [findOrCreate, h1, h2]⟩
    | ok l =>
      right
      rcases h3 : findOrInsertConfig E F rc (afterParent E rc user tx) l.parentColumnName l.parentID with
        ⟨r3, tx2, iss⟩
      cases r3 with
      | error err =>
        left
        exact ⟨l1, l, err, tx2, iss, rfl, h2, h3, by simp [findOrCreate, h1, h2, h3]⟩
      | ok id =>
        right
        exact ⟨l1, l, id, tx2, iss, rfl, h2, h3, by simp [findOrCreate, h1, h2, h3]⟩


theorem resolveResourceCache_ok {E : Env} {rc : ResourceConfig} {user : ResourceUser}
    {tx tx1 : Store} {l0 l1 : Locals}
    (h : resolveResourceCache E rc user tx l0 = (.ok l1, tx1)) :
    (rc.CreatedByResourceCache = none ∧ l1 = l0 ∧ tx1 = tx) ∨
    (∃ cache r, rc.CreatedByResourceCache = some cache ∧
        E.UseResourceCache user cache tx = (.ok r, tx1) ∧
        l1 = { urc := { l0.urc with CreatedByResourceCache := some r },
               parentID := r.ID, parentColumnName := "resource_cache_id" }) := by
  unfold resolveResourceCache at h
  cases hc : rc.CreatedByResourceCache with
  | none =>
    simp [hc] at h
    exact Or.inl ⟨rfl, h.1.symm, h.2.symm⟩
  | some cache =>
    right
    simp only [hc] at h
    rcases hu : E.UseResourceCache user cache tx with ⟨r, t⟩
    rw [hu] at h
    cases r with
    | error e => simp at h
    | ok r =>
      simp at h
      exact ⟨cache, r, rfl, by rw [hu, h.2], h.1.symm⟩

theorem resolveBaseResourceType_ok {E : Env} {rc : ResourceConfig} {l1 l : Locals}
    (h : resolveBaseResourceType E rc l1 = .ok l) :
    (rc.CreatedByBaseResourceType = none ∧ l = l1) ∨
    (∃ base ubrt, rc.CreatedByBaseResourceType = some base ∧ E.Find base = .ok (some ubrt) ∧
        l = { urc := { l1.urc with CreatedByBaseResourceType := some ubrt },
              parentID := ubrt.ID, parentColumnName := "base_resource_type_id" }) := by
  unfold resolveBaseResourceType at h
  cases hb : rc.CreatedByBaseResourceType with
  | none =>
    simp [hb] at h
    exact Or.inl ⟨rfl, h.symm⟩
  | some base =>
    right
    simp only [hb] at h
    cases hf : E.Find base with
    | error e => simp [hf] at h
    | ok o =>
      cases o with
      | none => simp [hf] at h
      | some ubrt =>
        simp [hf] at h
        exact ⟨base, ubrt, rfl, hf, h.symm⟩

/-- Every way the config stage can end. -/
theorem findOrInsertConfig_cases (E : Env) (F : Faults) (rc : ResourceConfig) (tx : Store)
    (name : String) (p : Int) :
    (∃ e, F.selectConfig = some e ∧
      findOrInsertConfig E F rc tx name p =
        (.error (.driver e), tx, [Stmt.selectConfig name p (E.mapHash rc.Source)])) ∨
    (F.selectConfig = none ∧ parentColumn? name = none ∧
      findOrInsertConfig E F rc tx name p =
        (.error (.driver (.pq "syntax_error" "")), tx,
          [Stmt.selectConfig name p (E.mapHash rc.Source)])) ∨
    (∃ c r, F.selectConfig = none ∧ parentColumn? name = some c ∧
      tx.resource_configs.find? (configMatches c p (E.mapHash rc.Source)) = some r ∧
      findOrInsertConfig E F rc tx name p =
        (.ok r.id, tx, [Stmt.selectConfig name p (E.mapHash rc.Source)])) ∨
    (∃ c e, F.selectConfig = none ∧ parentColumn? name = some c ∧
      tx.resource_configs.find? (configMatches c p (E.mapHash rc.Source)) = none ∧
      F.insertConfig = some e ∧
      findOrInsertConfig E F rc tx name p =
        (.error (configInsertError (.driver e)), tx,
          [Stmt.selectConfig name p (E.mapHash rc.Source),
           Stmt.insertConfig name p (E.mapHash rc.Source)])) ∨
    (∃ c, F.selectConfig = none ∧ parentColumn? name = some c ∧
      tx.resource_configs.find? (configMatches c p (E.mapHash rc.Source)) = none ∧
      F.insertConfig = none ∧
      findOrInsertConfig E F rc tx name p =
        (.ok F.newConfigID,
          { tx with resource_configs := tx.resource_configs ++
              [newConfigRow F.newConfigID c p (E.mapHash rc.Source)] },
          [Stmt.selectConfig name p (E.mapHash rc.Source),
           Stmt.insertConfig name p (E.mapHash rc.Source)])) := by
  unfold findOrInsertConfig findWithParentID queryConfigID execInsertConfig
  cases hs : F.selectConfig with
  | some e => left; exact ⟨e, rfl, by simp⟩
  | none =>
    right
    cases hc : parentColumn? name with
    | none => left; exact ⟨rfl, rfl, by simp⟩
    | some c =>
      right
      cases hf : tx.resource_configs.find? (configMatches c p (E.mapHash rc.Source)) with
      | some r => left; exact ⟨c, r, rfl, rfl, hf, by simp [hf]⟩
      | none =>
        right
        cases hi : F.insertConfig with
        | some e => left; exact ⟨c, e, rfl, rfl, hf, rfl, by simp [hf, hi]⟩
        | none => right; exact ⟨c, rfl, rfl, hf, rfl, by simp [hf, hi]⟩

/-- Every way the usage stage can end: the five ways under a name other than
`resource_config_id` (the select fails; the name is no column; the edge is found; the
insert of the edge fails; the edge is inserted), and the three ways under that name (a
row is found; the insert fails as the storage layer has it; the insert is rejected for
naming the column twice). -/
theorem useResourceConfig_cases (F : Faults) (user : ResourceUser) (col : String)
    (cid id : Int) (urc0 : UsedResourceConfig) (tx : Store) (iss : List Stmt) :
    (∃ e, F.selectUse = some e ∧
      useResourceConfig F user col cid urc0 id tx iss =
        ⟨.error (.driver e), tx, iss ++ [Stmt.selectUse id col cid]⟩) ∨
    (F.selectUse = none ∧ userColumn? col = none ∧
      useResourceConfig F user col cid urc0 id tx iss =
        ⟨.error (.driver (.pq "undefined_column" "")), tx,
          iss ++ [Stmt.selectUse id col cid]⟩) ∨
    (∃ c r, F.selectUse = none ∧ userColumn? col = some c ∧
      tx.resource_config_uses.find? (useMatches id c cid) = some r ∧
      useResourceConfig F user col cid urc0 id tx iss =
        ⟨.ok { urc0 with ID := id }, tx, iss ++ [Stmt.selectUse id col cid]⟩) ∨
    (∃ c e, F.selectUse = none ∧ userColumn? col = some c ∧
      tx.resource_config_uses.find? (useMatches id c cid) = none ∧
      F.insertUse = some e ∧
      useResourceConfig F user col cid urc0 id tx iss =
        ⟨.error (useInsertError user (.driver e)), tx,
          iss ++ [Stmt.selectUse id col cid] ++ [Stmt.insertUse id col cid]⟩) ∨
    (∃ c, F.selectUse = none ∧ userColumn? col = some c ∧
      tx.resource_config_uses.find? (useMatches id c cid) = none ∧
      F.insertUse = none ∧
      useResourceConfig F user col cid urc0 id tx iss =
        ⟨.ok { urc0 with ID := id },
          { tx with resource_config_uses := tx.resource_config_uses ++
              [newUseRow id c cid] },
          iss ++ [Stmt.selectUse id col cid] ++ [Stmt.insertUse id col cid]⟩) ∨
    (∃ r, F.selectUse = none ∧ col = "resource_config_id" ∧
      tx.resource_config_uses.find? (useMatchesCollapsed cid) = some r ∧
      useResourceConfig F user col cid urc0 id tx iss =
        ⟨.ok { urc0 with ID := id }, tx, iss ++ [Stmt.selectUse id col cid]⟩) ∨
    (∃ e, F.selectUse = none ∧ col = "resource_config_id" ∧
      tx.resource_config_uses.find? (useMatchesCollapsed cid) = none ∧
      F.insertUse = some e ∧
      useResourceConfig F user col cid urc0 id tx iss =
        ⟨.error (useInsertError user (.driver e)), tx,
          iss ++ [Stmt.selectUse id col cid] ++ [Stmt.insertUse id col cid]⟩) ∨
    (F.selectUse = none ∧ col = "resource_config_id" ∧
      tx.resource_config_uses.find? (useMatchesCollapsed cid) = none ∧
      F.insertUse = none ∧
      useResourceConfig F user col cid urc0 id tx iss =
        ⟨.error (.driver (.pq "duplicate_column" "")), tx,
          iss ++ [Stmt.selectUse id col cid] ++ [Stmt.insertUse id col cid]⟩) := by
  unfold useResourceConfig queryUseExists execInsertUse
  cases hs : F.selectUse with
  | some e => left; exact ⟨e, rfl, by simp⟩
  | none =>
    right
    by_cases hcol : col = "resource_config_id"
    · right; right; right; right
      cases hf : tx.resource_config_uses.find? (useMatchesCollapsed cid) with
      | some r => left; exact ⟨r, rfl, hcol, rfl, by simp [hcol, hf]⟩
      | none =>
        right
        cases hi : F.insertUse with
        | some e => left; exact ⟨e, rfl, hcol, rfl, rfl, by simp [hcol, hf, hi]⟩
        | none =>
          right
          exact ⟨rfl, hcol, rfl, rfl, by simp [hcol, hf, hi, useInsertError]⟩
    · cases hc : userColumn? col with
      | none => left; exact ⟨rfl, rfl, by simp [hcol]⟩
      | some c =>
        right
        cases hf : tx.resource_config_uses.find? (useMatches id c cid) with
        | some r => left; exact ⟨c, r, rfl, rfl, hf, by simp [hcol, hf]⟩
        | none =>
          right
          cases hi : F.insertUse with
          | some e => left; exact ⟨c, e, rfl, rfl, hf, rfl, by simp [hcol, hf, hi]⟩
          | none => right; left; exact ⟨c, rfl, rfl, hf, rfl, by simp [hcol, hf, hi]⟩

/-- The usage stage never touches `resource_configs`. -/
theorem useResourceConfig_configs (F : Faults) (user : ResourceUser) (col : String)
    (cid id : Int) (urc0 : UsedResourceConfig) (tx : Store) (iss : List Stmt) :
    (useResourceConfig F user col cid urc0 id tx iss).store.resource_configs =
      tx.resource_configs := by
  rcases useResourceConfig_cases F user col cid id urc0 tx iss with
    ⟨e, -, hu⟩ | ⟨-, -, hu⟩ | ⟨c, r, -, -, -, hu⟩ | ⟨c, e, -, -, -, -, hu⟩ |
    ⟨c, -, -, -, -, hu⟩ |
    ⟨r, -, -, -, hu⟩ | ⟨e, -, -, -, -, hu⟩ | ⟨-, -, -, -, hu⟩ <;> rw [hu]

/-- The config stage never touches `resource_config_uses`. -/
theorem findOrInsertConfig_uses (E : Env) (F : Faults) (rc : ResourceConfig) (tx : Store)
    (name : String) (p : Int) :
    (findOrInsertConfig E F rc tx name p).2.1.resource_config_uses =
      tx.resource_config_uses := by
  rcases findOrInsertConfig_cases E F rc tx name p with
    ⟨e, -, hh⟩ | ⟨-, -, hh⟩ | ⟨c, r, -, -, -, hh⟩ | ⟨c, e, -, -, -, -, hh⟩ |
    ⟨c, -, -, -, -, hh⟩ <;> rw [hh]

theorem parentColumn?_empty : parentColumn? "" = none := by decide

theorem parentColumn?_cache : parentColumn? "resource_cache_id" = some .resource_cache_id := by
  decide

theorem parentColumn?_base :
    parentColumn? "base_resource_type_id" = some .base_resource_type_id := by
  decide

/-- What the two parent blocks leave in the local variables, when both succeed and the
resulting column name denotes a parent column. -/
theorem resolved_locals {E : Env} {rc : ResourceConfig} {user : ResourceUser}
    {tx tx1 : Store} {l1 l : Locals} {c : ParentColumn}
    (h1 : resolveResourceCache E rc user tx {} = (.ok l1, tx1))
    (h2 : resolveBaseResourceType E rc l1 = .ok l)
    (hc : parentColumn? l.parentColumnName = some c) (id : Int) :
    ({ l.urc with ID := id } : UsedResourceConfig).parentKey = some (c, l.parentID) ∧
    (rc.CreatedByResourceCache = none → l.urc.CreatedByResourceCache = none) ∧
    (∀ cache, rc.CreatedByResourceCache = some cache →
      ∃ r, (E.UseResourceCache user cache tx).1 = .ok r ∧
        l.urc.CreatedByResourceCache = some r) ∧
    (rc.CreatedByBaseResourceType = none → l.urc.CreatedByBaseResourceType = none) ∧
    (∀ base, rc.CreatedByBaseResourceType = some base →
      ∃ ubrt, E.Find base = .ok (some ubrt) ∧ l.urc.CreatedByBaseResourceType = some ubrt) := by
  rcases resolveResourceCache_ok h1 with ⟨hn, hl1, -⟩ | ⟨cache, r, hcache, hu, hl1⟩ <;>
    rcases resolveBaseResourceType_ok h2 with ⟨hbn, hl⟩ | ⟨base, ubrt, hbase, hf, hl⟩
  · subst hl hl1
    simp [parentColumn?_empty] at hc
  · subst hl hl1
    simp only [parentColumn?_base, Option.some.injEq] at hc
    subst hc
    simp [UsedResourceConfig.parentKey, hn, hbase, hf]
  · subst hl hl1
    simp only [parentColumn?_cache, Option.some.injEq] at hc
    subst hc
    simp [UsedResourceConfig.parentKey, hcache, hbn, hu]
  · subst hl hl1
    simp only [parentColumn?_base, Option.some.injEq] at hc
    subst hc
    simp [UsedResourceConfig.parentKey, hcache, hbase, hf, hu]

/-- How a call changes `resource_config_uses`, whatever its outcome: not at all, or by
appending the one edge for the resolved config id, after the select for it found none;
the latter only on success. -/
theorem findOrCreate_uses_frame (E : Env) (F : Faults) (rc : ResourceConfig)
    (user : ResourceUser) (col : String) (cid : Int) (tx : Store) :
    (findOrCreate E F rc user col cid tx).store.resource_config_uses =
        (afterParent E rc user tx).resource_config_uses ∨
    ∃ urc c, (findOrCreate E F rc user col cid tx).result = .ok urc ∧
      userColumn? col = some c ∧
      (afterParent E rc user tx).resource_config_uses.find? (useMatches urc.ID c cid) = none ∧
      Stmt.insertUse urc.ID col cid ∈ (findOrCreate E F rc user col cid tx).issued ∧
      (findOrCreate E F rc user col cid tx).store.resource_config_uses =
        (afterParent E rc user tx).resource_config_uses ++ [newUseRow urc.ID c cid] := by
  rcases findOrCreate_cases E F rc user col cid tx with
    ⟨err, -, h⟩ | ⟨l1, err, -, -, h⟩ | ⟨l1, l, err, tx2, iss, -, -, h3, h⟩ |
    ⟨l1, l, id, tx2, iss, h1, h2, h3, h⟩
  · left; rw [h]
  · left; rw [h]
  · left; rw [h]; simp only; rw [(findOrInsertConfig_error h3).1]
  · have hu2 : tx2.resource_config_uses = (afterParent E rc user tx).resource_config_uses := by
      have := findOrInsertConfig_uses E F rc (afterParent E rc user tx) l.parentColumnName
        l.parentID
      rw [h3] at this
      exact this
    rw [h]
    rcases useResourceConfig_cases F user col cid id l.urc tx2 iss with
      ⟨e, -, hu⟩ | ⟨-, -, hu⟩ | ⟨c, r, -, -, -, hu⟩ | ⟨c, e, -, -, -, -, hu⟩ |
      ⟨c, -, hc, hf, -, hu⟩ | ⟨r, -, -, -, hu⟩ | ⟨e, -, -, -, -, hu⟩ | ⟨-, -, -, -, hu⟩
    · left; rw [hu]; exact hu2
    · left; rw [hu]; exact hu2
    · left; rw [hu]; exact hu2
    · left; rw [hu]; exact hu2
    · right
      rw [hu]
      refine ⟨{ l.urc with ID := id }, c, rfl, hc, ?_, by simp, ?_⟩
      · rw [← hu2]; exact hf
      · simp only; rw [hu2]
    · left; rw [hu]; exact hu2
    · left; rw [hu]; exact hu2
    · left; rw [hu]; exact hu2

/-- How a call changes `resource_configs`, whatever its outcome: not at all, or by
appending the one row for the resolved parent and source hash, after the lookup for it
found none. -/
theorem findOrCreate_configs_frame (E : Env) (F : Faults) (rc : ResourceConfig)
    (user : ResourceUser) (col : String) (cid : Int) (tx : Store) :
    (findOrCreate E F rc user col cid tx).store.resource_configs =
        (afterParent E rc user tx).resource_configs ∨
    ∃ name c p,
      parentColumn? name = some c ∧
      (afterParent E rc user tx).resource_configs.find?
        (configMatches c p (E.mapHash rc.Source)) = none ∧
      Stmt.insertConfig name p (E.mapHash rc.Source) ∈
        (findOrCreate E F rc user col cid tx).issued ∧
      (∃ id, Stmt.selectUse id col cid ∈ (findOrCreate E F rc user col cid tx).issued) ∧
      (findOrCreate E F rc user col cid tx).store.resource_configs =
        (afterParent E rc user tx).resource_configs ++
          [newConfigRow F.newConfigID c p (E.mapHash rc.Source)] := by
  rcases findOrCreate_cases E F rc user col cid tx with
    ⟨err, -, h⟩ | ⟨l1, err, -, -, h⟩ | ⟨l1, l, err, tx2, iss, -, -, h3, h⟩ |
    ⟨l1, l, id, tx2, iss, h1, h2, h3, h⟩
  · left; rw [h]
  · left; rw [h]
  · left; rw [h]; simp only; rw [(findOrInsertConfig_error h3).1]
  · rw [h, useResourceConfig_configs]
    have hsel : ∃ id', Stmt.selectUse id' col cid ∈
        (useResourceConfig F user col cid l.urc id tx2 iss).issued := by
      refine ⟨id, ?_⟩
      rcases useResourceConfig_cases F user col cid id l.urc tx2 iss with
        ⟨e, -, hu⟩ | ⟨-, -, hu⟩ | ⟨c, r, -, -, -, hu⟩ | ⟨c, e, -, -, -, -, hu⟩ |
        ⟨c, -, -, -, -, hu⟩ |
        ⟨r, -, -, -, hu⟩ | ⟨e, -, -, -, -, hu⟩ | ⟨-, -, -, -, hu⟩ <;> rw [hu] <;> simp
    have hsub : ∀ st ∈ iss, st ∈ (useResourceConfig F user col cid l.urc id tx2 iss).issued := by
      intro st hst
      rcases useResourceConfig_cases F user col cid id l.urc tx2 iss with
        ⟨e, -, hu⟩ | ⟨-, -, hu⟩ | ⟨c, r, -, -, -, hu⟩ | ⟨c, e, -, -, -, -, hu⟩ |
        ⟨c, -, -, -, -, hu⟩ |
        ⟨r, -, -, -, hu⟩ | ⟨e, -, -, -, -, hu⟩ | ⟨-, -, -, -, hu⟩ <;> rw [hu] <;> simp [hst]
    obtain ⟨c, hc, -, hC⟩ := findOrInsertConfig_ok h3
    rcases hC with ⟨r, hf, hid, htx, -⟩ | ⟨hf, -, hid, htx, hiss⟩
    · left; rw [htx]
    · right
      refine ⟨l.parentColumnName, c, l.parentID, hc, hf, hsub _ (by rw [hiss]; simp), hsel, ?_⟩
      rw [htx, hid]

/-- A row created for one (parent column, parent id, hash) matches no other key. -/
theorem configMatches_newConfigRow_iff (id : Int) (c c2 : ParentColumn) (p p2 : Int)
    (h h2 : String) :
    configMatches c2 p2 h2 (newConfigRow id c p h) = true ↔ c2 = c ∧ p2 = p ∧ h2 = h := by
  cases c <;> cases c2 <;> simp [configMatches, newConfigRow, ResourceConfigRow.parent] <;>
    exact ⟨fun ⟨a, b⟩ => ⟨a.symm, b.symm⟩, fun ⟨a, b⟩ => ⟨a.symm, b.symm⟩⟩

/-- An edge created for one (config id, user column, user id) matches no other key. -/
theorem useMatches_newUseRow_iff (id id2 : Int) (c c2 : UserColumn) (u u2 : Int) :
    useMatches id2 c2 u2 (newUseRow id c u) = true ↔ id2 = id ∧ c2 = c ∧ u2 = u := by
  cases c <;> cases c2 <;> simp [useMatches, newUseRow, ResourceConfigUseRow.user] <;>
    first
      | exact ⟨fun ⟨a, b⟩ => ⟨a.symm, b.symm⟩, fun ⟨a, b⟩ => ⟨a.symm, b.symm⟩⟩

/-- When at most one element satisfies `p`, and `a` does, filtering by `p` leaves `a`. -/
theorem filter_eq_singleton_of_countP_le_one {α : Type} (p : α → Bool) :
    ∀ (l : List α) (a : α), l.countP p ≤ 1 → a ∈ l → p a = true → l.filter p = [a]
  | [], _, _, hmem, _ => by simp at hmem
  | b :: l, a, hcount, hmem, hpa => by
    by_cases hpb : p b = true
    · have hzero : l.countP p = 0 := by
        rw [List.countP_cons_of_pos _ _ hpb] at hcount
        omega
      have hnone : ∀ x ∈ l, ¬ p x = true := List.countP_eq_zero.mp hzero
      have hab : a = b := by
        rcases List.mem_cons.mp hmem with h | h
        · exact h
        · exact absurd hpa (hnone a h)
      subst hab
      rw [List.filter_cons_of_pos hpa]
      congr
      exact List.filter_eq_nil_iff.mpr hnone
    · have hmem2 : a ∈ l := by
        rcases List.mem_cons.mp hmem with h | h
        · subst h; exact absurd hpa hpb
        · exact h
      rw [List.countP_cons_of_neg _ _ hpb] at hcount
      rw [List.filter_cons_of_neg hpb]
      exact filter_eq_singleton_of_countP_le_one p l a hcount hmem2 hpa

/-- An insert into `resource_configs` is issued only for the source hash of the
descriptor, under a name that denotes a parent column, after the lookup found no row. -/
theorem insertConfig_issued {E : Env} {F : Faults} {rc : ResourceConfig}
    {user : ResourceUser} {col : String} {cid : Int} {tx : Store}
    {name : String} {p : Int} {h : String}
    (hins : Stmt.insertConfig name p h ∈ (findOrCreate E F rc user col cid tx).issued) :
    h = E.mapHash rc.Source ∧
    ∃ c, parentColumn? name = some c ∧
      (afterParent E rc user tx).resource_configs.find? (configMatches c p h) = none := by
  rcases findOrCreate_cases E F rc user col cid tx with
    ⟨err, -, hh⟩ | ⟨l1, err, -, -, hh⟩ | ⟨l1, l, err, tx2, iss, -, -, h3, hh⟩ |
    ⟨l1, l, id, tx2, iss, -, -, h3, hh⟩
  · rw [hh] at hins; simp at hins
  · rw [hh] at hins; simp at hins
  · rw [hh] at hins
    simp only at hins
    rcases findOrInsertConfig_cases E F rc (afterParent E rc user tx) l.parentColumnName
      l.parentID with ⟨e, -, hc⟩ | ⟨-, -, hc⟩ | ⟨c, r, -, -, -, hc⟩ | ⟨c, e, -, hpc, hf, -, hc⟩ |
      ⟨c, -, hpc, hf, -, hc⟩ <;> rw [hc] at h3 <;>
      simp only [Prod.mk.injEq] at h3 <;> obtain ⟨-, -, h3c⟩ := h3 <;> subst h3c <;>
      simp at hins
    all_goals
      obtain ⟨rfl, rfl, rfl⟩ := hins
      exact ⟨rfl, c, hpc, hf⟩
  · rw [hh] at hins
    have hiss : Stmt.insertConfig name p h ∈ iss := by
      rcases useResourceConfig_cases F user col cid id l.urc tx2 iss with
        ⟨e, -, hu⟩ | ⟨-, -, hu⟩ | ⟨c, r, -, -, -, hu⟩ | ⟨c, e, -, -, -, -, hu⟩ |
        ⟨c, -, -, -, -, hu⟩ |
        ⟨r, -, -, -, hu⟩ | ⟨e, -, -, -, -, hu⟩ | ⟨-, -, -, -, hu⟩ <;> rw [hu] at hins <;> simpa using hins
    rcases findOrInsertConfig_cases E F rc (afterParent E rc user tx) l.parentColumnName
      l.parentID with ⟨e, -, hc⟩ | ⟨-, -, hc⟩ | ⟨c, r, -, -, -, hc⟩ | ⟨c, e, -, hpc, hf, -, hc⟩ |
      ⟨c, -, hpc, hf, -, hc⟩ <;> rw [hc] at h3 <;>
      simp only [Prod.mk.injEq] at h3 <;> obtain ⟨-, -, h3c⟩ := h3 <;> subst h3c <;>
      simp at hiss
    all_goals
      obtain ⟨rfl, rfl, rfl⟩ := hiss
      exact ⟨rfl, c, hpc, hf⟩

/-- An insert into `resource_config_uses` is issued only for the user of the call, after
the select found no row: under a name that denotes a user column the select is the one
for that edge; under the name `resource_config_id` the select is the one for
`resource_config_id = forColumnID`, and the insert adds no row. -/
theorem insertUse_issued {E : Env} {F : Faults} {rc : ResourceConfig}
    {user : ResourceUser} {col : String} {cid : Int} {tx : Store}
    {id : Int} {name : String} {uid : Int}
    (hins : Stmt.insertUse id name uid ∈ (findOrCreate E F rc user col cid tx).issued) :
    name = col ∧ uid = cid ∧
    ((∃ c, userColumn? name = some c ∧
        (afterParent E rc user tx).resource_config_uses.find? (useMatches id c uid) = none) ∨
     (name = "resource_config_id" ∧
        (afterParent E rc user tx).resource_config_uses.find? (useMatchesCollapsed uid) =
          none ∧
        (findOrCreate E F rc user col cid tx).store.resource_config_uses =
          (afterParent E rc user tx).resource_config_uses)) := by
  rcases findOrCreate_cases E F rc user col cid tx with
    ⟨err, -, hh⟩ | ⟨l1, err, -, -, hh⟩ | ⟨l1, l, err, tx2, iss, -, -, h3, hh⟩ |
    ⟨l1, l, cfg, tx2, iss, -, -, h3, hh⟩
  · rw [hh] at hins; simp at hins
  · rw [hh] at hins; simp at hins
  · rw [hh] at hins
    have := (findOrInsertConfig_error h3).2 _ hins
    simp [Stmt.onUses] at this
  · have hu2 : tx2.resource_config_uses = (afterParent E rc user tx).resource_config_uses := by
      have := findOrInsertConfig_uses E F rc (afterParent E rc user tx) l.parentColumnName
        l.parentID
      rw [h3] at this
      exact this
    have hiss : Stmt.insertUse id name uid ∉ iss := by
      intro hmem
      rcases findOrInsertConfig_cases E F rc (afterParent E rc user tx) l.parentColumnName
        l.parentID with ⟨e, -, hc⟩ | ⟨-, -, hc⟩ | ⟨c, r, -, -, -, hc⟩ | ⟨c, e, -, -, -, -, hc⟩ |
        ⟨c, -, -, -, -, hc⟩ <;> rw [hc] at h3 <;>
        simp only [Prod.mk.injEq] at h3 <;> obtain ⟨-, -, h3c⟩ := h3 <;> subst h3c <;>
        simp at hmem
    rw [hh] at hins ⊢
    rcases useResourceConfig_cases F user col cid cfg l.urc tx2 iss with
      ⟨e, -, hu⟩ | ⟨-, -, hu⟩ | ⟨c, r, -, -, -, hu⟩ | ⟨c, e, -, huc, hf, -, hu⟩ |
      ⟨c, -, huc, hf, -, hu⟩ | ⟨r, -, -, -, hu⟩ | ⟨e, -, hcol, hf, -, hu⟩ |
      ⟨-, hcol, hf, -, hu⟩ <;> rw [hu] at hins ⊢ <;> simp [hiss] at hins
    · obtain ⟨rfl, rfl, rfl⟩ := hins
      exact ⟨rfl, rfl, Or.inl ⟨c, huc, by rw [← hu2]; exact hf⟩⟩
    · obtain ⟨rfl, rfl, rfl⟩ := hins
      exact ⟨rfl, rfl, Or.inl ⟨c, huc, by rw [← hu2]; exact hf⟩⟩
    · obtain ⟨rfl, rfl, rfl⟩ := hins
      exact ⟨rfl, rfl, Or.inr ⟨hcol, by rw [← hu2]; exact hf, hu2⟩⟩
    · obtain ⟨rfl, rfl, rfl⟩ := hins
      exact ⟨rfl, rfl, Or.inr ⟨hcol, by rw [← hu2]; exact hf, hu2⟩⟩

/-- One call keeps `resource_configs` unique per key, given it was so when the statements
of the call began. -/
theorem findOrCreate_unique_configs_step (E : Env) (F : Faults) (rc : ResourceConfig)
    (user : ResourceUser) (col : String) (cid : Int) (tx : Store)
    (h : UniqueConfigs (afterParent E rc user tx)) :
    UniqueConfigs (findOrCreate E F rc user col cid tx).store := by
  intro c2 p2 h2
  rcases findOrCreate_configs_frame E F rc user col cid tx with
    he | ⟨name, c, p, -, hf, -, -, he⟩
  · rw [he]; exact h c2 p2 h2
  · rw [he, List.countP_append]
    by_cases hm : configMatches c2 p2 h2 (newConfigRow F.newConfigID c p (E.mapHash rc.Source))
        = true
    · have hk := (configMatches_newConfigRow_iff _ _ _ _ _ _ _).mp hm
      have hz : (afterParent E rc user tx).resource_configs.countP
          (configMatches c2 p2 h2) = 0 := by
        rw [hk.1, hk.2.1, hk.2.2]
        exact List.countP_eq_zero.mpr (by simpa using List.find?_eq_none.mp hf)
      rw [hz]
      simp [hm]
    · have := h c2 p2 h2
      simp [hm]
      exact this

/-- One call keeps `resource_config_uses` unique per key, given it was so when the
statements of the call began. -/
theorem findOrCreate_unique_uses_step (E : Env) (F : Faults) (rc : ResourceConfig)
    (user : ResourceUser) (col : String) (cid : Int) (tx : Store)
    (h : UniqueUses (afterParent E rc user tx)) :
    UniqueUses (findOrCreate E F rc user col cid tx).store := by
  intro id2 c2 u2
  rcases findOrCreate_uses_frame E F rc user col cid tx with
    he | ⟨urc, c, -, -, hf, -, he⟩
  · rw [he]; exact h id2 c2 u2
  · rw [he, List.countP_append]
    by_cases hm : useMatches id2 c2 u2 (newUseRow urc.ID c cid) = true
    · have hk := (useMatches_newUseRow_iff _ _ _ _ _ _).mp hm
      have hz : (afterParent E rc user tx).resource_config_uses.countP
          (useMatches id2 c2 u2) = 0 := by
        rw [hk.1, hk.2.1, hk.2.2]
        exact List.countP_eq_zero.mpr (by simpa using List.find?_eq_none.mp hf)
      rw [hz]
      simp [hm]
    · have := h id2 c2 u2
      simp [hm]
      exact this


/-- The example collaborator leaves the tables as it finds them. -/
theorem exampleEnv_UseResourceCache_snd (user : ResourceUser) (cache : ResourceCache)
    (s : Store) : (exampleEnv.UseResourceCache user cache s).2 = s := by
  simp only [exampleEnv]
  split <;> rfl

/-- A successful call returns the id of a row of the table that matches the key the
returned value was keyed by, and the parents it carries are the resolved ones. -/
theorem findOrCreate_ok_row {E : Env} {F : Faults} {rc : ResourceConfig}
    {user : ResourceUser} {col : String} {cid : Int} {tx : Store} {urc : UsedResourceConfig}
    (hok : (findOrCreate E F rc user col cid tx).result = .ok urc) :
    (∃ c q, urc.parentKey = some (c, q) ∧
      ∃ row ∈ (findOrCreate E F rc user col cid tx).store.resource_configs,
        configMatches c q (E.mapHash rc.Source) row = true ∧ row.id = urc.ID) ∧
    (rc.CreatedByResourceCache = none → urc.CreatedByResourceCache = none) ∧
    (∀ cache, rc.CreatedByResourceCache = some cache →
      ∃ r, (E.UseResourceCache user cache tx).1 = .ok r ∧
        urc.CreatedByResourceCache = some r) ∧
    (rc.CreatedByBaseResourceType = none → urc.CreatedByBaseResourceType = none) ∧
    (∀ base, rc.CreatedByBaseResourceType = some base →
      ∃ ubrt, E.Find base = .ok (some ubrt) ∧
        urc.CreatedByBaseResourceType = some ubrt) := by
  rcases findOrCreate_cases E F rc user col cid tx with
    ⟨err, -, h⟩ | ⟨l1, err, -, -, h⟩ | ⟨l1, l, err, tx2, iss, -, -, -, h⟩ |
    ⟨l1, l, id, tx2, iss, h1, h2, h3, h⟩
  · rw [h] at hok; simp at hok
  · rw [h] at hok; simp at hok
  · rw [h] at hok; simp at hok
  · rw [h] at hok ⊢
    have hurc := useResourceConfig_ok_ID hok
    obtain ⟨c, hc, -, hC⟩ := findOrInsertConfig_ok h3
    obtain ⟨hkey, hp⟩ := resolved_locals h1 h2 hc id
    rw [useResourceConfig_configs]
    subst hurc
    refine ⟨⟨c, l.parentID, hkey, ?_⟩, hp⟩
    rcases hC with ⟨r, hf, hid, htx, -⟩ | ⟨hf, -, hid, htx, -⟩
    · subst htx
      exact ⟨r, List.mem_of_find?_eq_some hf, List.find?_some hf, hid⟩
    · subst htx
      exact ⟨newConfigRow id c l.parentID (E.mapHash rc.Source), by simp,
        configMatches_newConfigRow _ _ _ _, newConfigRow_id _ _ _ _⟩

/-- Two successful calls for one descriptor are keyed by the same parent, provided the
cache parent always resolves to a cache with the id `p`. -/
theorem parentKey_fixed {E : Env} {rc : ResourceConfig} {p : Int}
    (hparent : ∀ (user : ResourceUser) (cache : ResourceCache) (s : Store)
      (r : UsedResourceCache), rc.CreatedByResourceCache = some cache →
      (E.UseResourceCache user cache s).1 = .ok r → r.ID = p)
    {F F2 : Faults} {user user2 : ResourceUser} {col col2 : String} {cid cid2 : Int}
    {tx tx2 : Store} {urc urc2 : UsedResourceConfig}
    (hok : (findOrCreate E F rc user col cid tx).result = .ok urc)
    (hok2 : (findOrCreate E F2 rc user2 col2 cid2 tx2).result = .ok urc2) :
    urc.parentKey = urc2.parentKey := by
  obtain ⟨-, ha1, ha2, ha3, ha4⟩ := findOrCreate_ok_row hok
  obtain ⟨-, hb1, hb2, hb3, hb4⟩ := findOrCreate_ok_row hok2
  cases hbase : rc.CreatedByBaseResourceType with
  | some base =>
    obtain ⟨u1, hf1, hu1⟩ := ha4 base hbase
    obtain ⟨u2, hf2, hu2⟩ := hb4 base hbase
    rw [hf1] at hf2
    cases hf2
    simp [UsedResourceConfig.parentKey, hu1, hu2]
  | none =>
    have hu1 := ha3 hbase
    have hu2 := hb3 hbase
    cases hcache : rc.CreatedByResourceCache with
    | some cache =>
      obtain ⟨r1, hr1, hc1⟩ := ha2 cache hcache
      obtain ⟨r2, hr2, hc2⟩ := hb2 cache hcache
      have e1 := hparent _ _ _ _ hcache hr1
      have e2 := hparent _ _ _ _ hcache hr2
      simp [UsedResourceConfig.parentKey, hu1, hu2, hc1, hc2, e1, e2]
    | none =>
      simp [UsedResourceConfig.parentKey, hu1, hu2, ha1 hcache, hb1 hcache]

/-- Every result of a run is the result of one call of `findOrCreate`. -/
theorem findOrCreateAll_result {E : Env} {rc : ResourceConfig} :
    ∀ (calls : List Call) (tx : Store) (res : Except Err UsedResourceConfig),
      res ∈ (findOrCreateAll E rc calls tx).1 →
      ∃ (call : Call) (s : Store),
        res = (findOrCreate E call.faults rc call.user call.forColumnName
          call.forColumnID s).result
  | [], _, _, h => by simp [findOrCreateAll] at h
  | call :: calls, tx, res, h => by
    simp only [findOrCreateAll, List.mem_cons] at h
    rcases h with h | h
    · exact ⟨call, tx, h⟩
    · exact findOrCreateAll_result calls _ res h

/-- A run keeps the config rows it starts from and the uniqueness of the table, and every
id it returned is the id of a row of the final table matching the key it was returned
for. -/
theorem findOrCreateAll_spec {E : Env} {rc : ResourceConfig}
    (huniq : ∀ (user : ResourceUser) (cache : ResourceCache) (s : Store),
      rc.CreatedByResourceCache = some cache → UniqueConfigs s →
      UniqueConfigs (E.UseResourceCache user cache s).2)
    (hkeep : ∀ (user : ResourceUser) (cache : ResourceCache) (s : Store),
      rc.CreatedByResourceCache = some cache →
      s.resource_configs.Sublist (E.UseResourceCache user cache s).2.resource_configs) :
    ∀ (calls : List Call) (tx : Store), UniqueConfigs tx →
      tx.resource_configs.Sublist (findOrCreateAll E rc calls tx).2.resource_configs ∧
      UniqueConfigs (findOrCreateAll E rc calls tx).2 ∧
      ∀ urc, .ok urc ∈ (findOrCreateAll E rc calls tx).1 →
        ∃ c q, urc.parentKey = some (c, q) ∧
          ∃ row ∈ (findOrCreateAll E rc calls tx).2.resource_configs,
            configMatches c q (E.mapHash rc.Source) row = true ∧ row.id = urc.ID
  | [], tx, hpre => by
    simp [findOrCreateAll]
    exact hpre
  | call :: calls, tx, hpre => by
    have hapu : UniqueConfigs (afterParent E rc call.user tx) := by
      cases hc : rc.CreatedByResourceCache with
      | none => rw [afterParent_none hc]; exact hpre
      | some cache => rw [afterParent_some hc]; exact huniq _ _ _ hc hpre
    have haps : tx.resource_configs.Sublist
        (afterParent E rc call.user tx).resource_configs := by
      cases hc : rc.CreatedByResourceCache with
      | none => rw [afterParent_none hc]
      | some cache => rw [afterParent_some hc]; exact hkeep _ _ _ hc
    have hstep := findOrCreate_unique_configs_step E call.faults rc call.user
      call.forColumnName call.forColumnID tx hapu
    have hsub : (afterParent E rc call.user tx).resource_configs.Sublist
        (findOrCreate E call.faults rc call.user call.forColumnName call.forColumnID
          tx).store.resource_configs := by
      rcases findOrCreate_configs_frame E call.faults rc call.user call.forColumnName
        call.forColumnID tx with he | ⟨name, c, p, -, -, -, -, he⟩ <;> rw [he]
      exact List.sublist_append_left _ _
    obtain ⟨ih1, ih2, ih3⟩ := findOrCreateAll_spec huniq hkeep calls _ hstep
    simp only [findOrCreateAll]
    refine ⟨(haps.trans hsub).trans ih1, ih2, ?_⟩
    intro urc hmem
    rcases List.mem_cons.mp hmem with h | h
    · obtain ⟨⟨c, q, hkey, row, hrow, hm, hid⟩, -⟩ := findOrCreate_ok_row h.symm
      exact ⟨c, q, hkey, row, ih1.subset hrow, hm, hid⟩
    · exact ih3 urc h

/-- The statements a failing config stage issued: the lookup alone, or the lookup and
the insert. -/
theorem findOrInsertConfig_issued {E : Env} {F : Faults} {rc : ResourceConfig} {tx tx2 : Store}
    {name : String} {p : Int} {iss : List Stmt} {r : Except Err Int}
    (h : findOrInsertConfig E F rc tx name p = (r, tx2, iss)) :
    ∀ st ∈ iss, st = Stmt.selectConfig name p (E.mapHash rc.Source) ∨
      st = Stmt.insertConfig name p (E.mapHash rc.Source) := by
  rcases findOrInsertConfig_cases E F rc tx name p with
    ⟨e, -, hc⟩ | ⟨-, -, hc⟩ | ⟨c, r, -, -, -, hc⟩ | ⟨c, e, -, -, -, -, hc⟩ |
    ⟨c, -, -, -, -, hc⟩ <;> rw [hc] at h <;>
    simp only [Prod.mk.injEq] at h <;> obtain ⟨-, -, h3⟩ := h <;> subst h3 <;> simp

/-- A hexadecimal digit is one of `0`-`9`, `a`-`f`. -/
theorem hexDigit_mem (n : Nat) (h : n < 16) : hexDigit n ∈ "0123456789abcdef".toList := by
  unfold hexDigit
  interval_cases n <;> decide

/-- Each digit `%x` writes reads back as the number it was written for. -/
theorem hexValue?_hexDigit (n : Nat) (h : n < 16) : hexValue? (hexDigit n) = some n := by
  interval_cases n <;> decide

/-- What `%x` writes reads back as the bytes it was given. -/
theorem decodeHex_sprintfHex (bytes : List Byte) :
    decodeHex (sprintfHex bytes).toList = some (bytes.map Fin.val) := by
  change decodeHex (bytes.map hexByte).flatten = some (bytes.map Fin.val)
  induction bytes with
  | nil => rfl
  | cons b bs ih =>
    have h1 := hexValue?_hexDigit (b.val / 16) (by have := b.isLt; omega)
    have h2 := hexValue?_hexDigit (b.val % 16) (by omega)
    have h3 : hexByte b ++ (bs.map hexByte).flatten =
        hexDigit (b.val / 16) :: hexDigit (b.val % 16) :: (bs.map hexByte).flatten := rfl
    have h4 : 16 * (b.val / 16) + b.val % 16 = b.val := by omega
    rw [List.map_cons, List.flatten_cons, h3]
    simp only [decodeHex, h1, h2, ih, h4, List.map_cons]

/-- Two digits per byte. -/
theorem sprintfHex_length (bytes : List Byte) : (sprintfHex bytes).length = 2 * bytes.length := by
  have h : ∀ bs : List Byte, ((bs.map hexByte).flatten).length = 2 * bs.length := by
    intro bs
    induction bs with
    | nil => rfl
    | cons b bs ih =>
      simp only [List.map_cons, List.flatten_cons, List.length_append, ih, hexByte,
        List.length_cons, List.length_nil]
      omega
  unfold sprintfHex
  rw [String.length_mk]
  exact h bytes

/-- Only lowercase hexadecimal digits. -/
theorem sprintfHex_digits (bytes : List Byte) :
    ∀ ch ∈ (sprintfHex bytes).toList, ch ∈ "0123456789abcdef".toList := by
  intro ch hch
  change ch ∈ (bytes.map hexByte).flatten at hch
  simp only [List.mem_flatten, List.mem_map] at hch
  obtain ⟨l, ⟨b, -, rfl⟩, hl⟩ := hch
  simp only [hexByte, List.mem_cons, List.mem_singleton, List.not_mem_nil, or_false] at hl
  rcases hl with rfl | rfl
  · exact hexDigit_mem _ (by have := b.isLt; omega)
  · exact hexDigit_mem _ (by omega)

/-- What an error return leaves in the tables as they are seen through the transaction
the call was handed (`findOrCreate` neither commits nor rolls back): `resource_config_uses`
is as it was when the statements of the call began, and `resource_configs` is either as it
was then too, or holds exactly one more row, the config row this call inserted (the
lookup having found none) before it failed in the usage-edge stage.  The tables are as
they were whenever the error is returned before any statement on `resource_config_uses`
is issued; and for a descriptor without a cache parent, the tables when the statements
began are the tables before the call. -/
theorem findOrCreate_error_frame (E : Env) (F : Faults) (rc : ResourceConfig)
    (user : ResourceUser) (forColumnName : String) (forColumnID : Int) (tx : Store)
    (err : Err)
    (herr : (findOrCreate E F rc user forColumnName forColumnID tx).result = .error err) :
    (findOrCreate E F rc user forColumnName forColumnID tx).store.resource_config_uses =
        (afterParent E rc user tx).resource_config_uses ∧
    ((findOrCreate E F rc user forColumnName forColumnID tx).store.resource_configs =
        (afterParent E rc user tx).resource_configs ∨
      ∃ name c p,
        parentColumn? name = some c ∧
        (afterParent E rc user tx).resource_configs.find?
          (configMatches c p (E.mapHash rc.Source)) = none ∧
        Stmt.insertConfig name p (E.mapHash rc.Source) ∈
          (findOrCreate E F rc user forColumnName forColumnID tx).issued ∧
        (∃ id, Stmt.selectUse id forColumnName forColumnID ∈
          (findOrCreate E F rc user forColumnName forColumnID tx).issued) ∧
        (findOrCreate E F rc user forColumnName forColumnID tx).store.resource_configs =
          (afterParent E rc user tx).resource_configs ++
            [newConfigRow F.newConfigID c p (E.mapHash rc.Source)]) ∧
    ((∀ st ∈ (findOrCreate E F rc user forColumnName forColumnID tx).issued,
        st.onUses = false) →
      (findOrCreate E F rc user forColumnName forColumnID tx).store =
        afterParent E rc user tx) ∧
    (rc.CreatedByResourceCache = none → afterParent E rc user tx = tx) := by
  have hu : (findOrCreate E F rc user forColumnName forColumnID tx).store.resource_config_uses =
      (afterParent E rc user tx).resource_config_uses := by
    rcases findOrCreate_uses_frame E F rc user forColumnName forColumnID tx with
      h | ⟨urc, c, hok, -⟩
    · exact h
    · rw [hok] at herr; cases herr
  refine ⟨hu, findOrCreate_configs_frame E F rc user forColumnName forColumnID tx, ?_,
    fun hn => afterParent_none hn⟩
  intro hno
  have hc : (findOrCreate E F rc user forColumnName forColumnID tx).store.resource_configs =
      (afterParent E rc user tx).resource_configs := by
    rcases findOrCreate_configs_frame E F rc user forColumnName forColumnID tx with
      h | ⟨name, c, p, -, -, -, ⟨id, hsel⟩, -⟩
    · exact h
    · have := hno _ hsel
      simp [Stmt.onUses] at this
  rcases hs : (findOrCreate E F rc user forColumnName forColumnID tx).store with ⟨a, b⟩
  rcases hp : afterParent E rc user tx with ⟨a2, b2⟩
  rw [hs, hp] at hu hc
  simp only at hu hc
  rw [hu, hc]

/-! ## The claims -/

/-- C1. Idempotence of `findOrCreate`: if a call succeeds and the same descriptor and user
are passed again to the tables that call left, with the storage layer answering the two
selects as before and the cache parent (when the descriptor has one) resolving again to
the same result without touching the tables, then the second call succeeds, returns the
same value (hence the same ID), leaves both tables exactly as they were and issues no
insert. -/
theorem findOrCreate_idempotent (E : Env) (F F2 : Faults) (rc : ResourceConfig)
    (user : ResourceUser) (forColumnName : String) (forColumnID : Int) (tx : Store)
    (urc : UsedResourceConfig)
    (hok : (findOrCreate E F rc user forColumnName forColumnID tx).result = .ok urc)
    (hrep : ∀ cache, rc.CreatedByResourceCache = some cache →
      E.UseResourceCache user cache (findOrCreate E F rc user forColumnName forColumnID tx).store
        = ((E.UseResourceCache user cache tx).1,
           (findOrCreate E F rc user forColumnName forColumnID tx).store))
    (hsel : F2.selectConfig = F.selectConfig) (huse : F2.selectUse = F.selectUse) :
    (findOrCreate E F2 rc user forColumnName forColumnID
        (findOrCreate E F rc user forColumnName forColumnID tx).store).result = .ok urc ∧
    (findOrCreate E F2 rc user forColumnName forColumnID
        (findOrCreate E F rc user forColumnName forColumnID tx).store).store =
      (findOrCreate E F rc user forColumnName forColumnID tx).store ∧
    ∀ st ∈ (findOrCreate E F2 rc user forColumnName forColumnID
        (findOrCreate E F rc user forColumnName forColumnID tx).store).issued,
      st.isInsert = false := by
  rcases findOrCreate_cases E F rc user forColumnName forColumnID tx with
    ⟨err, -, h⟩ | ⟨l1, err, -, -, h⟩ | ⟨l1, l, err, tx2, iss, -, -, -, h⟩ |
    ⟨l1, l, id, tx2, iss, h1, h2, h3, h⟩
  · rw [h] at hok; simp at hok
  · rw [h] at hok; simp at hok
  · rw [h] at hok; simp at hok
  · rw [h] at hok hrep ⊢
    have hurc := useResourceConfig_ok_ID hok
    obtain ⟨pc, hpc, hsc, hC⟩ := findOrInsertConfig_ok h3
    -- the store the first call leaves
    set s1 := (useResourceConfig F user forColumnName forColumnID l.urc id tx2 iss).store
      with hs1
    -- second call: parent resolution
    have hr1 : resolveResourceCache E rc user s1 {} = (.ok l1, s1) := by
      rcases resolveResourceCache_ok h1 with ⟨hn, hl, -⟩ | ⟨cache, r, hcache, hu, hl⟩
      · simp [resolveResourceCache, hn, hl]
      · have := hrep cache hcache
        simp [resolveResourceCache, hcache, this, hu, hl]
    -- the config row is found in s1
    have hcfg : ∃ r, s1.resource_configs.find? (configMatches pc l.parentID (E.mapHash rc.Source))
        = some r ∧ r.id = id := by
      have hs1c : s1.resource_configs = tx2.resource_configs := by
        rw [hs1, useResourceConfig_configs]
      rw [hs1c]
      rcases hC with ⟨r, hf, hid, htx, -⟩ | ⟨hf, -, hid, htx, -⟩
      · exact ⟨r, by rw [htx]; exact hf, hid⟩
      · refine ⟨newConfigRow id pc l.parentID (E.mapHash rc.Source), ?_, newConfigRow_id _ _ _ _⟩
        rw [htx]
        simp [List.find?_append, hf, configMatches_newConfigRow]
    obtain ⟨r, hfr, hrid⟩ := hcfg
    have hfc : findOrInsertConfig E F2 rc s1 l.parentColumnName l.parentID =
        (.ok id, s1, [Stmt.selectConfig l.parentColumnName l.parentID (E.mapHash rc.Source)]) := by
      simp [findOrInsertConfig, findWithParentID, queryConfigID, hsel, hsc, hpc, hfr, hrid]
    have h2nd : findOrCreate E F2 rc user forColumnName forColumnID s1 =
        ⟨.ok urc, s1, [Stmt.selectConfig l.parentColumnName l.parentID (E.mapHash rc.Source),
          Stmt.selectUse id forColumnName forColumnID]⟩ := by
      by_cases hcol : forColumnName = "resource_config_id"
      · -- the select for `resource_config_id = forColumnID` finds its row again
        subst hcol
        obtain ⟨hsu, u, hf, he⟩ := useResourceConfig_ok_collapsed hok
        have hfu : s1.resource_config_uses.find? (useMatchesCollapsed forColumnID) = some u := by
          rw [hs1, he]; exact hf
        simp [findOrCreate, hr1, h2, hfc, useResourceConfig, queryUseExists, huse, hsu, hfu,
          hurc]
      · -- the edge is found in s1
        obtain ⟨-, c, hc, hsu, hU⟩ := useResourceConfig_ok hcol hok
        have hedge : ∃ u, s1.resource_config_uses.find? (useMatches id c forColumnID) =
            some u := by
          rcases hU with ⟨u, hf, he⟩ | ⟨hf, -, he⟩
          · exact ⟨u, by rw [hs1, he]; exact hf⟩
          · refine ⟨newUseRow id c forColumnID, ?_⟩
            rw [hs1, he]
            simp [List.find?_append, hf, useMatches_newUseRow]
        obtain ⟨u, hfu⟩ := hedge
        simp [findOrCreate, hr1, h2, hfc, useResourceConfig, queryUseExists, huse, hsu, hcol,
          hc, hfu, hurc]
    rw [h2nd]
    simp [Stmt.isInsert]

/-- C1 at a descriptor with a cache parent, starting from empty tables. -/
theorem findOrCreate_idempotent_witness :
    (findOrCreate exampleEnv {} exampleCacheConfig ⟨"build 7"⟩ "build_id" 7 ⟨[], []⟩).result =
        .ok ⟨1, some ⟨9⟩, none⟩ ∧
    (findOrCreate exampleEnv {} exampleCacheConfig ⟨"build 7"⟩ "build_id" 7
        (findOrCreate exampleEnv {} exampleCacheConfig ⟨"build 7"⟩ "build_id" 7
          ⟨[], []⟩).store).result = .ok ⟨1, some ⟨9⟩, none⟩ ∧
    (findOrCreate exampleEnv {} exampleCacheConfig ⟨"build 7"⟩ "build_id" 7
        (findOrCreate exampleEnv {} exampleCacheConfig ⟨"build 7"⟩ "build_id" 7
          ⟨[], []⟩).store).store =
      (findOrCreate exampleEnv {} exampleCacheConfig ⟨"build 7"⟩ "build_id" 7 ⟨[], []⟩).store ∧
    ∀ st ∈ (findOrCreate exampleEnv {} exampleCacheConfig ⟨"build 7"⟩ "build_id" 7
        (findOrCreate exampleEnv {} exampleCacheConfig ⟨"build 7"⟩ "build_id" 7
          ⟨[], []⟩).store).issued, st.isInsert = false :=
  ⟨by decide,
   findOrCreate_idempotent exampleEnv {} {} exampleCacheConfig ⟨"build 7"⟩ "build_id" 7 ⟨[], []⟩
     ⟨1, some ⟨9⟩, none⟩ (by decide) (fun _ h => by cases h; rfl) rfl rfl⟩

/-- C2. Uniqueness of `resource_configs` per (parent column, parent id, source hash) is an
invariant of `findOrCreate`.  (1) If the table holds at most one row per key before a
call, and still does once the cache parent (when the descriptor has one) is resolved,
then it does after the call, whatever its outcome.  (2) The reason: the insert of a config
row is issued only with the source hash of the descriptor and only when the lookup for
that very (parent column, parent id, hash) found no row.  (3) Hence, for one descriptor
whose cache parent always resolves to the same cache id, keeping the rows it finds and
the uniqueness of the table, calls run one after the other for any users leave the table
unique, and all the successful ones were keyed by one and the same (parent column, parent
id), for which the final table holds exactly one row, whose id is the ID each of them
returned. -/
theorem findOrCreate_unique_configs (E : Env) (rc : ResourceConfig) :
    (∀ (F : Faults) (user : ResourceUser) (forColumnName : String) (forColumnID : Int)
        (tx : Store),
      UniqueConfigs tx →
      (∀ cache, rc.CreatedByResourceCache = some cache →
        UniqueConfigs (E.UseResourceCache user cache tx).2) →
      UniqueConfigs (findOrCreate E F rc user forColumnName forColumnID tx).store) ∧
    (∀ (F : Faults) (user : ResourceUser) (forColumnName : String) (forColumnID : Int)
        (tx : Store) (name : String) (parentID : Int) (hash : String),
      Stmt.insertConfig name parentID hash ∈
        (findOrCreate E F rc user forColumnName forColumnID tx).issued →
      hash = E.mapHash rc.Source ∧
      ∃ c, parentColumn? name = some c ∧
        (afterParent E rc user tx).resource_configs.countP
          (configMatches c parentID hash) = 0) ∧
    (∀ (p : Int) (calls : List Call) (tx : Store),
      UniqueConfigs tx →
      (∀ (user : ResourceUser) (cache : ResourceCache) (s : Store),
        rc.CreatedByResourceCache = some cache → UniqueConfigs s →
        UniqueConfigs (E.UseResourceCache user cache s).2) →
      (∀ (user : ResourceUser) (cache : ResourceCache) (s : Store),
        rc.CreatedByResourceCache = some cache →
        s.resource_configs.Sublist (E.UseResourceCache user cache s).2.resource_configs) →
      (∀ (user : ResourceUser) (cache : ResourceCache) (s : Store) (r : UsedResourceCache),
        rc.CreatedByResourceCache = some cache →
        (E.UseResourceCache user cache s).1 = .ok r → r.ID = p) →
      UniqueConfigs (findOrCreateAll E rc calls tx).2 ∧
      ∃ c q, ∀ urc, .ok urc ∈ (findOrCreateAll E rc calls tx).1 →
        urc.parentKey = some (c, q) ∧
        ∃ row, (findOrCreateAll E rc calls tx).2.resource_configs.filter
            (configMatches c q (E.mapHash rc.Source)) = [row] ∧
          row.id = urc.ID) := by
  refine ⟨?_, ?_, ?_⟩
  · intro F user col cid tx hpre hcollab
    apply findOrCreate_unique_configs_step
    cases hc : rc.CreatedByResourceCache with
    | none => rw [afterParent_none hc]; exact hpre
    | some cache => rw [afterParent_some hc]; exact hcollab cache hc
  · intro F user col cid tx name p h hins
    obtain ⟨hh, c, hc, hf⟩ := insertConfig_issued hins
    exact ⟨hh, c, hc, List.countP_eq_zero.mpr (by simpa using List.find?_eq_none.mp hf)⟩
  · intro p calls tx hpre huniq hkeep hparent
    obtain ⟨-, hu, hrows⟩ := findOrCreateAll_spec huniq hkeep calls tx hpre
    refine ⟨hu, ?_⟩
    by_cases hex : ∃ urc0, .ok urc0 ∈ (findOrCreateAll E rc calls tx).1
    · obtain ⟨urc0, h0⟩ := hex
      obtain ⟨c, q, hkey0, -⟩ := hrows urc0 h0
      refine ⟨c, q, ?_⟩
      intro urc hmem
      obtain ⟨call0, s0, e0⟩ := findOrCreateAll_result calls tx _ h0
      obtain ⟨call1, s1, e1⟩ := findOrCreateAll_result calls tx _ hmem
      have hk : urc.parentKey = some (c, q) := by
        rw [parentKey_fixed hparent e1.symm e0.symm]
        exact hkey0
      obtain ⟨c2, q2, hkey, row, hrow, hm, hid⟩ := hrows urc hmem
      rw [hk] at hkey
      simp only [Option.some.injEq, Prod.mk.injEq] at hkey
      obtain ⟨rfl, rfl⟩ := hkey
      exact ⟨hk, row, filter_eq_singleton_of_countP_le_one _ _ _ (hu _ _ _) hrow hm, hid⟩
    · refine ⟨.resource_cache_id, 0, ?_⟩
      intro urc hmem
      exact absurd ⟨urc, hmem⟩ hex

/-- C2 at three calls for one cache-parented descriptor, on behalf of a build, a resource
and a resource type, starting from empty tables: one config row, three usage edges. -/
theorem findOrCreate_unique_configs_witness :
    (findOrCreateAll exampleEnv exampleCacheConfig exampleCalls ⟨[], []⟩) =
      ([.ok ⟨1, some ⟨9⟩, none⟩, .ok ⟨1, some ⟨9⟩, none⟩, .ok ⟨1, some ⟨9⟩, none⟩],
       ⟨[⟨1, some 9, none, "repository=busybox;"⟩],
        [⟨1, some 7, none, none⟩, ⟨1, none, some 2, none⟩, ⟨1, none, none, some 5⟩]⟩) ∧
    UniqueConfigs (findOrCreateAll exampleEnv exampleCacheConfig exampleCalls ⟨[], []⟩).2 ∧
    ∃ c q, ∀ urc,
      .ok urc ∈ (findOrCreateAll exampleEnv exampleCacheConfig exampleCalls ⟨[], []⟩).1 →
        urc.parentKey = some (c, q) ∧
        ∃ row, (findOrCreateAll exampleEnv exampleCacheConfig exampleCalls
            ⟨[], []⟩).2.resource_configs.filter
              (configMatches c q (exampleEnv.mapHash exampleCacheConfig.Source)) = [row] ∧
          row.id = urc.ID :=
  ⟨by decide,
   (findOrCreate_unique_configs exampleEnv exampleCacheConfig).2.2 9 exampleCalls ⟨[], []⟩
     (fun _ _ _ => Nat.zero_le _)
     (fun user cache s _ hs => by rw [exampleEnv_UseResourceCache_snd]; exact hs)
     (fun user cache s _ => by rw [exampleEnv_UseResourceCache_snd])
     (fun _ cache s r _ hr => by
       simp only [exampleEnv] at hr
       split at hr
       · cases hr
       · cases hr; rfl)⟩

/-- C3. When the insert into `resource_configs` is issued and the storage layer fails it
with a `unique_violation` or a `foreign_key_violation`, `findOrCreate` returns
`ErrSafeRetryFindOrCreate` with a nil result, issues no statement on
`resource_config_uses` (neither the select nor the insert of the usage edge), and leaves
the tables as they were when its own statements began. -/
theorem findOrCreate_config_insert_conflict (E : Env) (F : Faults) (rc : ResourceConfig)
    (user : ResourceUser) (forColumnName : String) (forColumnID : Int) (tx : Store)
    (parentColumnName : String) (parentID : Int) (hash : String)
    (codeName constraint : String)
    (hins : Stmt.insertConfig parentColumnName parentID hash ∈
      (findOrCreate E F rc user forColumnName forColumnID tx).issued)
    (hfail : F.insertConfig = some (.pq codeName constraint))
    (hcode : codeName = "unique_violation" ∨ codeName = "foreign_key_violation") :
    (findOrCreate E F rc user forColumnName forColumnID tx).result =
        .error .ErrSafeRetryFindOrCreate ∧
    (∀ st ∈ (findOrCreate E F rc user forColumnName forColumnID tx).issued,
        st.onUses = false) ∧
    (findOrCreate E F rc user forColumnName forColumnID tx).store =
        afterParent E rc user tx := by
  have hce : configInsertError (.driver (.pq codeName constraint)) =
      .ErrSafeRetryFindOrCreate := by
    rcases hcode with h | h <;> simp [configInsertError, h]
  rcases findOrCreate_cases E F rc user forColumnName forColumnID tx with
    ⟨err, -, h⟩ | ⟨l1, err, -, -, h⟩ | ⟨l1, l, err, tx2, iss, -, -, h3, h⟩ |
    ⟨l1, l, id, tx2, iss, -, -, h3, h⟩
  · rw [h] at hins; simp at hins
  · rw [h] at hins; simp at hins
  · rw [h] at hins ⊢
    simp only at hins ⊢
    rcases findOrInsertConfig_cases E F rc (afterParent E rc user tx) l.parentColumnName
      l.parentID with ⟨e, -, hh⟩ | ⟨-, -, hh⟩ | ⟨c, r, -, -, -, hh⟩ | ⟨c, e, -, -, -, hi, hh⟩ |
      ⟨c, -, -, -, hi, hh⟩
    · rw [hh] at h3; simp at h3; obtain ⟨-, -, h3⟩ := h3; subst h3; simp at hins
    · rw [hh] at h3; simp at h3; obtain ⟨-, -, h3⟩ := h3; subst h3; simp at hins
    · rw [hh] at h3; simp at h3
    · rw [hh] at h3
      rw [hfail] at hi
      cases hi
      simp only [Prod.mk.injEq, Except.error.injEq] at h3
      obtain ⟨h3a, h3b, h3c⟩ := h3
      subst h3a h3b h3c
      refine ⟨by rw [hce], ?_, rfl⟩
      simp [Stmt.onUses]
    · rw [hfail] at hi; cases hi
  · exfalso
    rcases findOrInsertConfig_cases E F rc (afterParent E rc user tx) l.parentColumnName
      l.parentID with ⟨e, -, hh⟩ | ⟨-, -, hh⟩ | ⟨c, r, -, -, -, hh⟩ | ⟨c, e, -, -, -, hi, hh⟩ |
      ⟨c, -, -, -, hi, hh⟩
    · rw [hh] at h3; simp at h3
    · rw [hh] at h3; simp at h3
    · rw [hh] at h3
      simp only [Prod.mk.injEq, Except.ok.injEq] at h3
      obtain ⟨-, -, h3c⟩ := h3
      subst h3c
      rw [h] at hins
      rcases useResourceConfig_cases F user forColumnName forColumnID id l.urc tx2
        [Stmt.selectConfig l.parentColumnName l.parentID (E.mapHash rc.Source)] with
        ⟨e, -, hu⟩ | ⟨-, -, hu⟩ | ⟨c, r, -, -, -, hu⟩ | ⟨c, e, -, -, -, -, hu⟩ |
        ⟨c, -, -, -, -, hu⟩ |
        ⟨r, -, -, -, hu⟩ | ⟨e, -, -, -, -, hu⟩ | ⟨-, -, -, -, hu⟩ <;> rw [hu] at hins <;> simp at hins
    · rw [hh] at h3; simp at h3
    · rw [hfail] at hi; cases hi

/-- C3 at a unique violation on the first insert of a config row. -/
theorem findOrCreate_config_insert_conflict_witness :
    Stmt.insertConfig "base_resource_type_id" 3 (exampleHash exampleBaseConfig.Source) ∈
      (findOrCreate exampleEnv { insertConfig := some (.pq "unique_violation" "") }
        exampleBaseConfig ⟨"build 7"⟩ "build_id" 7 ⟨[], []⟩).issued ∧
    (findOrCreate exampleEnv { insertConfig := some (.pq "unique_violation" "") }
        exampleBaseConfig ⟨"build 7"⟩ "build_id" 7 ⟨[], []⟩).result =
      .error .ErrSafeRetryFindOrCreate ∧
    (∀ st ∈ (findOrCreate exampleEnv { insertConfig := some (.pq "unique_violation" "") }
        exampleBaseConfig ⟨"build 7"⟩ "build_id" 7 ⟨[], []⟩).issued, st.onUses = false) ∧
    (findOrCreate exampleEnv { insertConfig := some (.pq "unique_violation" "") }
        exampleBaseConfig ⟨"build 7"⟩ "build_id" 7 ⟨[], []⟩).store =
      afterParent exampleEnv exampleBaseConfig ⟨"build 7"⟩ ⟨[], []⟩ :=
  ⟨by decide,
   findOrCreate_config_insert_conflict exampleEnv
     { insertConfig := some (.pq "unique_violation" "") } exampleBaseConfig ⟨"build 7"⟩
     "build_id" 7 ⟨[], []⟩ "base_resource_type_id" 3 (exampleHash exampleBaseConfig.Source)
     "unique_violation" "" (by decide) rfl (Or.inl rfl)⟩

/-- C4. When the insert of the usage edge is issued and the storage layer fails it with a
`foreign_key_violation`, `findOrCreate` returns `ErrSafeRetryFindOrCreate` if and only if
the violated constraint is `resource_config_uses_resource_config_id_fkey` (the one that
references the config row); for any other violated constraint (the ones referencing the
user's own row) it returns `UserDisappearedError` carrying the user passed to the call. -/
theorem findOrCreate_use_insert_foreign_key (E : Env) (F : Faults) (rc : ResourceConfig)
    (user : ResourceUser) (forColumnName : String) (forColumnID : Int) (tx : Store)
    (id : Int) (col : String) (uid : Int) (constraint : String)
    (hins : Stmt.insertUse id col uid ∈
      (findOrCreate E F rc user forColumnName forColumnID tx).issued)
    (hfail : F.insertUse = some (.pq "foreign_key_violation" constraint)) :
    ((findOrCreate E F rc user forColumnName forColumnID tx).result =
        .error .ErrSafeRetryFindOrCreate ↔
      constraint = "resource_config_uses_resource_config_id_fkey") ∧
    (constraint ≠ "resource_config_uses_resource_config_id_fkey" →
      (findOrCreate E F rc user forColumnName forColumnID tx).result =
        .error (.UserDisappearedError user)) := by
  have key : (findOrCreate E F rc user forColumnName forColumnID tx).result =
      .error (useInsertError user (.driver (.pq "foreign_key_violation" constraint))) := by
    rcases findOrCreate_cases E F rc user forColumnName forColumnID tx with
      ⟨err, -, h⟩ | ⟨l1, err, -, -, h⟩ | ⟨l1, l, err, tx2, iss, -, -, h3, h⟩ |
      ⟨l1, l, cfg, tx2, iss, -, -, h3, h⟩
    · rw [h] at hins; simp at hins
    · rw [h] at hins; simp at hins
    · rw [h] at hins
      have := (findOrInsertConfig_error h3).2 _ hins
      simp [Stmt.onUses] at this
    · rw [h] at hins ⊢
      have hiss : Stmt.insertUse id col uid ∉ iss := by
        intro hmem
        rcases findOrInsertConfig_cases E F rc (afterParent E rc user tx) l.parentColumnName
          l.parentID with ⟨e, -, hh⟩ | ⟨-, -, hh⟩ | ⟨c, r, -, -, -, hh⟩ |
          ⟨c, e, -, -, -, hi, hh⟩ | ⟨c, -, -, -, hi, hh⟩ <;>
        · rw [hh] at h3
          simp only [Prod.mk.injEq] at h3
          obtain ⟨-, -, h3c⟩ := h3
          subst h3c
          simp at hmem
      rcases useResourceConfig_cases F user forColumnName forColumnID cfg l.urc tx2 iss with
        ⟨e, -, hu⟩ | ⟨-, -, hu⟩ | ⟨c, r, -, -, -, hu⟩ | ⟨c, e, -, -, -, hi, hu⟩ |
        ⟨c, -, -, -, hi, hu⟩ | ⟨r, -, -, -, hu⟩ | ⟨e, -, -, -, hi, hu⟩ | ⟨-, -, -, hi, hu⟩
      · rw [hu] at hins; simp [hiss] at hins
      · rw [hu] at hins; simp [hiss] at hins
      · rw [hu] at hins; simp [hiss] at hins
      · rw [hu]
        rw [hfail] at hi
        cases hi
        rfl
      · rw [hfail] at hi; cases hi
      · rw [hu] at hins; simp [hiss] at hins
      · rw [hu]
        rw [hfail] at hi
        cases hi
        rfl
      · rw [hfail] at hi; cases hi
  rw [key]
  by_cases hk : constraint = "resource_config_uses_resource_config_id_fkey"
  · simp [useInsertError, hk]
  · simp [useInsertError, hk]

/-- C4 at a violation of the foreign key from the usage edge to the build. -/
theorem findOrCreate_use_insert_foreign_key_witness :
    ((findOrCreate exampleEnv
        { insertUse := some (.pq "foreign_key_violation" "resource_config_uses_build_id_fkey") }
        exampleBaseConfig ⟨"build 7"⟩ "build_id" 7 ⟨[], []⟩).result =
          .error .ErrSafeRetryFindOrCreate ↔
      "resource_config_uses_build_id_fkey" = "resource_config_uses_resource_config_id_fkey") ∧
    ("resource_config_uses_build_id_fkey" ≠ "resource_config_uses_resource_config_id_fkey" →
      (findOrCreate exampleEnv
        { insertUse := some (.pq "foreign_key_violation" "resource_config_uses_build_id_fkey") }
        exampleBaseConfig ⟨"build 7"⟩ "build_id" 7 ⟨[], []⟩).result =
          .error (.UserDisappearedError ⟨"build 7"⟩)) :=
  findOrCreate_use_insert_foreign_key exampleEnv
    { insertUse := some (.pq "foreign_key_violation" "resource_config_uses_build_id_fkey") }
    exampleBaseConfig ⟨"build 7"⟩ "build_id" 7 ⟨[], []⟩ 1 "build_id" 7
    "resource_config_uses_build_id_fkey" (by decide) rfl

/-- C5. For a descriptor with a base resource type as parent, if `BaseResourceType.Find`
reports not-found without error (and the cache parent, should the descriptor carry one as
well, has resolved), `findOrCreate` returns `ErrBaseResourceTypeNotFound` with a nil
result and issues no statement at all: no lookup and no insert on `resource_configs` or
`resource_config_uses`; the tables are as they were when its own statements would have
begun, which for a descriptor without a cache parent is as before the call. -/
theorem findOrCreate_base_resource_type_not_found (E : Env) (F : Faults)
    (rc : ResourceConfig) (user : ResourceUser) (forColumnName : String) (forColumnID : Int)
    (tx : Store) (base : BaseResourceType)
    (hbase : rc.CreatedByBaseResourceType = some base)
    (hfind : E.Find base = .ok none)
    (hcache : ∀ cache, rc.CreatedByResourceCache = some cache →
      ∃ r, (E.UseResourceCache user cache tx).1 = .ok r) :
    (findOrCreate E F rc user forColumnName forColumnID tx).result =
        .error .ErrBaseResourceTypeNotFound ∧
    (findOrCreate E F rc user forColumnName forColumnID tx).issued = [] ∧
    (findOrCreate E F rc user forColumnName forColumnID tx).store =
        afterParent E rc user tx ∧
    (rc.CreatedByResourceCache = none →
      (findOrCreate E F rc user forColumnName forColumnID tx).store = tx) := by
  have hb : ∀ l1, resolveBaseResourceType E rc l1 = .error .ErrBaseResourceTypeNotFound := by
    intro l1
    simp [resolveBaseResourceType, hbase, hfind]
  have hmain : findOrCreate E F rc user forColumnName forColumnID tx =
      ⟨.error .ErrBaseResourceTypeNotFound, afterParent E rc user tx, []⟩ := by
    rcases findOrCreate_cases E F rc user forColumnName forColumnID tx with
      ⟨err, h1, h⟩ | ⟨l1, err, -, h2, h⟩ | ⟨l1, l, err, tx2, iss, -, h2, -, -⟩ |
      ⟨l1, l, cfg, tx2, iss, -, h2, -, -⟩
    · exfalso
      unfold resolveResourceCache at h1
      cases hc : rc.CreatedByResourceCache with
      | none => simp [hc] at h1
      | some cache =>
        obtain ⟨r, hr⟩ := hcache cache hc
        simp only [hc] at h1
        rcases hu : E.UseResourceCache user cache tx with ⟨r2, t⟩
        rw [hu] at h1 hr
        simp only at hr
        subst hr
        simp at h1
    · rw [hb l1] at h2
      cases h2
      exact h
    · rw [hb l1] at h2; cases h2
    · rw [hb l1] at h2; cases h2
  rw [hmain]
  refine ⟨rfl, rfl, rfl, ?_⟩
  intro hn
  exact afterParent_none hn

/-- C5 at a base resource type the worker does not provide. -/
theorem findOrCreate_base_resource_type_not_found_witness :
    (findOrCreate exampleEnv {} ⟨none, some ⟨"svn"⟩, []⟩ ⟨"build 7"⟩ "build_id" 7
        ⟨[⟨1, none, some 3, ""⟩], []⟩).result = .error .ErrBaseResourceTypeNotFound ∧
    (findOrCreate exampleEnv {} ⟨none, some ⟨"svn"⟩, []⟩ ⟨"build 7"⟩ "build_id" 7
        ⟨[⟨1, none, some 3, ""⟩], []⟩).issued = [] ∧
    (findOrCreate exampleEnv {} ⟨none, some ⟨"svn"⟩, []⟩ ⟨"build 7"⟩ "build_id" 7
        ⟨[⟨1, none, some 3, ""⟩], []⟩).store =
      afterParent exampleEnv ⟨none, some ⟨"svn"⟩, []⟩ ⟨"build 7"⟩
        ⟨[⟨1, none, some 3, ""⟩], []⟩ ∧
    ((⟨none, some ⟨"svn"⟩, []⟩ : ResourceConfig).CreatedByResourceCache = none →
      (findOrCreate exampleEnv {} ⟨none, some ⟨"svn"⟩, []⟩ ⟨"build 7"⟩ "build_id" 7
        ⟨[⟨1, none, some 3, ""⟩], []⟩).store = ⟨[⟨1, none, some 3, ""⟩], []⟩) :=
  findOrCreate_base_resource_type_not_found exampleEnv {} ⟨none, some ⟨"svn"⟩, []⟩
    ⟨"build 7"⟩ "build_id" 7 ⟨[⟨1, none, some 3, ""⟩], []⟩ ⟨"svn"⟩ rfl (by decide)
    (fun _ h => by cases h)

/-- C6. Usage-edge uniqueness is an invariant of `findOrCreate`: if `resource_config_uses`
holds at most one edge per (config id, user column, user id) before a call, and still
does once the cache parent (when the descriptor has one) is resolved, then it does after
the call, whatever its outcome; for the insert of an edge is issued only for the user of
the call and only when the select for that very (config id, user column, user id) found
no row in the table.  (Under the name `resource_config_id`, which is no user column, the
select that found no row is the one for `resource_config_id = forColumnID`, and the
insert, naming that column twice, adds no edge at all.) -/
theorem findOrCreate_unique_uses (E : Env) (F : Faults) (rc : ResourceConfig)
    (user : ResourceUser) (forColumnName : String) (forColumnID : Int) (tx : Store)
    (hpre : UniqueUses tx)
    (hcollab : ∀ cache, rc.CreatedByResourceCache = some cache →
      UniqueUses (E.UseResourceCache user cache tx).2) :
    UniqueUses (findOrCreate E F rc user forColumnName forColumnID tx).store ∧
    ∀ id name uid,
      Stmt.insertUse id name uid ∈
        (findOrCreate E F rc user forColumnName forColumnID tx).issued →
      name = forColumnName ∧ uid = forColumnID ∧
      ((∃ c, userColumn? name = some c ∧
          (afterParent E rc user tx).resource_config_uses.countP (useMatches id c uid) = 0) ∨
       (name = "resource_config_id" ∧
          (afterParent E rc user tx).resource_config_uses.countP
            (useMatchesCollapsed uid) = 0 ∧
          (findOrCreate E F rc user forColumnName forColumnID tx).store.resource_config_uses =
            (afterParent E rc user tx).resource_config_uses)) := by
  have hap : UniqueUses (afterParent E rc user tx) := by
    cases hc : rc.CreatedByResourceCache with
    | none => rw [afterParent_none hc]; exact hpre
    | some cache => rw [afterParent_some hc]; exact hcollab cache hc
  refine ⟨findOrCreate_unique_uses_step E F rc user forColumnName forColumnID tx hap, ?_⟩
  intro id name uid hins
  obtain ⟨hn, hu, ⟨c, hc, hf⟩ | ⟨hname, hf, hst⟩⟩ := insertUse_issued hins
  · exact ⟨hn, hu, Or.inl
      ⟨c, hc, List.countP_eq_zero.mpr (by simpa using List.find?_eq_none.mp hf)⟩⟩
  · exact ⟨hn, hu, Or.inr
      ⟨hname, List.countP_eq_zero.mpr (by simpa using List.find?_eq_none.mp hf), hst⟩⟩

/-- C6 at a second call for the same build: the edge is found, none is added. -/
theorem findOrCreate_unique_uses_witness :
    UniqueUses ⟨[⟨1, some 9, none, "repository=busybox;"⟩], [⟨1, some 7, none, none⟩]⟩ ∧
    UniqueUses (findOrCreate exampleEnv {} exampleCacheConfig ⟨"build 7"⟩ "build_id" 7
      ⟨[⟨1, some 9, none, "repository=busybox;"⟩], [⟨1, some 7, none, none⟩]⟩).store ∧
    (findOrCreate exampleEnv {} exampleCacheConfig ⟨"build 7"⟩ "build_id" 7
      ⟨[⟨1, some 9, none, "repository=busybox;"⟩], [⟨1, some 7, none, none⟩]⟩).store =
      ⟨[⟨1, some 9, none, "repository=busybox;"⟩], [⟨1, some 7, none, none⟩]⟩ :=
  ⟨fun _ _ _ => List.countP_le_length _,
   (findOrCreate_unique_uses exampleEnv {} exampleCacheConfig ⟨"build 7"⟩ "build_id" 7
     ⟨[⟨1, some 9, none, "repository=busybox;"⟩], [⟨1, some 7, none, none⟩]⟩
     (fun _ _ _ => List.countP_le_length _)
     (fun cache _ => by
       rw [exampleEnv_UseResourceCache_snd]
       exact fun _ _ _ => List.countP_le_length _)).1,
   by decide⟩

/-- C7, as stated, fails when `forColumnName` is `resource_config_id` itself: the two
keys of the `sq.Eq` literal are then one, the select asks for `resource_config_id =
forColumnID` only, and it finds the edge of another config (id 5) held by a build.  The
call succeeds with the new config id 1, inserts no edge, and no row of
`resource_config_uses` refers to the config 1. -/
theorem findOrCreate_no_edge_for_returned_id :
    (findOrCreate exampleEnv {} exampleBaseConfig ⟨"build 7"⟩ "resource_config_id" 5
        ⟨[], [⟨5, some 7, none, none⟩]⟩).result = .ok ⟨1, none, some ⟨3⟩⟩ ∧
    (findOrCreate exampleEnv {} exampleBaseConfig ⟨"build 7"⟩ "resource_config_id" 5
        ⟨[], [⟨5, some 7, none, none⟩]⟩).store.resource_config_uses =
      [⟨5, some 7, none, none⟩] ∧
    (∀ row ∈ (findOrCreate exampleEnv {} exampleBaseConfig ⟨"build 7"⟩ "resource_config_id" 5
        ⟨[], [⟨5, some 7, none, none⟩]⟩).store.resource_config_uses,
      row.resource_config_id ≠ 1) ∧
    (∀ st ∈ (findOrCreate exampleEnv {} exampleBaseConfig ⟨"build 7"⟩ "resource_config_id" 5
        ⟨[], [⟨5, some 7, none, none⟩]⟩).issued,
      st ≠ Stmt.insertUse 1 "resource_config_id" 5) := by
  decide

/-- C7, amended. On every successful return of `findOrCreate` called with a
`forColumnName` other than `resource_config_id` itself, `forColumnName` denotes a user
column (`build_id`, `resource_id` or `resource_type_id`) and `resource_config_uses` holds
an edge from the returned config ID to the user (that column holding `forColumnID`): it
either was in the table already when the statements of the call began, or the insert for
it was issued and it is the row appended by that insert. -/
theorem findOrCreate_usage_edge_exists (E : Env) (F : Faults) (rc : ResourceConfig)
    (user : ResourceUser) (forColumnName : String) (forColumnID : Int) (tx : Store)
    (urc : UsedResourceConfig)
    (hcol : forColumnName ≠ "resource_config_id")
    (hok : (findOrCreate E F rc user forColumnName forColumnID tx).result = .ok urc) :
    ∃ c, userColumn? forColumnName = some c ∧
      ∃ row ∈ (findOrCreate E F rc user forColumnName forColumnID tx).store.resource_config_uses,
        row.resource_config_id = urc.ID ∧ row.user c = some forColumnID ∧
        ((row ∈ (afterParent E rc user tx).resource_config_uses ∧
            (findOrCreate E F rc user forColumnName forColumnID tx).store.resource_config_uses =
              (afterParent E rc user tx).resource_config_uses) ∨
         (Stmt.insertUse urc.ID forColumnName forColumnID ∈
              (findOrCreate E F rc user forColumnName forColumnID tx).issued ∧
            (findOrCreate E F rc user forColumnName forColumnID tx).store.resource_config_uses =
              (afterParent E rc user tx).resource_config_uses ++ [row])) := by
  rcases findOrCreate_cases E F rc user forColumnName forColumnID tx with
    ⟨err, -, h⟩ | ⟨l1, err, -, -, h⟩ | ⟨l1, l, err, tx2, iss, -, -, -, h⟩ |
    ⟨l1, l, id, tx2, iss, h1, h2, h3, h⟩
  · rw [h] at hok; simp at hok
  · rw [h] at hok; simp at hok
  · rw [h] at hok; simp at hok
  · have hu2 : tx2.resource_config_uses = (afterParent E rc user tx).resource_config_uses := by
      have := findOrInsertConfig_uses E F rc (afterParent E rc user tx) l.parentColumnName
        l.parentID
      rw [h3] at this
      exact this
    rw [h] at hok ⊢
    obtain ⟨hurc, c, hc, -, hU⟩ := useResourceConfig_ok hcol hok
    have hid : urc.ID = id := by rw [hurc]
    refine ⟨c, hc, ?_⟩
    rcases hU with ⟨r, hf, he⟩ | ⟨hf, -, he⟩
    · have hm := List.find?_some hf
      rw [useMatches_iff] at hm
      have hmem := List.mem_of_find?_eq_some hf
      rw [he]
      refine ⟨r, hmem, by rw [hid]; exact hm.1, hm.2, Or.inl ⟨by rw [← hu2]; exact hmem, hu2⟩⟩
    · have hm := useMatches_newUseRow id c forColumnID
      rw [useMatches_iff] at hm
      rw [he]
      refine ⟨newUseRow id c forColumnID, by simp, by rw [hid]; exact hm.1, hm.2, Or.inr ⟨?_, ?_⟩⟩
      · rw [hid]; simp
      · simp only; rw [hu2]

/-- C7 amended, at a first call for a build, on empty tables. -/
theorem findOrCreate_usage_edge_exists_witness :
    (findOrCreate exampleEnv {} exampleBaseConfig ⟨"build 7"⟩ "build_id" 7 ⟨[], []⟩).result =
      .ok ⟨1, none, some ⟨3⟩⟩ ∧
    ∃ c, userColumn? "build_id" = some c ∧
      ∃ row ∈ (findOrCreate exampleEnv {} exampleBaseConfig ⟨"build 7"⟩ "build_id" 7
          ⟨[], []⟩).store.resource_config_uses,
        row.resource_config_id = (⟨1, none, some ⟨3⟩⟩ : UsedResourceConfig).ID ∧
        row.user c = some 7 ∧
        ((row ∈ (afterParent exampleEnv exampleBaseConfig ⟨"build 7"⟩
              ⟨[], []⟩).resource_config_uses ∧
            (findOrCreate exampleEnv {} exampleBaseConfig ⟨"build 7"⟩ "build_id" 7
              ⟨[], []⟩).store.resource_config_uses =
              (afterParent exampleEnv exampleBaseConfig ⟨"build 7"⟩
                ⟨[], []⟩).resource_config_uses) ∨
         (Stmt.insertUse (⟨1, none, some ⟨3⟩⟩ : UsedResourceConfig).ID "build_id" 7 ∈
              (findOrCreate exampleEnv {} exampleBaseConfig ⟨"build 7"⟩ "build_id" 7
                ⟨[], []⟩).issued ∧
            (findOrCreate exampleEnv {} exampleBaseConfig ⟨"build 7"⟩ "build_id" 7
              ⟨[], []⟩).store.resource_config_uses =
              (afterParent exampleEnv exampleBaseConfig ⟨"build 7"⟩
                ⟨[], []⟩).resource_config_uses ++ [row])) :=
  ⟨by decide,
   findOrCreate_usage_edge_exists exampleEnv {} exampleBaseConfig ⟨"build 7"⟩ "build_id" 7
     ⟨[], []⟩ ⟨1, none, some ⟨3⟩⟩ (by decide) (by decide)⟩

/-- C8. On every successful return of `findOrCreate` the returned value carries the
resolved parents matching the descriptor (the used resource cache `UseResourceCache`
returned when the descriptor has a cache parent, the base resource type `Find` found when
it has a base parent, and nil where the descriptor has none); and with the parent column
and parent id it was keyed by, `resource_configs` holds a row with the returned ID, that
parent id in that column and `mapHash(Source)` as source hash: it is the row the lookup
found (the first match, the table being left as it was), or else the lookup found none,
the ID is the one the insert returned and the row is the one appended by the insert. -/
theorem findOrCreate_returns_config_row (E : Env) (F : Faults) (rc : ResourceConfig)
    (user : ResourceUser) (forColumnName : String) (forColumnID : Int) (tx : Store)
    (urc : UsedResourceConfig)
    (hok : (findOrCreate E F rc user forColumnName forColumnID tx).result = .ok urc) :
    ((rc.CreatedByResourceCache = none → urc.CreatedByResourceCache = none) ∧
     (∀ cache, rc.CreatedByResourceCache = some cache →
       ∃ r, (E.UseResourceCache user cache tx).1 = .ok r ∧
         urc.CreatedByResourceCache = some r) ∧
     (rc.CreatedByBaseResourceType = none → urc.CreatedByBaseResourceType = none) ∧
     (∀ base, rc.CreatedByBaseResourceType = some base →
       ∃ ubrt, E.Find base = .ok (some ubrt) ∧
         urc.CreatedByBaseResourceType = some ubrt)) ∧
    ∃ c parentID, urc.parentKey = some (c, parentID) ∧
      ∃ row ∈ (findOrCreate E F rc user forColumnName forColumnID tx).store.resource_configs,
        row.id = urc.ID ∧ row.parent c = some parentID ∧
        row.source_hash = E.mapHash rc.Source ∧
        (((afterParent E rc user tx).resource_configs.find?
              (configMatches c parentID (E.mapHash rc.Source)) = some row ∧
            (findOrCreate E F rc user forColumnName forColumnID tx).store.resource_configs =
              (afterParent E rc user tx).resource_configs) ∨
         ((afterParent E rc user tx).resource_configs.find?
              (configMatches c parentID (E.mapHash rc.Source)) = none ∧
            urc.ID = F.newConfigID ∧
            (findOrCreate E F rc user forColumnName forColumnID tx).store.resource_configs =
              (afterParent E rc user tx).resource_configs ++ [row])) := by
  rcases findOrCreate_cases E F rc user forColumnName forColumnID tx with
    ⟨err, -, h⟩ | ⟨l1, err, -, -, h⟩ | ⟨l1, l, err, tx2, iss, -, -, -, h⟩ |
    ⟨l1, l, id, tx2, iss, h1, h2, h3, h⟩
  · rw [h] at hok; simp at hok
  · rw [h] at hok; simp at hok
  · rw [h] at hok; simp at hok
  · rw [h] at hok ⊢
    have hurc := useResourceConfig_ok_ID hok
    obtain ⟨c, hc, -, hC⟩ := findOrInsertConfig_ok h3
    obtain ⟨hkey, hp1, hp2, hp3, hp4⟩ := resolved_locals h1 h2 hc id
    rw [useResourceConfig_configs]
    subst hurc
    refine ⟨⟨hp1, hp2, hp3, hp4⟩, c, l.parentID, hkey, ?_⟩
    rcases hC with ⟨r, hf, hid, htx, -⟩ | ⟨hf, -, hid, htx, -⟩
    · subst htx
      have hm := List.find?_some hf
      rw [configMatches_iff] at hm
      exact ⟨r, List.mem_of_find?_eq_some hf, hid, hm.1, hm.2, Or.inl ⟨hf, rfl⟩⟩
    · subst htx
      have hm := configMatches_newConfigRow id c l.parentID (E.mapHash rc.Source)
      rw [configMatches_iff] at hm
      exact ⟨newConfigRow id c l.parentID (E.mapHash rc.Source), by simp,
        newConfigRow_id _ _ _ _, hm.1, hm.2, Or.inr ⟨hf, hid, rfl⟩⟩

/-- C8 at a call that finds the config row of the base type `git`. -/
theorem findOrCreate_returns_config_row_witness :
    (findOrCreate exampleEnv {} exampleBaseConfig ⟨"resource 2"⟩ "resource_id" 2
      ⟨[⟨4, none, some 3, "uri=https://example.com/repo.git;"⟩], []⟩).result =
        .ok ⟨4, none, some ⟨3⟩⟩ ∧
    ∃ c parentID, (⟨4, none, some ⟨3⟩⟩ : UsedResourceConfig).parentKey = some (c, parentID) ∧
      ∃ row ∈ (findOrCreate exampleEnv {} exampleBaseConfig ⟨"resource 2"⟩ "resource_id" 2
          ⟨[⟨4, none, some 3, "uri=https://example.com/repo.git;"⟩], []⟩).store.resource_configs,
        row.id = (⟨4, none, some ⟨3⟩⟩ : UsedResourceConfig).ID ∧
        row.parent c = some parentID ∧
        row.source_hash = exampleEnv.mapHash exampleBaseConfig.Source ∧
        (((afterParent exampleEnv exampleBaseConfig ⟨"resource 2"⟩
              ⟨[⟨4, none, some 3, "uri=https://example.com/repo.git;"⟩], []⟩).resource_configs.find?
              (configMatches c parentID (exampleEnv.mapHash exampleBaseConfig.Source)) =
                some row ∧
            (findOrCreate exampleEnv {} exampleBaseConfig ⟨"resource 2"⟩ "resource_id" 2
              ⟨[⟨4, none, some 3, "uri=https://example.com/repo.git;"⟩],
                []⟩).store.resource_configs =
              (afterParent exampleEnv exampleBaseConfig ⟨"resource 2"⟩
                ⟨[⟨4, none, some 3, "uri=https://example.com/repo.git;"⟩],
                  []⟩).resource_configs) ∨
         ((afterParent exampleEnv exampleBaseConfig ⟨"resource 2"⟩
              ⟨[⟨4, none, some 3, "uri=https://example.com/repo.git;"⟩], []⟩).resource_configs.find?
              (configMatches c parentID (exampleEnv.mapHash exampleBaseConfig.Source)) = none ∧
            (⟨4, none, some ⟨3⟩⟩ : UsedResourceConfig).ID = ({} : Faults).newConfigID ∧
            (findOrCreate exampleEnv {} exampleBaseConfig ⟨"resource 2"⟩ "resource_id" 2
              ⟨[⟨4, none, some 3, "uri=https://example.com/repo.git;"⟩],
                []⟩).store.resource_configs =
              (afterParent exampleEnv exampleBaseConfig ⟨"resource 2"⟩
                ⟨[⟨4, none, some 3, "uri=https://example.com/repo.git;"⟩],
                  []⟩).resource_configs ++ [row])) :=
  ⟨by decide,
   (findOrCreate_returns_config_row exampleEnv {} exampleBaseConfig ⟨"resource 2"⟩
     "resource_id" 2 ⟨[⟨4, none, some 3, "uri=https://example.com/repo.git;"⟩], []⟩
     ⟨4, none, some ⟨3⟩⟩ (by decide)).2⟩

/-- C9. A call never deletes: whatever the input and the outcome (success or any error),
the statements of `findOrCreate` only append, so both tables as they were when those
statements began are prefixes of the tables afterwards; and provided the resolution of
the cache parent (when the descriptor has one) keeps the rows it finds, every row of
`resource_configs` and of `resource_config_uses` present before the call is still
present, unchanged and in the same order, after it. -/
theorem findOrCreate_never_deletes (E : Env) (F : Faults) (rc : ResourceConfig)
    (user : ResourceUser) (forColumnName : String) (forColumnID : Int) (tx : Store)
    (hkeep : ∀ cache, rc.CreatedByResourceCache = some cache →
      tx.resource_configs.Sublist (E.UseResourceCache user cache tx).2.resource_configs ∧
      tx.resource_config_uses.Sublist
        (E.UseResourceCache user cache tx).2.resource_config_uses) :
    ((afterParent E rc user tx).resource_configs <+:
        (findOrCreate E F rc user forColumnName forColumnID tx).store.resource_configs ∧
     (afterParent E rc user tx).resource_config_uses <+:
        (findOrCreate E F rc user forColumnName forColumnID tx).store.resource_config_uses) ∧
    tx.resource_configs.Sublist
        (findOrCreate E F rc user forColumnName forColumnID tx).store.resource_configs ∧
    tx.resource_config_uses.Sublist
        (findOrCreate E F rc user forColumnName forColumnID tx).store.resource_config_uses := by
  have hc : (afterParent E rc user tx).resource_configs <+:
      (findOrCreate E F rc user forColumnName forColumnID tx).store.resource_configs := by
    rcases findOrCreate_configs_frame E F rc user forColumnName forColumnID tx with
      h | ⟨name, c, p, -, -, -, -, h⟩ <;> rw [h]
    exact List.prefix_append _ _
  have hu : (afterParent E rc user tx).resource_config_uses <+:
      (findOrCreate E F rc user forColumnName forColumnID tx).store.resource_config_uses := by
    rcases findOrCreate_uses_frame E F rc user forColumnName forColumnID tx with
      h | ⟨urc, c, -, -, -, -, h⟩ <;> rw [h]
    exact List.prefix_append _ _
  have hap : tx.resource_configs.Sublist (afterParent E rc user tx).resource_configs ∧
      tx.resource_config_uses.Sublist (afterParent E rc user tx).resource_config_uses := by
    cases hcache : rc.CreatedByResourceCache with
    | none => rw [afterParent_none hcache]; exact ⟨List.Sublist.refl _, List.Sublist.refl _⟩
    | some cache => rw [afterParent_some hcache]; exact hkeep cache hcache
  exact ⟨⟨hc, hu⟩, hap.1.trans hc.sublist, hap.2.trans hu.sublist⟩

/-- C9 at a call that fails at the usage-edge select, on tables that hold rows. -/
theorem findOrCreate_never_deletes_witness :
    [(⟨4, some 9, none, "x"⟩ : ResourceConfigRow)].Sublist
      (findOrCreate exampleEnv { selectUse := some (.failure "connection reset") }
        exampleCacheConfig ⟨"build 7"⟩ "build_id" 7
        ⟨[⟨4, some 9, none, "x"⟩], [⟨4, some 2, none, none⟩]⟩).store.resource_configs ∧
    [(⟨4, some 2, none, none⟩ : ResourceConfigUseRow)].Sublist
      (findOrCreate exampleEnv { selectUse := some (.failure "connection reset") }
        exampleCacheConfig ⟨"build 7"⟩ "build_id" 7
        ⟨[⟨4, some 9, none, "x"⟩], [⟨4, some 2, none, none⟩]⟩).store.resource_config_uses :=
  (findOrCreate_never_deletes exampleEnv { selectUse := some (.failure "connection reset") }
    exampleCacheConfig ⟨"build 7"⟩ "build_id" 7
    ⟨[⟨4, some 9, none, "x"⟩], [⟨4, some 2, none, none⟩]⟩
    (fun _ h => by cases h; exact ⟨List.Sublist.refl _, List.Sublist.refl _⟩)).2

/-- C11. Error pass-through in `findOrCreate`: an error from resolving the cache parent
through `UseResourceCache`, an error from `BaseResourceType.Find`, a driver error of the
config lookup, a driver error of the usage-edge select (which is never the no-rows
answer), a driver error of the config insert other than a `unique_violation` or
`foreign_key_violation`, and a driver error of the usage-edge insert other than a
`foreign_key_violation` are each returned to the caller unchanged, with a nil result. -/
theorem findOrCreate_error_passthrough (E : Env) (F : Faults) (rc : ResourceConfig)
    (user : ResourceUser) (forColumnName : String) (forColumnID : Int) (tx : Store) :
    (∀ cache err, rc.CreatedByResourceCache = some cache →
      (E.UseResourceCache user cache tx).1 = .error err →
      (findOrCreate E F rc user forColumnName forColumnID tx).result = .error err) ∧
    (∀ base err, rc.CreatedByBaseResourceType = some base → E.Find base = .error err →
      (∀ cache, rc.CreatedByResourceCache = some cache →
        ∃ r, (E.UseResourceCache user cache tx).1 = .ok r) →
      (findOrCreate E F rc user forColumnName forColumnID tx).result = .error err) ∧
    (∀ name p h e,
      Stmt.selectConfig name p h ∈
        (findOrCreate E F rc user forColumnName forColumnID tx).issued →
      F.selectConfig = some e →
      (findOrCreate E F rc user forColumnName forColumnID tx).result =
        .error (.driver e)) ∧
    (∀ name p h e,
      Stmt.insertConfig name p h ∈
        (findOrCreate E F rc user forColumnName forColumnID tx).issued →
      F.insertConfig = some e →
      (∀ codeName constraint, e = .pq codeName constraint →
        codeName ≠ "unique_violation" ∧ codeName ≠ "foreign_key_violation") →
      (findOrCreate E F rc user forColumnName forColumnID tx).result =
        .error (.driver e)) ∧
    (∀ id name uid e,
      Stmt.selectUse id name uid ∈
        (findOrCreate E F rc user forColumnName forColumnID tx).issued →
      F.selectUse = some e →
      (findOrCreate E F rc user forColumnName forColumnID tx).result =
        .error (.driver e)) ∧
    (∀ id name uid e,
      Stmt.insertUse id name uid ∈
        (findOrCreate E F rc user forColumnName forColumnID tx).issued →
      F.insertUse = some e →
      (∀ constraint, e ≠ .pq "foreign_key_violation" constraint) →
      (findOrCreate E F rc user forColumnName forColumnID tx).result =
        .error (.driver e)) := by
  rcases findOrCreate_cases E F rc user forColumnName forColumnID tx with
    ⟨err0, h1, h⟩ | ⟨l1, err0, h1, h2, h⟩ | ⟨l1, l, err0, tx2, iss, h1, h2, h3, h⟩ |
    ⟨l1, l, id0, tx2, iss, h1, h2, h3, h⟩
  · -- the cache parent failed
    rw [h]
    refine ⟨?_, ?_, ?_, ?_, ?_, ?_⟩
    · intro cache err hc hu
      simp only [resolveResourceCache, hc] at h1
      rcases hx : E.UseResourceCache user cache tx with ⟨r, t⟩
      rw [hx] at h1 hu
      simp only at hu
      subst hu
      simp only [Prod.mk.injEq, Except.error.injEq] at h1
      rw [h1.1]
    · intro base err hb hf hcache
      exfalso
      cases hc : rc.CreatedByResourceCache with
      | none => simp [resolveResourceCache, hc] at h1
      | some cache =>
        obtain ⟨r, hr⟩ := hcache cache hc
        simp only [resolveResourceCache, hc] at h1
        rcases hx : E.UseResourceCache user cache tx with ⟨r2, t⟩
        rw [hx] at h1 hr
        simp only at hr
        subst hr
        simp at h1
    all_goals
      intros
      simp_all
  · -- the base parent failed
    rw [h]
    refine ⟨?_, ?_, ?_, ?_, ?_, ?_⟩
    · intro cache err hc hu
      exfalso
      rcases resolveResourceCache_ok h1 with ⟨hn, -, -⟩ | ⟨cache2, r, hc2, hx, -⟩
      · rw [hn] at hc; cases hc
      · rw [hc] at hc2
        cases hc2
        rw [hx] at hu
        cases hu
    · intro base err hb hf _
      simp only [resolveBaseResourceType, hb, hf] at h2
      cases h2
      rfl
    all_goals
      intros
      simp_all
  · -- the config stage failed
    have hiss := findOrInsertConfig_issued h3
    rw [h]
    refine ⟨?_, ?_, ?_, ?_, ?_, ?_⟩
    · intro cache err hc hu
      exfalso
      rcases resolveResourceCache_ok h1 with ⟨hn, -, -⟩ | ⟨cache2, r, hc2, hx, -⟩
      · rw [hn] at hc; cases hc
      · rw [hc] at hc2
        cases hc2
        rw [hx] at hu
        cases hu
    · intro base err hb hf _
      exfalso
      simp only [resolveBaseResourceType, hb, hf] at h2
      cases h2
    · intro name p hh e _ hsel
      rcases findOrInsertConfig_cases E F rc (afterParent E rc user tx) l.parentColumnName
        l.parentID with ⟨e2, hs, hc⟩ | ⟨hs, -, hc⟩ | ⟨c, r, hs, -, -, hc⟩ |
        ⟨c, e2, hs, -, -, -, hc⟩ | ⟨c, hs, -, -, -, hc⟩ <;> rw [hsel] at hs <;> cases hs
      rw [hc] at h3
      simp only [Prod.mk.injEq, Except.error.injEq] at h3
      rw [h3.1]
    · intro name p hh e hmem hins hnot
      rcases findOrInsertConfig_cases E F rc (afterParent E rc user tx) l.parentColumnName
        l.parentID with ⟨e2, -, hc⟩ | ⟨-, -, hc⟩ | ⟨c, r, -, -, -, hc⟩ |
        ⟨c, e2, -, -, -, hi, hc⟩ | ⟨c, -, -, -, hi, hc⟩
      · rw [hc] at h3
        simp only [Prod.mk.injEq] at h3
        obtain ⟨-, -, h3c⟩ := h3
        subst h3c
        simp at hmem
      · rw [hc] at h3
        simp only [Prod.mk.injEq] at h3
        obtain ⟨-, -, h3c⟩ := h3
        subst h3c
        simp at hmem
      · rw [hc] at h3; simp at h3
      · rw [hins] at hi
        cases hi
        rw [hc] at h3
        simp only [Prod.mk.injEq, Except.error.injEq] at h3
        rw [← h3.1]
        cases e with
        | failure msg => rfl
        | pq codeName constraint =>
          obtain ⟨hu, hf⟩ := hnot codeName constraint rfl
          simp [configInsertError, hu, hf]
      · rw [hins] at hi; cases hi
    · intro id name uid e hmem
      have := hiss _ hmem
      simp at this
    · intro id name uid e hmem
      have := hiss _ hmem
      simp at this
  · -- the usage stage was reached
    have hiss := findOrInsertConfig_issued h3
    rw [h]
    refine ⟨?_, ?_, ?_, ?_, ?_, ?_⟩
    · intro cache err hc hu
      exfalso
      rcases resolveResourceCache_ok h1 with ⟨hn, -, -⟩ | ⟨cache2, r, hc2, hx, -⟩
      · rw [hn] at hc; cases hc
      · rw [hc] at hc2
        cases hc2
        rw [hx] at hu
        cases hu
    · intro base err hb hf _
      exfalso
      simp only [resolveBaseResourceType, hb, hf] at h2
      cases h2
    · intro name p hh e _ hsel
      exfalso
      obtain ⟨c, -, hs, -⟩ := findOrInsertConfig_ok h3
      rw [hsel] at hs
      cases hs
    · intro name p hh e hmem hins hnot
      exfalso
      have hmem2 : Stmt.insertConfig name p hh ∈ iss := by
        rcases useResourceConfig_cases F user forColumnName forColumnID id0 l.urc tx2 iss with
          ⟨e, -, hu⟩ | ⟨-, -, hu⟩ | ⟨c, r, -, -, -, hu⟩ | ⟨c, e, -, -, -, -, hu⟩ |
          ⟨c, -, -, -, -, hu⟩ |
          ⟨r, -, -, -, hu⟩ | ⟨e, -, -, -, -, hu⟩ | ⟨-, -, -, -, hu⟩ <;>
          rw [hu] at hmem <;> simpa using hmem
      obtain ⟨c, -, -, hC⟩ := findOrInsertConfig_ok h3
      rcases hC with ⟨r, -, -, -, hi⟩ | ⟨-, hi, -⟩
      · rw [hi] at hmem2; simp at hmem2
      · rw [hins] at hi; cases hi
    · intro id name uid e hmem hsel
      rcases useResourceConfig_cases F user forColumnName forColumnID id0 l.urc tx2 iss with
        ⟨e2, hs, hu⟩ | ⟨hs, -, hu⟩ | ⟨c, r, hs, -, -, hu⟩ | ⟨c, e2, hs, -, -, -, hu⟩ |
        ⟨c, hs, -, -, -, hu⟩ | ⟨r, hs, -, -, hu⟩ | ⟨e2, hs, -, -, -, hu⟩ |
        ⟨hs, -, -, -, hu⟩ <;> rw [hsel] at hs <;> cases hs
      rw [hu]
    · intro id name uid e hmem hins hnot
      have hno : Stmt.insertUse id name uid ∉ iss := by
        intro hm
        have := hiss _ hm
        simp at this
      rcases useResourceConfig_cases F user forColumnName forColumnID id0 l.urc tx2 iss with
        ⟨e2, -, hu⟩ | ⟨-, -, hu⟩ | ⟨c, r, -, -, -, hu⟩ | ⟨c, e2, -, -, -, hi, hu⟩ |
        ⟨c, -, -, -, hi, hu⟩ | ⟨r, -, -, -, hu⟩ | ⟨e2, -, -, -, hi, hu⟩ | ⟨-, -, -, hi, hu⟩
      · rw [hu] at hmem; simp [hno] at hmem
      · rw [hu] at hmem; simp [hno] at hmem
      · rw [hu] at hmem; simp [hno] at hmem
      · rw [hins] at hi
        cases hi
        rw [hu]
        cases e with
        | failure msg => rfl
        | pq codeName constraint =>
          have hcn : codeName ≠ "foreign_key_violation" := by
            intro hc
            exact hnot constraint (by rw [hc])
          simp [useInsertError, hcn]
      · rw [hins] at hi; cases hi
      · rw [hu] at hmem; simp [hno] at hmem
      · rw [hins] at hi
        cases hi
        rw [hu]
        cases e with
        | failure msg => rfl
        | pq codeName constraint =>
          have hcn : codeName ≠ "foreign_key_violation" := by
            intro hc
            exact hnot constraint (by rw [hc])
          simp [useInsertError, hcn]
      · rw [hins] at hi; cases hi

/-- C11 at a cache parent whose resolution fails, and at a config insert that fails with
an error other than a unique or foreign-key violation. -/
theorem findOrCreate_error_passthrough_witness :
    (findOrCreate exampleEnv {} ⟨some ⟨"gone"⟩, none, []⟩ ⟨"build 7"⟩ "build_id" 7
        ⟨[], []⟩).result = .error (.collaborator "resource cache") ∧
    (findOrCreate exampleEnv { insertConfig := some (.pq "not_null_violation" "") }
        exampleBaseConfig ⟨"build 7"⟩ "build_id" 7 ⟨[], []⟩).result =
      .error (.driver (.pq "not_null_violation" "")) :=
  ⟨(findOrCreate_error_passthrough exampleEnv {} ⟨some ⟨"gone"⟩, none, []⟩ ⟨"build 7"⟩
      "build_id" 7 ⟨[], []⟩).1 ⟨"gone"⟩ (.collaborator "resource cache") rfl (by decide),
   (findOrCreate_error_passthrough exampleEnv
      { insertConfig := some (.pq "not_null_violation" "") } exampleBaseConfig ⟨"build 7"⟩
      "build_id" 7 ⟨[], []⟩).2.2.2.1 "base_resource_type_id" 3
      (exampleHash exampleBaseConfig.Source) (.pq "not_null_violation" "") (by decide) rfl
      (fun codeName constraint h => by
        cases h
        exact ⟨by decide, by decide⟩)⟩

/-- C27. Every row that `findOrCreate` inserts into `resource_configs` (the table after
the call being the table its statements started from plus that row) carries the source
hash of the descriptor and exactly one of the two parent columns: either
`base_resource_type_id` holds the id of the base resource type `Find` found, with
`resource_cache_id` NULL, which is the case whenever the descriptor has a base parent,
also when it has a cache parent as well; or, the descriptor having only a cache parent,
`resource_cache_id` holds the id of the cache `UseResourceCache` returned, with
`base_resource_type_id` NULL.  In particular a row is inserted only for a descriptor with
at least one parent set. -/
theorem findOrCreate_inserted_row (E : Env) (F : Faults) (rc : ResourceConfig)
    (user : ResourceUser) (forColumnName : String) (forColumnID : Int) (tx : Store)
    (row : ResourceConfigRow)
    (hins : (findOrCreate E F rc user forColumnName forColumnID tx).store.resource_configs =
      (afterParent E rc user tx).resource_configs ++ [row]) :
    row.source_hash = E.mapHash rc.Source ∧ row.id = F.newConfigID ∧
    ((row.resource_cache_id = none ∧
        ∃ base ubrt, rc.CreatedByBaseResourceType = some base ∧
          E.Find base = .ok (some ubrt) ∧ row.base_resource_type_id = some ubrt.ID) ∨
     (row.base_resource_type_id = none ∧ rc.CreatedByBaseResourceType = none ∧
        ∃ cache r, rc.CreatedByResourceCache = some cache ∧
          (E.UseResourceCache user cache tx).1 = .ok r ∧
          row.resource_cache_id = some r.ID)) := by
  have hne : ∀ (l : List ResourceConfigRow), l ≠ l ++ [row] := by
    intro l h
    have := congrArg List.length h
    simp at this
  rcases findOrCreate_cases E F rc user forColumnName forColumnID tx with
    ⟨err, -, h⟩ | ⟨l1, err, -, -, h⟩ | ⟨l1, l, err, tx2, iss, -, -, h3, h⟩ |
    ⟨l1, l, id, tx2, iss, h1, h2, h3, h⟩
  · rw [h] at hins; exact absurd hins (hne _)
  · rw [h] at hins; exact absurd hins (hne _)
  · rw [h] at hins
    simp only at hins
    rw [(findOrInsertConfig_error h3).1] at hins
    exact absurd hins (hne _)
  · rw [h, useResourceConfig_configs] at hins
    obtain ⟨c, hc, -, hC⟩ := findOrInsertConfig_ok h3
    rcases hC with ⟨r, -, -, htx, -⟩ | ⟨-, -, hid, htx, -⟩
    · rw [htx] at hins; exact absurd hins (hne _)
    · rw [htx] at hins
      simp only [List.append_cancel_left_eq, List.cons.injEq, and_true] at hins
      subst hins
      subst hid
      rcases resolveResourceCache_ok h1 with ⟨hn, hl1, -⟩ | ⟨cache, r, hcache, hu, hl1⟩ <;>
        rcases resolveBaseResourceType_ok h2 with ⟨hbn, hl⟩ | ⟨base, ubrt, hbase, hf, hl⟩
      · subst hl hl1
        simp [parentColumn?_empty] at hc
      · subst hl hl1
        simp only [parentColumn?_base, Option.some.injEq] at hc
        subst hc
        exact ⟨rfl, rfl, Or.inl ⟨rfl, base, ubrt, hbase, hf, rfl⟩⟩
      · subst hl hl1
        simp only [parentColumn?_cache, Option.some.injEq] at hc
        subst hc
        exact ⟨rfl, rfl, Or.inr ⟨rfl, hbn, cache, r, hcache, by rw [hu], rfl⟩⟩
      · subst hl hl1
        simp only [parentColumn?_base, Option.some.injEq] at hc
        subst hc
        exact ⟨rfl, rfl, Or.inl ⟨rfl, base, ubrt, hbase, hf, rfl⟩⟩

/-- C27 at a descriptor with both parents set: the row is keyed by the base resource
type `git` (id 3) only. -/
theorem findOrCreate_inserted_row_witness :
    (findOrCreate exampleEnv {} ⟨some ⟨"image"⟩, some ⟨"git"⟩, []⟩ ⟨"build 7"⟩ "build_id" 7
        ⟨[], []⟩).store.resource_configs = [⟨1, none, some 3, ""⟩] ∧
    (⟨1, none, some 3, ""⟩ : ResourceConfigRow).source_hash =
      exampleEnv.mapHash (⟨some ⟨"image"⟩, some ⟨"git"⟩, []⟩ : ResourceConfig).Source :=
  ⟨by decide,
   (findOrCreate_inserted_row exampleEnv {} ⟨some ⟨"image"⟩, some ⟨"git"⟩, []⟩ ⟨"build 7"⟩
     "build_id" 7 ⟨[], []⟩ ⟨1, none, some 3, ""⟩ (by decide)).1⟩

/-- C29. The method `lockName` derives the name from the full descriptor: when the JSON
encoding of the descriptor succeeds, the error is nil and the name is the SHA-256 of that
encoding in lowercase hexadecimal: it has 64 characters, each one of `0`-`9`, `a`-`f`, and
read back two digits per byte, high digit first, it gives exactly the 32 bytes of the
digest, so that two descriptors get the same name only if the digests of their encodings
are the same; two descriptors with equal parents and equal `Source` get the same name and
error; when the JSON encoding fails, the name is the empty string and the error is that
of the encoding. -/
theorem lockName_spec (H : HashEnv) (resourceConfig : ResourceConfig) :
    (∀ encoding, H.Marshal resourceConfig = .ok encoding →
      (resourceConfig.lockName H).2 = none ∧
      (resourceConfig.lockName H).1.length = 64 ∧
      (∀ ch ∈ (resourceConfig.lockName H).1.toList, ch ∈ "0123456789abcdef".toList) ∧
      decodeHex (resourceConfig.lockName H).1.toList =
        some ((H.Sum256 encoding).val.map Fin.val) ∧
      ∀ (other : ResourceConfig) otherEncoding, H.Marshal other = .ok otherEncoding →
        (other.lockName H).1 = (resourceConfig.lockName H).1 →
        H.Sum256 otherEncoding = H.Sum256 encoding) ∧
    (∀ err, H.Marshal resourceConfig = .error err →
      resourceConfig.lockName H = ("", some err)) ∧
    (∀ other : ResourceConfig,
      other.CreatedByResourceCache = resourceConfig.CreatedByResourceCache →
      other.CreatedByBaseResourceType = resourceConfig.CreatedByBaseResourceType →
      other.Source = resourceConfig.Source →
      other.lockName H = resourceConfig.lockName H) := by
  refine ⟨?_, ?_, ?_⟩
  · intro encoding henc
    have h : resourceConfig.lockName H = (sprintfHex (H.Sum256 encoding).val, none) := by
      simp [ResourceConfig.lockName, henc]
    rw [h]
    refine ⟨rfl, ?_, sprintfHex_digits _, decodeHex_sprintfHex _, ?_⟩
    · simp only [sprintfHex_length, (H.Sum256 encoding).property]
    · intro other otherEncoding hother hname
      have h2 : other.lockName H = (sprintfHex (H.Sum256 otherEncoding).val, none) := by
        simp [ResourceConfig.lockName, hother]
      rw [h2] at hname
      simp only at hname
      have hd := decodeHex_sprintfHex (H.Sum256 otherEncoding).val
      rw [hname, decodeHex_sprintfHex, Option.some.injEq] at hd
      apply Subtype.ext
      exact (List.map_injective_iff.mpr Fin.val_injective hd).symm
  · intro err herr
    simp [ResourceConfig.lockName, herr]
  · intro other h1 h2 h3
    obtain ⟨a, b, c⟩ := other
    obtain ⟨a2, b2, c2⟩ := resourceConfig
    simp only at h1 h2 h3
    subst h1 h2 h3
    rfl

/-- C29 at a descriptor that encodes, where every byte of the digest is 1, and at one
that does not encode. -/
theorem lockName_spec_witness :
    ((exampleBaseConfig.lockName exampleHashEnv).1 =
        "0101010101010101010101010101010101010101010101010101010101010101" ∧
      decodeHex (exampleBaseConfig.lockName exampleHashEnv).1.toList =
        some (List.replicate 32 1)) ∧
    (⟨none, none, []⟩ : ResourceConfig).lockName exampleHashEnv =
      ("", some (.collaborator "json: unsupported type")) :=
  ⟨⟨by decide, ((lockName_spec exampleHashEnv exampleBaseConfig).1 _ rfl).2.2.2.1⟩,
   (lockName_spec exampleHashEnv ⟨none, none, []⟩).2.1 _ rfl⟩

/-- C30. The function `scanResource`: when the row scans and the config JSON decodes it
returns nil and leaves a resource whose `Type`, `Source`, `CheckEvery` and `Tags` are
those of the decoded config and whose `CheckError` is the error with the column text as
message when the `check_error` column is not NULL, and the `checkError` the resource
already had when the column is NULL; so for a zero-valued resource `CheckError()` is nil
if and only if the column is NULL.  When the row fails to scan, or scans and the JSON
fails to decode, it returns that error. -/
theorem scanResource_spec (Unmarshal : List Byte → Except Err AtcResourceConfig)
    (r : resource) (row : scannable) :
    (∀ dest config, row r.scanDest = (none, dest) → Unmarshal dest.configBlob = .ok config →
      (scanResource Unmarshal r row).1 = none ∧
      (scanResource Unmarshal r row).2.Type_ = config.Type_ ∧
      (scanResource Unmarshal r row).2.Source = config.Source ∧
      (scanResource Unmarshal r row).2.CheckEvery = config.CheckEvery ∧
      (scanResource Unmarshal r row).2.Tags = config.Tags ∧
      (dest.checkErr.Valid = true →
        (scanResource Unmarshal r row).2.CheckError = some dest.checkErr.String) ∧
      (dest.checkErr.Valid = false →
        (scanResource Unmarshal r row).2.CheckError = r.checkError) ∧
      (r = {} →
        ((scanResource Unmarshal r row).2.CheckError = none ↔
          dest.checkErr.Valid = false))) ∧
    (∀ dest err, row r.scanDest = (some err, dest) →
      (scanResource Unmarshal r row).1 = some err) ∧
    (∀ dest err, row r.scanDest = (none, dest) → Unmarshal dest.configBlob = .error err →
      (scanResource Unmarshal r row).1 = some err) := by
  refine ⟨?_, ?_, ?_⟩
  · intro dest config hrow hjson
    cases hv : dest.checkErr.Valid with
    | true =>
      have h : scanResource Unmarshal r row =
          (none, { (r.scanned dest) with
            type_ := config.Type_, source := config.Source,
            checkEvery := config.CheckEvery, tags := config.Tags,
            checkError := some dest.checkErr.String }) := by
        simp [scanResource, hrow, hjson, hv]
      rw [h]
      refine ⟨rfl, rfl, rfl, rfl, rfl, fun _ => rfl, fun hf => by simp at hf, fun _ => ?_⟩
      simp [resource.CheckError]
    | false =>
      have h : scanResource Unmarshal r row =
          (none, { (r.scanned dest) with
            type_ := config.Type_, source := config.Source,
            checkEvery := config.CheckEvery, tags := config.Tags }) := by
        simp [scanResource, hrow, hjson, hv]
      rw [h]
      refine ⟨rfl, rfl, rfl, rfl, rfl, fun hf => by simp at hf, fun _ => rfl, fun hz => ?_⟩
      subst hz
      simp [resource.CheckError, resource.scanned]
  · intro dest err hrow
    simp [scanResource, hrow]
  · intro dest err hrow hjson
    simp [scanResource, hrow, hjson]

/-- C30 at a zero-valued resource and a row with a check error recorded. -/
theorem scanResource_spec_witness :
    (scanResource exampleUnmarshal {} exampleRow).1 = none ∧
    (scanResource exampleUnmarshal {} exampleRow).2.Type_ = "git" ∧
    (scanResource exampleUnmarshal {} exampleRow).2.CheckError = some "exit status 1" :=
  ⟨((scanResource_spec exampleUnmarshal {} exampleRow).1 _ _ rfl rfl).1,
   ((scanResource_spec exampleUnmarshal {} exampleRow).1 _ _ rfl rfl).2.1,
   ((scanResource_spec exampleUnmarshal {} exampleRow).1 _ _ rfl rfl).2.2.2.2.2.1 rfl⟩

end Dbng

namespace Radar

/-! ## Facts about the scanner -/

/-- An invocation that is `Ready` passes the steps before the lease. -/
theorem resolve_ready {S : Scanner} {W : World} {name : String} {r : Resource}
    {interval : Duration} (h : Ready S W name r interval) :
    resolve S W name = .ok (r, interval) := by
  obtain ⟨h1, h2, h3, h4⟩ := h
  simp [resolve, h1, h2, h3, h4]

/-- The polling loop, refused `n` times from probe `a` on and then granted the lease,
ends with the lease after `n + 1` probes, given fuel for them. -/
theorem acquire_after (W : World) (r : Resource) (interval : Duration) :
    ∀ (n fuel a : Nat), (∀ k, k < n → W.AcquireCheckingLock (a + k) = .ok false) →
      W.AcquireCheckingLock (a + n) = .ok true → n < fuel →
      acquire W r interval fuel a = some (none, pollEvents r interval n)
  | 0, fuel, a, _, hlast, hfuel => by
    obtain ⟨f, rfl⟩ : ∃ f, fuel = f + 1 := ⟨fuel - 1, by omega⟩
    simp only [Nat.add_zero] at hlast
    simp [acquire, hlast, pollEvents]
  | n + 1, fuel, a, hfail, hlast, hfuel => by
    obtain ⟨f, rfl⟩ : ∃ f, fuel = f + 1 := ⟨fuel - 1, by omega⟩
    have h0 : W.AcquireCheckingLock a = .ok false := by
      have := hfail 0 (by omega)
      simpa using this
    have ih := acquire_after W r interval n f (a + 1)
      (fun k hk => by
        have := hfail (k + 1) (by omega)
        rw [show a + 1 + k = a + (k + 1) by omega]
        exact this)
      (by rw [show a + 1 + n = a + (n + 1) by omega]; exact hlast)
      (by omega)
    simp [acquire, h0, ih, pollEvents]

/-- The polling loop started at the first probe, for a lease obtained after `n` refusals. -/
theorem acquire_of_acquiredAfter {W : World} {n fuel : Nat} (r : Resource)
    (interval : Duration) (h : AcquiredAfter W n) (hfuel : n < fuel) :
    acquire W r interval fuel 0 = some (none, pollEvents r interval n) :=
  acquire_after W r interval n fuel 0 (fun k hk => by simpa using h.1 k hk)
    (by simpa using h.2) hfuel

/-- A polling loop consists of probes and sleeps only: `n + 1` probes, all alike. -/
theorem pollEvents_filter (r : Resource) (interval : Duration) :
    ∀ n, (pollEvents r interval n).filter Event.isAcquire =
        List.replicate (n + 1) (.AcquireCheckingLock r.Name interval true) ∧
      (pollEvents r interval n).filter Event.isRelease = [] ∧
      (pollEvents r interval n).filter Event.isCheck = [] ∧
      (pollEvents r interval n).filter Event.isSave = [] ∧
      (pollEvents r interval n).filter Event.isSetCheckError = []
  | 0 => by simp [pollEvents, Event.isAcquire, Event.isRelease, Event.isCheck, Event.isSave,
      Event.isSetCheckError]
  | n + 1 => by
    obtain ⟨h1, h2, h3, h4, h5⟩ := pollEvents_filter r interval n
    simp [pollEvents, Event.isAcquire, Event.isRelease, Event.isCheck, Event.isSave,
      Event.isSetCheckError, h1, h2, h3, h4, h5, List.replicate_succ]

/-- What the steps after the lease do when the checker fails. -/
theorem check_error {S : Scanner} {W : World} {r : Resource} {fromVersion : Option Version}
    {err : Err} (h : ChecksWith S W r fromVersion (.error err)) :
    ∃ request, check S W r fromVersion =
      (some err, [.NewCheckResource request, .Check r.Source fromVersion,
        .SetResourceCheckError r.Name (some err)]) := by
  obtain ⟨types, h1, h2, h3⟩ := h
  exact ⟨checkRequest S W r types, by simp [check, h1, h2, h3]⟩

/-- What the steps after the lease do when the checker returns versions. -/
theorem check_ok {S : Scanner} {W : World} {r : Resource} {fromVersion : Option Version}
    {versions : List Version} (h : ChecksWith S W r fromVersion (.ok versions)) :
    ∃ request, check S W r fromVersion =
      (none, [.NewCheckResource request, .Check r.Source fromVersion,
        .SaveResourceVersions r.Name r.Type_ versions,
        .SetResourceCheckError r.Name none]) := by
  obtain ⟨types, h1, h2, h3⟩ := h
  exact ⟨checkRequest S W r types, by simp [check, h1, h2, h3]⟩

/-- The shape of `Run` once the lease is granted. -/
theorem Run_acquired {S : Scanner} {W : World} {name : String} {r : Resource}
    {interval : Duration} (h : Ready S W name r interval)
    (hlock : W.AcquireCheckingLock 0 = .ok true) :
    Run S W name =
      ⟨interval, swallowErrResourceScriptFailed (checkFromLatest S W r).1,
        .AcquireCheckingLock r.Name interval false :: (checkFromLatest S W r).2 ++
          [.Release]⟩ := by
  simp [Run, resolve_ready h, hlock]

/-- The shape of a scan once the polling loop has the lease. -/
theorem scanWith_acquired {S : Scanner} {W : World} {name : String} {r : Resource}
    {interval : Duration} {n fuel : Nat} (cycle : Resource → Option Err × List Event)
    (h : Ready S W name r interval) (hlock : AcquiredAfter W n) (hfuel : n < fuel) :
    scanWith cycle S W name fuel =
      some ⟨(cycle r).1, pollEvents r interval n ++ (cycle r).2 ++ [.Release]⟩ := by
  simp [scanWith, resolve_ready h, acquire_of_acquiredAfter r interval hlock hfuel]

/-- The steps after the lease neither probe for the lease nor release it. -/
theorem check_events (S : Scanner) (W : World) (r : Resource) (fromVersion : Option Version) :
    (check S W r fromVersion).2.filter Event.isAcquire = [] ∧
    (check S W r fromVersion).2.filter Event.isRelease = [] := by
  unfold check
  cases W.ResourceTypes with
  | error e => simp
  | ok types =>
    simp only
    cases W.NewCheckResource (checkRequest S W r types) with
    | some e => simp [Event.isAcquire, Event.isRelease]
    | none =>
      simp only
      cases W.Check r.Source fromVersion with
      | error e => simp [Event.isAcquire, Event.isRelease]
      | ok versions => simp [Event.isAcquire, Event.isRelease]

/-- Nor does the check from the last known version. -/
theorem checkFromLatest_events (S : Scanner) (W : World) (r : Resource) :
    (checkFromLatest S W r).2.filter Event.isAcquire = [] ∧
    (checkFromLatest S W r).2.filter Event.isRelease = [] := by
  unfold checkFromLatest
  cases W.GetLatestVersionedResource r.Name with
  | error e => simp
  | ok latest => exact check_events S W r latest

/-- When the checker is reached it is invoked exactly once, from the given version. -/
theorem check_isCheck {S : Scanner} {W : World} {r : Resource} {fromVersion : Option Version}
    {answer : Except Err (List Version)} (h : ChecksWith S W r fromVersion answer) :
    (check S W r fromVersion).2.filter Event.isCheck = [.Check r.Source fromVersion] := by
  cases answer with
  | error e =>
    obtain ⟨req, hc⟩ := check_error h
    rw [hc]
    simp [Event.isCheck]
  | ok versions =>
    obtain ⟨req, hc⟩ := check_ok h
    rw [hc]
    simp [Event.isCheck]

/-- The shape of `Scan` once the polling loop has the lease. -/
theorem Scan_acquired {S : Scanner} {W : World} {name : String} {r : Resource}
    {interval : Duration} {n fuel : Nat}
    (h : Ready S W name r interval) (hlock : AcquiredAfter W n) (hfuel : n < fuel) :
    Scan S W name fuel =
      some ⟨(checkFromLatest S W r).1,
        pollEvents r interval n ++ (checkFromLatest S W r).2 ++ [.Release]⟩ := by
  simp only [Scan, scanWith_acquired (checkFromLatest S W) h hlock hfuel]

/-- The shape of `ScanFromVersion` once the polling loop has the lease. -/
theorem ScanFromVersion_acquired {S : Scanner} {W : World} {name : String} {r : Resource}
    {interval : Duration} {n fuel : Nat} (fromVersion : Option Version)
    (h : Ready S W name r interval) (hlock : AcquiredAfter W n) (hfuel : n < fuel) :
    ScanFromVersion S W name fromVersion fuel =
      some ⟨(check S W r fromVersion).1,
        pollEvents r interval n ++ (check S W r fromVersion).2 ++ [.Release]⟩ := by
  simp only [ScanFromVersion,
    scanWith_acquired (fun r => check S W r fromVersion) h hlock hfuel]

/-- The steps before the lease pass only for an invocation that is `Ready`. -/
theorem ready_of_resolve {S : Scanner} {W : World} {name : String} {r : Resource}
    {interval : Duration} (h : resolve S W name = .ok (r, interval)) :
    Ready S W name r interval := by
  unfold resolve at h
  cases h1 : W.Resource name with
  | error e => simp [h1] at h
  | ok o =>
    cases o with
    | none => simp [h1] at h
    | some r0 =>
      cases h2 : W.IsPaused with
      | error e => simp [h1, h2] at h
      | ok p =>
        cases p with
        | true => simp [h1, h2] at h
        | false =>
          cases h3 : r0.Paused with
          | true => simp [h1, h2, h3] at h
          | false =>
            cases h4 : checkInterval S W r0.CheckEvery with
            | error e => simp [h1, h2, h3, h4] at h
            | ok i =>
              simp [h1, h2, h3, h4] at h
              obtain ⟨rfl, rfl⟩ := h
              exact ⟨h1, h2, h3, h4⟩

/-- An early return releases nothing. -/
theorem resolve_error_events {S : Scanner} {W : World} {name : String} {early : RunResult}
    (h : resolve S W name = .error early) :
    early.events.filter Event.isRelease = [] := by
  unfold resolve at h
  cases h1 : W.Resource name with
  | error e => simp [h1] at h; subst h; rfl
  | ok o =>
    cases o with
    | none => simp [h1] at h; subst h; rfl
    | some r0 =>
      cases h2 : W.IsPaused with
      | error e => simp [h1, h2] at h; subst h; rfl
      | ok p =>
        cases p with
        | true => simp [h1, h2] at h; subst h; rfl
        | false =>
          cases h3 : r0.Paused with
          | true => simp [h1, h2, h3] at h; subst h; rfl
          | false =>
            cases h4 : checkInterval S W r0.CheckEvery with
            | error e => simp [h1, h2, h3, h4] at h; subst h; rfl
            | ok i => simp [h1, h2, h3, h4] at h

/-- The polling loop releases nothing, and when it ends with the lease, the probes were
refused some `n` times and then granted. -/
theorem acquire_spec (W : World) (r : Resource) (interval : Duration) :
    ∀ (fuel a : Nat) (res : Option Err) (events : List Event),
      acquire W r interval fuel a = some (res, events) →
      events.filter Event.isRelease = [] ∧
      (res = none → ∃ n, (∀ k, k < n → W.AcquireCheckingLock (a + k) = .ok false) ∧
        W.AcquireCheckingLock (a + n) = .ok true)
  | 0, _, _, _, h => by simp [acquire] at h
  | fuel + 1, a, res, events, h => by
    unfold acquire at h
    cases hp : W.AcquireCheckingLock a with
    | error e =>
      simp [hp] at h
      obtain ⟨rfl, rfl⟩ := h
      simp [Event.isRelease]
    | ok b =>
      cases b with
      | true =>
        simp [hp] at h
        obtain ⟨rfl, rfl⟩ := h
        refine ⟨by simp [Event.isRelease], fun _ => ⟨0, ?_, by simpa using hp⟩⟩
        intro k hk
        omega
      | false =>
        simp only [hp] at h
        cases hrec : acquire W r interval fuel (a + 1) with
        | none => simp [hrec] at h
        | some out =>
          obtain ⟨res2, events2⟩ := out
          simp [hrec] at h
          obtain ⟨rfl, rfl⟩ := h
          obtain ⟨ih1, ih2⟩ := acquire_spec W r interval fuel (a + 1) res2 events2 hrec
          refine ⟨by simp [Event.isRelease, ih1], fun hn => ?_⟩
          obtain ⟨n, hfail, hlast⟩ := ih2 hn
          refine ⟨n + 1, ?_, by rw [show a + (n + 1) = a + 1 + n by omega]; exact hlast⟩
          intro k hk
          cases k with
          | zero => simpa using hp
          | succ k =>
            rw [show a + (k + 1) = a + 1 + k by omega]
            exact hfail k (by omega)

/-- A scan that returns without the lease having been obtained releases nothing. -/
theorem scanWith_not_acquired (cycle : Resource → Option Err × List Event) (S : Scanner)
    (W : World) (name : String) (fuel : Nat) (out : ScanResult)
    (h : scanWith cycle S W name fuel = some out)
    (hnot : ¬ ∃ r interval n, Ready S W name r interval ∧ AcquiredAfter W n) :
    out.events.filter Event.isRelease = [] := by
  unfold scanWith at h
  cases hr : resolve S W name with
  | error early =>
    simp [hr] at h
    subst h
    exact resolve_error_events hr
  | ok p =>
    obtain ⟨r, interval⟩ := p
    simp only [hr] at h
    cases ha : acquire W r interval fuel 0 with
    | none => simp [ha] at h
    | some q =>
      obtain ⟨res, probes⟩ := q
      obtain ⟨h1, h2⟩ := acquire_spec W r interval fuel 0 res probes ha
      cases res with
      | some err =>
        simp [ha] at h
        subst h
        exact h1
      | none =>
        exfalso
        obtain ⟨n, hfail, hlast⟩ := h2 rfl
        exact hnot ⟨r, interval, n, ready_of_resolve hr,
          fun k hk => by simpa using hfail k hk, by simpa using hlast⟩

/-! ## The claims about the scanner -/

/-- C13. Script-failure asymmetry of the scanner: for a resource whose checker returns
the "check script failed" condition, `Run` returns no error while `Scan` and
`ScanFromVersion` return that error; in all three the error is recorded as the
resource's check error, by the one `SetResourceCheckError` call of the invocation.  (The
invocation is one that reaches the checker: the resource is found, nothing is paused, the
interval is valid and the lease is obtained, at the first probe for `Run`, after `n`
refusals for the other two, which return given fuel for `n + 1` probes.) -/
theorem script_failure_asymmetry (S : Scanner) (W : World) (name : String) (r : Resource)
    (interval : Duration) (detail : String) (latest : Option Version)
    (hready : Ready S W name r interval)
    (hlatest : W.GetLatestVersionedResource r.Name = .ok latest)
    (hcheck : ∀ fromVersion,
      ChecksWith S W r fromVersion (.error (.ErrResourceScriptFailed detail))) :
    (W.AcquireCheckingLock 0 = .ok true →
      (Run S W name).err = none ∧
      (Run S W name).events.filter Event.isSetCheckError =
        [.SetResourceCheckError r.Name (some (.ErrResourceScriptFailed detail))]) ∧
    (∀ n fuel, AcquiredAfter W n → n < fuel →
      ∃ out, Scan S W name fuel = some out ∧
        out.err = some (.ErrResourceScriptFailed detail) ∧
        out.events.filter Event.isSetCheckError =
          [.SetResourceCheckError r.Name (some (.ErrResourceScriptFailed detail))]) ∧
    (∀ n fuel fromVersion, AcquiredAfter W n → n < fuel →
      ∃ out, ScanFromVersion S W name fromVersion fuel = some out ∧
        out.err = some (.ErrResourceScriptFailed detail) ∧
        out.events.filter Event.isSetCheckError =
          [.SetResourceCheckError r.Name (some (.ErrResourceScriptFailed detail))]) := by
  have hcl : ∃ request, checkFromLatest S W r =
      (some (.ErrResourceScriptFailed detail),
        [.NewCheckResource request, .Check r.Source latest,
          .SetResourceCheckError r.Name (some (.ErrResourceScriptFailed detail))]) := by
    obtain ⟨request, hc⟩ := check_error (hcheck latest)
    exact ⟨request, by simp [checkFromLatest, hlatest, hc]⟩
  obtain ⟨request, hcl⟩ := hcl
  refine ⟨?_, ?_, ?_⟩
  · intro hlock
    rw [Run_acquired hready hlock, hcl]
    simp [swallowErrResourceScriptFailed, Event.isSetCheckError]
  · intro n fuel hacq hfuel
    refine ⟨_, Scan_acquired hready hacq hfuel, ?_, ?_⟩
    · rw [hcl]
    · rw [hcl]
      simp [List.filter_append, (pollEvents_filter r interval n).2.2.2.2,
        Event.isSetCheckError]
  · intro n fuel fromVersion hacq hfuel
    obtain ⟨request2, hc⟩ := check_error (hcheck fromVersion)
    refine ⟨_, ScanFromVersion_acquired fromVersion hready hacq hfuel, ?_, ?_⟩
    · simp only [hc]
    · simp only [hc]
      simp [List.filter_append, (pollEvents_filter r interval n).2.2.2.2,
        Event.isSetCheckError]

/-- C13 at the fixture of the tests with a failing check script: `Run` returns no error,
`Scan` returns the script failure. -/
theorem script_failure_asymmetry_witness :
    ((Run testScanner scriptFailWorld "some-resource").err = none ∧
      (Run testScanner scriptFailWorld "some-resource").events.filter Event.isSetCheckError =
        [.SetResourceCheckError testResource.Name
          (some (.ErrResourceScriptFailed "exit status 1"))]) ∧
    ∃ out, Scan testScanner scriptFailWorld "some-resource" 1 = some out ∧
      out.err = some (.ErrResourceScriptFailed "exit status 1") ∧
      out.events.filter Event.isSetCheckError =
        [.SetResourceCheckError testResource.Name
          (some (.ErrResourceScriptFailed "exit status 1"))] :=
  ⟨(script_failure_asymmetry testScanner scriptFailWorld "some-resource" testResource
      (60 * second) "exit status 1" none (by decide) rfl
      (fun fromVersion => ⟨_, rfl, rfl, rfl⟩)).1 rfl,
   (script_failure_asymmetry testScanner scriptFailWorld "some-resource" testResource
      (60 * second) "exit status 1" none (by decide) rfl
      (fun fromVersion => ⟨_, rfl, rfl, rfl⟩)).2.1 0 1
      ⟨fun _ hk => absurd hk (Nat.not_lt_zero _), rfl⟩ (by decide)⟩

/-- C15. Pause short-circuit: for every resource name that the pipeline store finds, if
the pipeline is paused or the resource found is paused, `Run` returns the scanner's
default interval with a nil error and has no effect at all: it never invokes the
checker (nor probes for the lease). -/
theorem Run_paused (S : Scanner) (W : World) (name : String) (r : Resource)
    (pipelinePaused : Bool)
    (hfound : W.Resource name = .ok (some r))
    (hquery : W.IsPaused = .ok pipelinePaused)
    (hpaused : pipelinePaused = true ∨ r.Paused = true) :
    Run S W name = ⟨S.defaultInterval, none, []⟩ ∧
    (Run S W name).events.filter Event.isCheck = [] := by
  have h : Run S W name = ⟨S.defaultInterval, none, []⟩ := by
    cases pipelinePaused with
    | true => simp [Run, resolve, hfound, hquery]
    | false =>
      have hr : r.Paused = true := by simpa using hpaused
      simp [Run, resolve, hfound, hquery, hr]
  rw [h]
  exact ⟨rfl, rfl⟩

/-- C15 at a paused pipeline. -/
theorem Run_paused_witness :
    Run testScanner pausedWorld "some-resource" = ⟨60 * second, none, []⟩ ∧
    (Run testScanner pausedWorld "some-resource").events.filter Event.isCheck = [] :=
  Run_paused testScanner pausedWorld "some-resource" testResource true rfl rfl (Or.inl rfl)

/-- C16, as stated, fails on a paused pipeline: the pause check comes before the
interval is looked at, so for a resource with the unparsable check interval `bad-value`
in a paused pipeline `Run` returns the default interval and no error, and records no
check error. -/
theorem Run_interval_parse_failure_paused :
    pausedBadIntervalWorld.Resource "some-resource" =
      .ok (some { testResource with CheckEvery := "bad-value" }) ∧
    pausedBadIntervalWorld.ParseDuration "bad-value" =
      .error (.failure "time: invalid duration bad-value") ∧
    Run testScanner pausedBadIntervalWorld "some-resource" = ⟨60 * second, none, []⟩ ∧
    (Run testScanner pausedBadIntervalWorld "some-resource").err ≠
      some (.failure "time: invalid duration bad-value") ∧
    (Run testScanner pausedBadIntervalWorld "some-resource").events.filter
      Event.isSetCheckError = [] := by
  decide

/-- C16, amended. Parse-failure short-circuit: for a resource (found, and neither it nor the
pipeline paused) whose check-interval string is non-empty and not a parsable duration,
`Run` returns the parse error together with the scanner's default interval, and its only
effect is one `SetResourceCheckError` call recording that error for the resource: it
never attempts the lease and never invokes the checker. -/
theorem Run_interval_parse_failure (S : Scanner) (W : World) (name : String) (r : Resource)
    (err : Err)
    (hfound : W.Resource name = .ok (some r))
    (hpipeline : W.IsPaused = .ok false) (hresource : r.Paused = false)
    (hnonempty : r.CheckEvery ≠ "")
    (hparse : W.ParseDuration r.CheckEvery = .error err) :
    Run S W name =
      ⟨S.defaultInterval, some err, [.SetResourceCheckError r.Name (some err)]⟩ ∧
    (Run S W name).events.filter Event.isSetCheckError =
      [.SetResourceCheckError r.Name (some err)] ∧
    (Run S W name).events.filter Event.isAcquire = [] ∧
    (Run S W name).events.filter Event.isCheck = [] := by
  have h : Run S W name =
      ⟨S.defaultInterval, some err, [.SetResourceCheckError r.Name (some err)]⟩ := by
    simp [Run, resolve, hfound, hpipeline, hresource, checkInterval, hnonempty, hparse]
  rw [h]
  simp [Event.isSetCheckError, Event.isAcquire, Event.isCheck]

/-- C16 amended, at the check interval `bad-value` of the tests. -/
theorem Run_interval_parse_failure_witness :
    Run testScanner badIntervalWorld "some-resource" =
      ⟨60 * second, some (.failure "time: invalid duration bad-value"),
        [.SetResourceCheckError "some-resource"
          (some (.failure "time: invalid duration bad-value"))]⟩ :=
  (Run_interval_parse_failure testScanner badIntervalWorld "some-resource"
    { testResource with CheckEvery := "bad-value" }
    (.failure "time: invalid duration bad-value") rfl rfl rfl (by decide) (by decide)).1

/-- C17. Lock contention: for an unpaused resource (in an unpaused pipeline) with a valid
interval, if the checking-lease probe reports not acquired, `Run` returns
`ErrFailedToAcquireLock` together with the effective interval, makes exactly one probe,
with `immediate=false`, and invokes the checker zero times. -/
theorem Run_lock_not_acquired (S : Scanner) (W : World) (name : String) (r : Resource)
    (interval : Duration)
    (hready : Ready S W name r interval)
    (hprobe : W.AcquireCheckingLock 0 = .ok false) :
    Run S W name =
      ⟨interval, some .ErrFailedToAcquireLock,
        [.AcquireCheckingLock r.Name interval false]⟩ ∧
    (Run S W name).events.filter Event.isAcquire =
      [.AcquireCheckingLock r.Name interval false] ∧
    (Run S W name).events.filter Event.isCheck = [] := by
  have h : Run S W name =
      ⟨interval, some .ErrFailedToAcquireLock,
        [.AcquireCheckingLock r.Name interval false]⟩ := by
    simp [Run, resolve_ready hready, hprobe]
  rw [h]
  simp [Event.isAcquire, Event.isCheck]

/-- C17 at a lease that is always refused. -/
theorem Run_lock_not_acquired_witness :
    Run testScanner refusedWorld "some-resource" =
      ⟨60 * second, some .ErrFailedToAcquireLock,
        [.AcquireCheckingLock "some-resource" (60 * second) false]⟩ :=
  (Run_lock_not_acquired testScanner refusedWorld "some-resource" testResource (60 * second)
    (by decide) rfl).1

/-- C18. Ordered persistence: for every list of versions returned by a successful check
of a resource with no prior known version, `Run` and `Scan` each call
`SaveResourceVersions` exactly once, passing (for that resource) exactly the returned
versions in the order returned.  (The invocation is one that reaches the checker; `Run`
gets the lease at its one probe, `Scan` after `n` refusals, given fuel for `n + 1`
probes.) -/
theorem ordered_persistence (S : Scanner) (W : World) (name : String) (r : Resource)
    (interval : Duration) (versions : List Version)
    (hready : Ready S W name r interval)
    (hnone : W.GetLatestVersionedResource r.Name = .ok none)
    (hcheck : ChecksWith S W r none (.ok versions)) :
    (W.AcquireCheckingLock 0 = .ok true →
      (Run S W name).events.filter Event.isSave =
        [.SaveResourceVersions r.Name r.Type_ versions]) ∧
    (∀ n fuel, AcquiredAfter W n → n < fuel →
      ∃ out, Scan S W name fuel = some out ∧
        out.events.filter Event.isSave =
          [.SaveResourceVersions r.Name r.Type_ versions]) := by
  obtain ⟨request, hc⟩ := check_ok hcheck
  have hcl : checkFromLatest S W r =
      (none, [.NewCheckResource request, .Check r.Source none,
        .SaveResourceVersions r.Name r.Type_ versions,
        .SetResourceCheckError r.Name none]) := by
    simp only [checkFromLatest, hnone, hc]
  refine ⟨?_, ?_⟩
  · intro hlock
    rw [Run_acquired hready hlock, hcl]
    simp [Event.isSave]
  · intro n fuel hacq hfuel
    refine ⟨_, Scan_acquired hready hacq hfuel, ?_⟩
    rw [hcl]
    simp [List.filter_append, (pollEvents_filter r interval n).2.2.2.1, Event.isSave]

/-- C18 at the versions 1, 2, 3 of the tests. -/
theorem ordered_persistence_witness :
    (Run testScanner versionsWorld "some-resource").events.filter Event.isSave =
      [.SaveResourceVersions "some-resource" "git"
        [[("version", "1")], [("version", "2")], [("version", "3")]]] :=
  (ordered_persistence testScanner versionsWorld "some-resource" testResource (60 * second)
    [[("version", "1")], [("version", "2")], [("version", "3")]] (by decide) rfl
    ⟨_, rfl, rfl, rfl⟩).1 rfl

/-- C20. Scan polling: for every `n`, if the lease probe reports not-acquired `n` times
and then succeeds, `Scan` (for a resource that is found, with nothing paused and a valid
interval) returns, given fuel for `n + 1` probes, after exactly `n + 1` acquisition
attempts, each with `immediate=true` and the effective interval, with a sleep of one
second after each refusal; nothing is probed after the lease is obtained; the lease is
released exactly once; and when the current version is read and the checker is
constructed, the checker is invoked exactly once, after the last attempt. -/
theorem Scan_polling (S : Scanner) (W : World) (name : String) (r : Resource)
    (interval : Duration) (n fuel : Nat)
    (hready : Ready S W name r interval) (hlock : AcquiredAfter W n) (hfuel : n < fuel) :
    ∃ out, Scan S W name fuel = some out ∧
      out.events.filter Event.isAcquire =
        List.replicate (n + 1) (.AcquireCheckingLock r.Name interval true) ∧
      out.events.filter Event.isRelease = [.Release] ∧
      (∃ rest, out.events = pollEvents r interval n ++ rest ∧
        rest.filter Event.isAcquire = [] ∧
        ∀ latest answer, W.GetLatestVersionedResource r.Name = .ok latest →
          ChecksWith S W r latest answer →
          rest.filter Event.isCheck = [.Check r.Source latest]) := by
  obtain ⟨ha, hr, hc, -, -⟩ := pollEvents_filter r interval n
  obtain ⟨ca, cr⟩ := checkFromLatest_events S W r
  refine ⟨_, Scan_acquired hready hlock hfuel, ?_, ?_, ?_⟩
  · simp [List.filter_append, ha, ca, Event.isAcquire]
  · simp [List.filter_append, hr, cr, Event.isRelease]
  · refine ⟨(checkFromLatest S W r).2 ++ [.Release], by simp, ?_, ?_⟩
    · simp [List.filter_append, ca, Event.isAcquire]
    · intro latest answer hlatest hcheck
      have : checkFromLatest S W r = check S W r latest := by
        simp [checkFromLatest, hlatest]
      rw [this]
      simp [List.filter_append, check_isCheck hcheck, Event.isCheck]

/-- C20 at `n = 2`, the lease of the tests that is refused twice: three attempts. -/
theorem Scan_polling_witness :
    ∃ out, Scan testScanner busyWorld "some-resource" 3 = some out ∧
      out.events.filter Event.isAcquire =
        List.replicate (2 + 1) (.AcquireCheckingLock testResource.Name (60 * second) true) ∧
      out.events.filter Event.isRelease = [.Release] ∧
      (∃ rest, out.events = pollEvents testResource (60 * second) 2 ++ rest ∧
        rest.filter Event.isAcquire = [] ∧
        ∀ latest answer, busyWorld.GetLatestVersionedResource testResource.Name = .ok latest →
          ChecksWith testScanner busyWorld testResource latest answer →
          rest.filter Event.isCheck = [.Check testResource.Source latest]) :=
  Scan_polling testScanner busyWorld "some-resource" testResource (60 * second) 2 3
    (by decide) (by decide) (by decide)

/-- C21. Lease discipline: in every invocation of `Run`, `Scan` or `ScanFromVersion` in
which the checking lease is acquired (the invocation gets as far as the lease and a probe
is granted: the one probe of `Run`, or a probe of the polling loop after `n` refusals, for
which fuel for `n + 1` probes makes the scan return), `Release` is called exactly once,
whatever the version lookup, the construction of the checker, the check and the save do;
and in every invocation that returns without the lease having been acquired, `Release`
is never called. -/
theorem lease_discipline (S : Scanner) (W : World) (name : String) :
    (∀ r interval, Ready S W name r interval → W.AcquireCheckingLock 0 = .ok true →
      (Run S W name).events.filter Event.isRelease = [.Release]) ∧
    ((¬ ∃ r interval, Ready S W name r interval ∧ W.AcquireCheckingLock 0 = .ok true) →
      (Run S W name).events.filter Event.isRelease = []) ∧
    (∀ r interval n fuel fromVersion, Ready S W name r interval → AcquiredAfter W n →
      n < fuel →
      (∃ out, Scan S W name fuel = some out ∧
        out.events.filter Event.isRelease = [.Release]) ∧
      (∃ out, ScanFromVersion S W name fromVersion fuel = some out ∧
        out.events.filter Event.isRelease = [.Release])) ∧
    ((¬ ∃ r interval n, Ready S W name r interval ∧ AcquiredAfter W n) →
      ∀ fuel fromVersion out,
        (Scan S W name fuel = some out → out.events.filter Event.isRelease = []) ∧
        (ScanFromVersion S W name fromVersion fuel = some out →
          out.events.filter Event.isRelease = [])) := by
  refine ⟨?_, ?_, ?_, ?_⟩
  · intro r interval hready hlock
    rw [Run_acquired hready hlock]
    simp [List.filter_append, (checkFromLatest_events S W r).2, Event.isRelease]
  · intro hnot
    unfold Run
    cases hr : resolve S W name with
    | error early => exact resolve_error_events hr
    | ok p =>
      obtain ⟨r, interval⟩ := p
      cases hp : W.AcquireCheckingLock 0 with
      | error e => simp [hp, Event.isRelease]
      | ok b =>
        cases b with
        | false => simp [hp, Event.isRelease]
        | true => exact absurd ⟨r, interval, ready_of_resolve hr, hp⟩ hnot
  · intro r interval n fuel fromVersion hready hlock hfuel
    obtain ⟨-, hr, -⟩ := pollEvents_filter r interval n
    refine ⟨⟨_, Scan_acquired hready hlock hfuel, ?_⟩,
      ⟨_, ScanFromVersion_acquired fromVersion hready hlock hfuel, ?_⟩⟩
    · simp [List.filter_append, hr, (checkFromLatest_events S W r).2, Event.isRelease]
    · simp [List.filter_append, hr, (check_events S W r fromVersion).2, Event.isRelease]
  · intro hnot fuel fromVersion out
    refine ⟨?_, ?_⟩
    · intro h
      exact scanWith_not_acquired _ S W name fuel out h hnot
    · intro h
      exact scanWith_not_acquired _ S W name fuel out h hnot

/-- C21 at the fixture of the tests: the lease is granted and the check script fails, the
lease is released once; the lease is refused, it is never released. -/
theorem lease_discipline_witness :
    (Run testScanner scriptFailWorld "some-resource").events.filter Event.isRelease =
      [.Release] ∧
    (Run testScanner refusedWorld "some-resource").events.filter Event.isRelease = [] :=
  ⟨(lease_discipline testScanner scriptFailWorld "some-resource").1 testResource
      (60 * second) (by decide) rfl,
   (lease_discipline testScanner refusedWorld "some-resource").2.1
      (fun ⟨_, _, _, h⟩ => by cases h)⟩

end Radar

namespace Github

/-! ## Facts about the GitHub provider -/

/-- The two shapes of `strings.SplitN(value, "/", 2)`: the value alone when it holds no
`/`, else the text before the first `/` and the text after it. -/
theorem splitN2_cases (value : String) :
    ('/' ∉ value.toList ∧ splitN2 value = [value]) ∨
    (∃ before after, '/' ∉ before ∧ value.toList = before ++ '/' :: after ∧
      splitN2 value = [String.mk before, String.mk after]) := by
  unfold splitN2
  rw [List.span_eq_take_drop]
  have happ := List.takeWhile_append_dropWhile (fun ch => ch != '/') value.toList
  have htake : '/' ∉ value.toList.takeWhile (fun ch => ch != '/') := by
    intro hmem
    have := List.mem_takeWhile_imp hmem
    simp at this
  cases hdrop : value.toList.dropWhile (fun ch => ch != '/') with
  | nil =>
    left
    refine ⟨?_, rfl⟩
    rw [List.dropWhile_eq_nil_iff] at hdrop
    intro hmem
    have := hdrop _ hmem
    simp at this
  | cons c after =>
    right
    have hne : value.toList.dropWhile (fun ch => ch != '/') ≠ [] := by
      rw [hdrop]; exact List.cons_ne_nil _ _
    have hhead := List.head_dropWhile_not (fun ch => ch != '/') value.toList hne
    have hc : c = '/' := by
      simp only [hdrop, List.head_cons] at hhead
      simpa using hhead
    subst hc
    refine ⟨_, after, htake, ?_, rfl⟩
    rw [← hdrop, happ]

/-! ## The claims about the GitHub provider -/

/-- C22. `GitHubTeamConfig.UnmarshalFlag` parses an ORG/TEAM value: it returns no error
exactly when the value holds a `/`; then `OrganizationName` is the text before the first
`/` (it holds none itself) and `TeamName` everything after it, so that
`OrganizationName + "/" + TeamName` is the value; for a value without `/` it returns the
error `malformed GitHub team specification: '<value>'` and leaves both fields as they
were. -/
theorem UnmarshalFlag_spec (flag : GitHubTeamConfig) (value : String) :
    ((flag.UnmarshalFlag value).1 = none ↔ '/' ∈ value.toList) ∧
    ('/' ∈ value.toList →
      '/' ∉ (flag.UnmarshalFlag value).2.OrganizationName.toList ∧
      (flag.UnmarshalFlag value).2.OrganizationName ++ "/" ++
        (flag.UnmarshalFlag value).2.TeamName = value) ∧
    ('/' ∉ value.toList →
      (flag.UnmarshalFlag value).1 =
        some ("malformed GitHub team specification: '" ++ value ++ "'") ∧
      (flag.UnmarshalFlag value).2 = flag) := by
  rcases splitN2_cases value with ⟨hno, hs⟩ | ⟨before, after, hbefore, hval, hs⟩
  · have h1 : flag.UnmarshalFlag value =
        (some ("malformed GitHub team specification: '" ++ value ++ "'"), flag) := by
      unfold GitHubTeamConfig.UnmarshalFlag
      rw [hs]
    rw [h1]
    exact ⟨⟨fun h => by simp at h, fun h => absurd h hno⟩, fun h => absurd h hno,
      fun _ => ⟨rfl, rfl⟩⟩
  · have h1 : flag.UnmarshalFlag value =
        (none, { flag with OrganizationName := String.mk before,
                           TeamName := String.mk after }) := by
      unfold GitHubTeamConfig.UnmarshalFlag
      rw [hs]
    have hmem : '/' ∈ value.toList := by
      rw [hval]; simp
    rw [h1]
    refine ⟨⟨fun _ => hmem, fun _ => rfl⟩, fun _ => ⟨hbefore, ?_⟩, fun h => absurd hmem h⟩
    apply String.ext
    show (before ++ ['/'] ++ after : List Char) = value.toList
    rw [hval]
    simp

/-- The theorem `UnmarshalFlag_spec` at the values `concourse/main/team` and
`concourse`. -/
theorem UnmarshalFlag_spec_witness :
    ('/' ∈ "concourse/main/team".toList ∧
      (({} : GitHubTeamConfig).UnmarshalFlag "concourse/main/team").2 =
        ⟨"concourse", "main/team"⟩ ∧
      (({} : GitHubTeamConfig).UnmarshalFlag "concourse/main/team").2.OrganizationName ++ "/" ++
        (({} : GitHubTeamConfig).UnmarshalFlag "concourse/main/team").2.TeamName =
          "concourse/main/team") ∧
    ('/' ∉ "concourse".toList ∧
      ((⟨"org", "team"⟩ : GitHubTeamConfig).UnmarshalFlag "concourse").1 =
        some ("malformed GitHub team specification: '" ++ "concourse" ++ "'") ∧
      ((⟨"org", "team"⟩ : GitHubTeamConfig).UnmarshalFlag "concourse").2 = ⟨"org", "team"⟩) :=
  ⟨⟨by decide, by decide,
    ((UnmarshalFlag_spec {} "concourse/main/team").2.1 (by decide)).2⟩,
   ⟨by decide, (UnmarshalFlag_spec ⟨"org", "team"⟩ "concourse").2.2 (by decide)⟩⟩

/-- C23. `GitHubAuthConfig.Validate` returns nil exactly when `ClientID` and
`ClientSecret` are both non-empty and one of `Organizations`, `Teams`, `Users` is
non-empty; otherwise the error holds one message per violated requirement (client id and
secret; one of organizations, teams, users) and nothing else. -/
theorem Validate_spec (auth : GitHubAuthConfig) :
    (auth.Validate = none ↔
      (auth.ClientID ≠ "" ∧ auth.ClientSecret ≠ "") ∧
      (auth.Organizations ≠ [] ∨ auth.Teams ≠ [] ∨ auth.Users ≠ [])) ∧
    (∀ errs, auth.Validate = some errs →
      ("must specify --github-auth-client-id and --github-auth-client-secret to use GitHub OAuth."
          ∈ errs ↔ (auth.ClientID = "" ∨ auth.ClientSecret = "")) ∧
      ("at least one of the following is required for github-auth: organizations, teams, users."
          ∈ errs ↔ (auth.Organizations = [] ∧ auth.Teams = [] ∧ auth.Users = [])) ∧
      List.Sublist errs
        ["must specify --github-auth-client-id and --github-auth-client-secret to use GitHub OAuth.",
         "at least one of the following is required for github-auth: organizations, teams, users."]) := by
  unfold GitHubAuthConfig.Validate ErrorOrNil
  simp only [List.length_eq_zero, List.nil_append]
  by_cases h1 : auth.ClientID = "" ∨ auth.ClientSecret = "" <;>
  by_cases h2 : auth.Organizations = [] ∧ auth.Teams = [] ∧ auth.Users = []
  · simp only [if_pos h1, if_pos h2]
    refine ⟨⟨fun h => by simp at h, fun h => ?_⟩, ?_⟩
    · rcases h1 with h1 | h1
      · exact absurd h1 h.1.1
      · exact absurd h1 h.1.2
    · intro errs herr
      simp only [List.singleton_append, reduceCtorEq, if_false, Option.some.injEq] at herr
      subst herr
      exact ⟨⟨fun _ => h1, fun _ => by simp⟩, ⟨fun _ => h2, fun _ => by simp⟩,
        List.Sublist.refl _⟩
  · simp only [if_pos h1, if_neg h2]
    refine ⟨⟨fun h => by simp at h, fun h => ?_⟩, ?_⟩
    · rcases h1 with h1 | h1
      · exact absurd h1 h.1.1
      · exact absurd h1 h.1.2
    · intro errs herr
      simp only [reduceCtorEq, if_false, Option.some.injEq] at herr
      subst herr
      refine ⟨⟨fun _ => h1, fun _ => by simp⟩, ⟨fun h => ?_, fun h => absurd h h2⟩, ?_⟩
      · exact absurd h (by decide)
      · exact (List.Sublist.refl _).cons₂ _ |>.trans (by
          exact List.Sublist.cons₂ _ (List.nil_sublist _))
  · simp only [if_neg h1, if_pos h2]
    refine ⟨⟨fun h => by simp at h, fun h => ?_⟩, ?_⟩
    · rcases h.2 with h3 | h3 | h3
      · exact absurd h2.1 h3
      · exact absurd h2.2.1 h3
      · exact absurd h2.2.2 h3
    · intro errs herr
      simp only [List.nil_append, reduceCtorEq, if_false, Option.some.injEq] at herr
      subst herr
      refine ⟨⟨fun h => ?_, fun h => absurd h h1⟩, ⟨fun _ => h2, fun _ => by simp⟩, ?_⟩
      · exact absurd h (by decide)
      · exact List.Sublist.cons _ (List.Sublist.refl _)
  · simp only [if_neg h1, if_neg h2]
    refine ⟨⟨fun _ => ?_, fun _ => by simp⟩, ?_⟩
    · refine ⟨⟨fun h => h1 (Or.inl h), fun h => h1 (Or.inr h)⟩, ?_⟩
      by_contra hcon
      push_neg at hcon
      exact h2 hcon
    · intro errs herr
      rw [if_pos trivial] at herr
      cases herr

/-- The theorem `Validate_spec` at a configuration with a user but no client secret: the
error holds the message for the client id and secret, and not the other one. -/
theorem Validate_spec_witness :
    ({ ClientID := "id", Users := ["alice"] } : GitHubAuthConfig).Validate =
      some ["must specify --github-auth-client-id and --github-auth-client-secret to use GitHub OAuth."] ∧
    ("at least one of the following is required for github-auth: organizations, teams, users." ∈
      ["must specify --github-auth-client-id and --github-auth-client-secret to use GitHub OAuth."] ↔
      (({ ClientID := "id", Users := ["alice"] } : GitHubAuthConfig).Organizations = [] ∧
       ({ ClientID := "id", Users := ["alice"] } : GitHubAuthConfig).Teams = [] ∧
       ({ ClientID := "id", Users := ["alice"] } : GitHubAuthConfig).Users = [])) :=
  ⟨by decide,
   ((Validate_spec { ClientID := "id", Users := ["alice"] }).2 _ (by decide)).2.1⟩

/-- C25, as stated, fails: with `AuthURL` set and `TokenURL` left empty the provider keeps
the default `AuthURL`, and likewise with `TokenURL` set and `AuthURL` left empty it keeps
the default `TokenURL`. -/
theorem ProviderConstructor_lone_override_ignored :
    (({ ClientID := "id", ClientSecret := "secret", Users := ["alice"],
        AuthURL := "https://ghe.example.com/login/oauth/authorize" } :
        GitHubAuthConfig).AuthURL ≠ "" ∧
      (ProviderConstructor exampleEndpoint
        { ClientID := "id", ClientSecret := "secret", Users := ["alice"],
          AuthURL := "https://ghe.example.com/login/oauth/authorize" }
        "https://ci.example.com/callback").1.Config.Endpoint.AuthURL =
          "https://github.com/login/oauth/authorize") ∧
    (({ ClientID := "id", ClientSecret := "secret", Users := ["alice"],
        TokenURL := "https://ghe.example.com/login/oauth/access_token" } :
        GitHubAuthConfig).TokenURL ≠ "" ∧
      (ProviderConstructor exampleEndpoint
        { ClientID := "id", ClientSecret := "secret", Users := ["alice"],
          TokenURL := "https://ghe.example.com/login/oauth/access_token" }
        "https://ci.example.com/callback").1.Config.Endpoint.TokenURL =
          "https://github.com/login/oauth/access_token") ∧
    ¬ ∀ (Endpoint : Oauth2.Endpoint) (githubAuth : GitHubAuthConfig) (redirectURL : String),
      (githubAuth.AuthURL ≠ "" →
        (ProviderConstructor Endpoint githubAuth redirectURL).1.Config.Endpoint.AuthURL =
          githubAuth.AuthURL) ∧
      (githubAuth.TokenURL ≠ "" →
        (ProviderConstructor Endpoint githubAuth redirectURL).1.Config.Endpoint.TokenURL =
          githubAuth.TokenURL) ∧
      (githubAuth.AuthURL = "" →
        (ProviderConstructor Endpoint githubAuth redirectURL).1.Config.Endpoint.AuthURL =
          Endpoint.AuthURL) ∧
      (githubAuth.TokenURL = "" →
        (ProviderConstructor Endpoint githubAuth redirectURL).1.Config.Endpoint.TokenURL =
          Endpoint.TokenURL) := by
  refine ⟨by decide, by decide, fun h => ?_⟩
  have h1 := (h exampleEndpoint
    { ClientID := "id", ClientSecret := "secret", Users := ["alice"],
      AuthURL := "https://ghe.example.com/login/oauth/authorize" }
    "https://ci.example.com/callback").1 (by decide)
  revert h1
  decide

/-- C25, amended. GitHub Enterprise endpoint override: for every `GitHubAuthConfig`, when
`AuthURL` and `TokenURL` are both non-empty they override the default endpoint's
`AuthURL` and `TokenURL` in the provider `ProviderConstructor` returns; when either of
them is empty the provider keeps the default `github.Endpoint`, both fields. -/
theorem ProviderConstructor_endpoint (Endpoint : Oauth2.Endpoint)
    (githubAuth : GitHubAuthConfig) (redirectURL : String) :
    (githubAuth.AuthURL ≠ "" ∧ githubAuth.TokenURL ≠ "" →
      (ProviderConstructor Endpoint githubAuth redirectURL).1.Config.Endpoint =
        ⟨githubAuth.AuthURL, githubAuth.TokenURL⟩) ∧
    (githubAuth.AuthURL = "" ∨ githubAuth.TokenURL = "" →
      (ProviderConstructor Endpoint githubAuth redirectURL).1.Config.Endpoint = Endpoint) := by
  unfold ProviderConstructor
  constructor
  · intro h
    simp only [if_pos h]
  · intro h
    have hn : ¬ (githubAuth.AuthURL ≠ "" ∧ githubAuth.TokenURL ≠ "") := by
      rintro ⟨h1, h2⟩
      rcases h with h | h
      · exact h1 h
      · exact h2 h
    simp only [if_neg hn]

/-- The theorem `ProviderConstructor_endpoint` at a configuration that sets both URLs and
at one that sets the token URL alone. -/
theorem ProviderConstructor_endpoint_witness :
    (ProviderConstructor exampleEndpoint
      { ClientID := "id", ClientSecret := "secret", Users := ["alice"],
        AuthURL := "https://ghe.example.com/login/oauth/authorize",
        TokenURL := "https://ghe.example.com/login/oauth/access_token" }
      "https://ci.example.com/callback").1.Config.Endpoint =
        ⟨"https://ghe.example.com/login/oauth/authorize",
         "https://ghe.example.com/login/oauth/access_token"⟩ ∧
    (ProviderConstructor exampleEndpoint
      { ClientID := "id", ClientSecret := "secret", Users := ["alice"],
        TokenURL := "https://ghe.example.com/login/oauth/access_token" }
      "https://ci.example.com/callback").1.Config.Endpoint = exampleEndpoint :=
  ⟨(ProviderConstructor_endpoint exampleEndpoint _ _).1 (by decide),
   (ProviderConstructor_endpoint exampleEndpoint _ _).2 (by decide)⟩

end Github

namespace GenericOAuth

/-! ## The claims about the generic OAuth provider -/

/-- C24. `GenericOAuthConfig.Validate` returns nil exactly when `ClientID`,
`ClientSecret`, `AuthURL`, `TokenURL` and `DisplayName` are all non-empty; otherwise the
error holds one message for each violated group (client id and secret, auth and token
URL, display name), in that order, and nothing else. -/
theorem Validate_order (config : GenericOAuthConfig) :
    (config.Validate = none ↔
      config.ClientID ≠ "" ∧ config.ClientSecret ≠ "" ∧ config.AuthURL ≠ "" ∧
        config.TokenURL ≠ "" ∧ config.DisplayName ≠ "") ∧
    (∀ errs, config.Validate = some errs →
      ("must specify --generic-oauth-client-id and --generic-oauth-client-secret to use Generic OAuth."
          ∈ errs ↔ (config.ClientID = "" ∨ config.ClientSecret = "")) ∧
      ("must specify --generic-oauth-auth-url and --generic-oauth-token-url to use Generic OAuth."
          ∈ errs ↔ (config.AuthURL = "" ∨ config.TokenURL = "")) ∧
      ("must specify --generic-oauth-display-name to use Generic OAuth."
          ∈ errs ↔ config.DisplayName = "") ∧
      List.Sublist errs
        ["must specify --generic-oauth-client-id and --generic-oauth-client-secret to use Generic OAuth.",
         "must specify --generic-oauth-auth-url and --generic-oauth-token-url to use Generic OAuth.",
         "must specify --generic-oauth-display-name to use Generic OAuth."]) := by
  unfold GenericOAuthConfig.Validate ErrorOrNil
  simp only [List.nil_append]
  by_cases h1 : config.ClientID = "" ∨ config.ClientSecret = "" <;>
  by_cases h2 : config.AuthURL = "" ∨ config.TokenURL = "" <;>
  by_cases h3 : config.DisplayName = "" <;>
  (first | rw [if_pos h1] | rw [if_neg h1]) <;>
  (first | rw [if_pos h2] | rw [if_neg h2]) <;>
  (first | rw [if_pos h3] | rw [if_neg h3]) <;>
  (first
    | rw [if_pos rfl]
    | simp only [List.nil_append, List.singleton_append, List.cons_append, reduceCtorEq,
        if_false]) <;>
  refine ⟨by tauto, fun errs herr => ?_⟩ <;>
  cases herr <;>
  refine ⟨?_, ?_, ?_, ?_⟩ <;>
  first
    | exact iff_of_true (by decide) h1
    | exact iff_of_true (by decide) h2
    | exact iff_of_true (by decide) h3
    | exact iff_of_false (by decide) h1
    | exact iff_of_false (by decide) h2
    | exact iff_of_false (by decide) h3
    | decide

/-- The theorem `Validate_order` at a configuration without client secret and without
display name: two messages, in the order of the groups. -/
theorem Validate_order_witness :
    ({ ClientID := "id", AuthURL := "https://a.example.com/auth",
       TokenURL := "https://a.example.com/token" } : GenericOAuthConfig).Validate =
      some ["must specify --generic-oauth-client-id and --generic-oauth-client-secret to use Generic OAuth.",
            "must specify --generic-oauth-display-name to use Generic OAuth."] ∧
    ("must specify --generic-oauth-auth-url and --generic-oauth-token-url to use Generic OAuth." ∈
      ["must specify --generic-oauth-client-id and --generic-oauth-client-secret to use Generic OAuth.",
       "must specify --generic-oauth-display-name to use Generic OAuth."] ↔
      (({ ClientID := "id", AuthURL := "https://a.example.com/auth",
          TokenURL := "https://a.example.com/token" } : GenericOAuthConfig).AuthURL = "" ∨
       ({ ClientID := "id", AuthURL := "https://a.example.com/auth",
          TokenURL := "https://a.example.com/token" } : GenericOAuthConfig).TokenURL = "")) :=
  ⟨by decide,
   ((Validate_order { ClientID := "id", AuthURL := "https://a.example.com/auth",
                      TokenURL := "https://a.example.com/token" }).2 _ (by decide)).2.1⟩

/-- C26. Generic OAuth lets every authenticated user in unless a scope is configured: for
every `GenericOAuthConfig` with an empty `Scope`, the provider `ProviderConstructor`
builds uses `NoopVerifier`, whose `Verify` returns `(true, nil)` for every client; with a
non-empty `Scope` the verifier of the provider is the scope verifier for exactly that
scope. -/
theorem ProviderConstructor_verifier (genericOAuth : GenericOAuthConfig)
    (redirectURL : String) :
    (genericOAuth.Scope = "" →
      (ProviderConstructor genericOAuth redirectURL).1.Verifier = Verifier.NoopVerifier ∧
      ∀ (Client : Type) (verifyScope : String → Client → Bool × Option String)
        (client : Client),
        (ProviderConstructor genericOAuth redirectURL).1.Verifier.Verify verifyScope client =
          (true, none)) ∧
    (genericOAuth.Scope ≠ "" →
      (ProviderConstructor genericOAuth redirectURL).1.Verifier =
        Verifier.ScopeVerifier genericOAuth.Scope) := by
  unfold ProviderConstructor
  constructor
  · intro h
    have hn : ¬ genericOAuth.Scope ≠ "" := fun hne => hne h
    simp only [if_neg hn]
    exact ⟨trivial, fun _ _ _ => rfl⟩
  · intro h
    simp only [if_pos h]

/-- The theorem `ProviderConstructor_verifier` at a configuration without scope and at
one with the scope `read`. -/
theorem ProviderConstructor_verifier_witness :
    ((ProviderConstructor { DisplayName := "Example", ClientID := "id" }
        "https://ci.example.com/callback").1.Verifier = Verifier.NoopVerifier ∧
      (ProviderConstructor { DisplayName := "Example", ClientID := "id" }
        "https://ci.example.com/callback").1.Verifier.Verify
          (fun (_ : String) (_ : Nat) => (false, some "denied")) 0 = (true, none)) ∧
    (ProviderConstructor { DisplayName := "Example", ClientID := "id", Scope := "read" }
        "https://ci.example.com/callback").1.Verifier = Verifier.ScopeVerifier "read" :=
  ⟨⟨((ProviderConstructor_verifier { DisplayName := "Example", ClientID := "id" } _).1 rfl).1,
    ((ProviderConstructor_verifier { DisplayName := "Example", ClientID := "id" } _).1 rfl).2
      Nat _ 0⟩,
   (ProviderConstructor_verifier { DisplayName := "Example", ClientID := "id", Scope := "read" }
      _).2 (by decide)⟩

end GenericOAuth

namespace Auth

/-! ## Facts about the build write-access handler -/

/-- On every path `ServeHTTP` takes one action and returns. -/
theorem ServeHTTP_singleton (h : checkBuildWriteAccessHandler) (r : Request) :
    ∃ a, h.ServeHTTP r = [a] := by
  unfold checkBuildWriteAccessHandler.ServeHTTP
  split
  · exact ⟨_, rfl⟩
  · split
    · exact ⟨_, rfl⟩
    · split
      · exact ⟨_, rfl⟩
      · exact ⟨_, rfl⟩
      · split
        · split
          · exact ⟨_, rfl⟩
          · exact ⟨_, rfl⟩
        · exact ⟨_, rfl⟩

/-- The value added last under a key is the one the context gives for it. -/
theorem contextValue_cons (key : ContextKey) (build : Build)
    (ctx : List (ContextKey × Build)) :
    contextValue ((key, build) :: ctx) key = some build := by
  cases key
  rfl

/-! ## The claims about the build write-access handler -/

/-- C28. `checkBuildWriteAccessHandler.ServeHTTP` takes exactly one action.  It calls the
delegate exactly when the request is authenticated, the `:build_id` form value parses as
an integer, the build lookup returns no error and finds the build, and either no team is
attached to the request or the attached team is authorized for the team name of the
build; the delegate then gets the request context extended with the found build under
`BuildContextKey`.  In every other case the one action is a rejection, the checks being
made in this order: Unauthorized, 400, 500, 404, Forbidden. -/
theorem ServeHTTP_spec (h : checkBuildWriteAccessHandler) (r : Request) :
    (∃ a, h.ServeHTTP r = [a]) ∧
    ((∃ a ∈ h.ServeHTTP r, a.isDelegate = true) ↔
      r.IsAuthenticated = true ∧
      ∃ buildID, h.Atoi r.build_id = some buildID ∧
      ∃ build, h.Build buildID = .ok (some build) ∧
      ∀ IsAuthorized, r.GetTeam = some IsAuthorized → IsAuthorized build.TeamName = true) ∧
    (∀ ctx, Action.DelegateServeHTTP ctx ∈ h.ServeHTTP r →
      ∃ buildID build, h.Atoi r.build_id = some buildID ∧
        h.Build buildID = .ok (some build) ∧
        ctx = (ContextKey.BuildContextKey, build) :: r.Context ∧
        contextValue ctx ContextKey.BuildContextKey = some build) ∧
    ((¬ ∃ a ∈ h.ServeHTTP r, a.isDelegate = true) →
      ∃ a, h.ServeHTTP r = [a] ∧ a.isRejection = true) ∧
    (r.IsAuthenticated = false → h.ServeHTTP r = [Action.Unauthorized]) ∧
    (r.IsAuthenticated = true → h.Atoi r.build_id = none →
      h.ServeHTTP r = [Action.WriteHeader 400]) ∧
    (∀ buildID, r.IsAuthenticated = true → h.Atoi r.build_id = some buildID →
      ∀ err, h.Build buildID = .error err → h.ServeHTTP r = [Action.WriteHeader 500]) ∧
    (∀ buildID, r.IsAuthenticated = true → h.Atoi r.build_id = some buildID →
      h.Build buildID = .ok none → h.ServeHTTP r = [Action.WriteHeader 404]) ∧
    (∀ buildID, r.IsAuthenticated = true → h.Atoi r.build_id = some buildID →
      ∀ build, h.Build buildID = .ok (some build) →
      ∀ IsAuthorized, r.GetTeam = some IsAuthorized → IsAuthorized build.TeamName = false →
      h.ServeHTTP r = [Action.Forbidden]) := by
  refine ⟨ServeHTTP_singleton h r, ?_⟩
  unfold checkBuildWriteAccessHandler.ServeHTTP
  cases hauth : r.IsAuthenticated with
  | false => simp [Action.isDelegate, Action.isRejection]
  | true =>
    cases hatoi : h.Atoi r.build_id with
    | none => simp [Action.isDelegate, Action.isRejection, StatusBadRequest]
    | some buildID =>
      cases hbuild : h.Build buildID with
      | error err =>
        simp [Action.isDelegate, Action.isRejection, StatusInternalServerError, hbuild]
      | ok found =>
        cases found with
        | none => simp [Action.isDelegate, Action.isRejection, StatusNotFound, hbuild]
        | some build =>
          cases hteam : r.GetTeam with
          | none =>
            simp [Action.isDelegate, Action.isRejection, hbuild, contextValue_cons]
          | some IsAuthorized =>
            cases hok : IsAuthorized build.TeamName with
            | false => simp [Action.isDelegate, Action.isRejection, hbuild, hok]
            | true =>
              simp [Action.isDelegate, Action.isRejection, hbuild, hok, contextValue_cons]

/-- The theorem `ServeHTTP_spec` at a request of a member of the build's team, which
reaches the delegate with the build in the context, and at a request of a member of
another team, which is forbidden. -/
theorem ServeHTTP_spec_witness :
    (exampleHandler.ServeHTTP exampleRequest =
        [Action.DelegateServeHTTP [(ContextKey.BuildContextKey, ⟨7, "main"⟩)]] ∧
      ∃ buildID build, exampleHandler.Atoi exampleRequest.build_id = some buildID ∧
        exampleHandler.Build buildID = .ok (some build) ∧
        [(ContextKey.BuildContextKey, (⟨7, "main"⟩ : Build))] =
          (ContextKey.BuildContextKey, build) :: exampleRequest.Context ∧
        contextValue [(ContextKey.BuildContextKey, ⟨7, "main"⟩)] ContextKey.BuildContextKey =
          some build) ∧
    (otherTeamRequest.IsAuthenticated = true ∧
      exampleHandler.ServeHTTP otherTeamRequest = [Action.Forbidden]) :=
  ⟨⟨by decide, (ServeHTTP_spec exampleHandler exampleRequest).2.2.1 _ (by decide)⟩,
   ⟨rfl, (ServeHTTP_spec exampleHandler otherTeamRequest).2.2.2.2.2.2.2.2 7 rfl (by decide)
      ⟨7, "main"⟩ (by decide) _ rfl (by decide)⟩⟩

end Auth
